import Mathlib

/-!
# Verification of the buildly-core gateway request engine

Shallow embedding of `gateway/request.py` (classes `GatewayResponse`,
`BaseGatewayRequest`, `GatewayRequest`, `AsyncGatewayRequest`) together with
the parts of its collaborators that the spec describes (`gateway/exceptions`,
`gateway/utils.valid_uuid4`, `datamesh.utils.prepare_lookup_kwargs`, the
registry models).  Python dictionaries are modelled as insertion-ordered
association lists, in-place mutation as explicit state passing, and raised
exceptions as `Except` / an `Option GwError` component carried next to the
partially mutated data (Python mutations performed before a raise stay
visible to the caller).
-/

namespace Buildly

/-- A JSON-like value, the shape of payloads travelling through the gateway
(`response.json()` results and `request.data`).  Python `dict`s keep insertion
order, hence objects are association lists. -/
inductive Value where
  | vNull : Value
  | vBool : Bool → Value
  | vNum : Int → Value
  | vStr : String → Value
  | vArr : List Value → Value
  | vObj : List (String × Value) → Value
  deriving Repr

mutual

/-- Decidable equality on JSON values (manual, since deriving does not handle
the nested inductive). -/
def Value.decEq : (a b : Value) → Decidable (a = b)
  | .vNull, .vNull => .isTrue rfl
  | .vNull, .vBool _ => .isFalse (fun h => Value.noConfusion h)
  | .vNull, .vNum _ => .isFalse (fun h => Value.noConfusion h)
  | .vNull, .vStr _ => .isFalse (fun h => Value.noConfusion h)
  | .vNull, .vArr _ => .isFalse (fun h => Value.noConfusion h)
  | .vNull, .vObj _ => .isFalse (fun h => Value.noConfusion h)
  | .vBool _, .vNull => .isFalse (fun h => Value.noConfusion h)
  | .vBool a, .vBool b =>
    if h : a = b then .isTrue (h ▸ rfl) else .isFalse (fun hh => h (Value.vBool.inj hh))
  | .vBool _, .vNum _ => .isFalse (fun h => Value.noConfusion h)
  | .vBool _, .vStr _ => .isFalse (fun h => Value.noConfusion h)
  | .vBool _, .vArr _ => .isFalse (fun h => Value.noConfusion h)
  | .vBool _, .vObj _ => .isFalse (fun h => Value.noConfusion h)
  | .vNum _, .vNull => .isFalse (fun h => Value.noConfusion h)
  | .vNum _, .vBool _ => .isFalse (fun h => Value.noConfusion h)
  | .vNum a, .vNum b =>
    if h : a = b then .isTrue (h ▸ rfl) else .isFalse (fun hh => h (Value.vNum.inj hh))
  | .vNum _, .vStr _ => .isFalse (fun h => Value.noConfusion h)
  | .vNum _, .vArr _ => .isFalse (fun h => Value.noConfusion h)
  | .vNum _, .vObj _ => .isFalse (fun h => Value.noConfusion h)
  | .vStr _, .vNull => .isFalse (fun h => Value.noConfusion h)
  | .vStr _, .vBool _ => .isFalse (fun h => Value.noConfusion h)
  | .vStr _, .vNum _ => .isFalse (fun h => Value.noConfusion h)
  | .vStr a, .vStr b =>
    if h : a = b then .isTrue (h ▸ rfl) else .isFalse (fun hh => h (Value.vStr.inj hh))
  | .vStr _, .vArr _ => .isFalse (fun h => Value.noConfusion h)
  | .vStr _, .vObj _ => .isFalse (fun h => Value.noConfusion h)
  | .vArr _, .vNull => .isFalse (fun h => Value.noConfusion h)
  | .vArr _, .vBool _ => .isFalse (fun h => Value.noConfusion h)
  | .vArr _, .vNum _ => .isFalse (fun h => Value.noConfusion h)
  | .vArr _, .vStr _ => .isFalse (fun h => Value.noConfusion h)
  | .vArr xs, .vArr ys =>
    match Value.decEqList xs ys with
    | .isTrue h => .isTrue (h ▸ rfl)
    | .isFalse h => .isFalse (fun hh => h (Value.vArr.inj hh))
  | .vArr _, .vObj _ => .isFalse (fun h => Value.noConfusion h)
  | .vObj _, .vNull => .isFalse (fun h => Value.noConfusion h)
  | .vObj _, .vBool _ => .isFalse (fun h => Value.noConfusion h)
  | .vObj _, .vNum _ => .isFalse (fun h => Value.noConfusion h)
  | .vObj _, .vStr _ => .isFalse (fun h => Value.noConfusion h)
  | .vObj _, .vArr _ => .isFalse (fun h => Value.noConfusion h)
  | .vObj xs, .vObj ys =>
    match Value.decEqObj xs ys with
    | .isTrue h => .isTrue (h ▸ rfl)
    | .isFalse h => .isFalse (fun hh => h (Value.vObj.inj hh))

/-- Decidable equality on lists of JSON values. -/
def Value.decEqList : (xs ys : List Value) → Decidable (xs = ys)
  | [], [] => .isTrue rfl
  | [], _ :: _ => .isFalse (fun h => List.noConfusion h)
  | _ :: _, [] => .isFalse (fun h => List.noConfusion h)
  | x :: xs, y :: ys =>
    match Value.decEq x y with
    | .isFalse h => .isFalse (fun hh => h (List.cons.inj hh).1)
    | .isTrue h1 =>
      match Value.decEqList xs ys with
      | .isTrue h2 => .isTrue (h1 ▸ h2 ▸ rfl)
      | .isFalse h2 => .isFalse (fun hh => h2 (List.cons.inj hh).2)

/-- Decidable equality on JSON object field lists. -/
def Value.decEqObj : (xs ys : List (String × Value)) → Decidable (xs = ys)
  | [], [] => .isTrue rfl
  | [], _ :: _ => .isFalse (fun h => List.noConfusion h)
  | _ :: _, [] => .isFalse (fun h => List.noConfusion h)
  | (k, x) :: xs, (l, y) :: ys =>
    if hk : k = l then
      match Value.decEq x y with
      | .isFalse h =>
        .isFalse (fun hh => h (congrArg Prod.snd (List.cons.inj hh).1))
      | .isTrue h1 =>
        match Value.decEqObj xs ys with
        | .isTrue h2 => .isTrue (hk ▸ h1 ▸ h2 ▸ rfl)
        | .isFalse h2 => .isFalse (fun hh => h2 (List.cons.inj hh).2)
    else
      .isFalse (fun hh => hk (congrArg Prod.fst (List.cons.inj hh).1))

end

instance : DecidableEq Value := Value.decEq

deriving instance DecidableEq for Except

/-- A Python dict with string keys, in insertion order. -/
abbrev Obj := List (String × Value)

/-- `d.get(k)`: first binding of `k` (keys are unique in a Python dict, and all
our operations keep them unique). -/
def assocGet {α : Type} (d : List (String × α)) (k : String) : Option α :=
  (d.find? (fun p => p.1 = k)).map (fun p => p.2)

/-- `d[k] = v` on a Python dict: replace in place if the key exists (keeping
its position), else append at the end.  (Python dict keys are unique, so
replacing the first occurrence is the dict assignment.) -/
def assocSet {α : Type} : List (String × α) → String → α → List (String × α)
  | [], k, v => [(k, v)]
  | (a, b) :: tl, k, v =>
    if a = k then (k, v) :: tl else (a, b) :: assocSet tl k v

/-- `d.pop(k, None)`: remove the key if present. -/
def assocRemove {α : Type} (d : List (String × α)) (k : String) :
    List (String × α) :=
  d.filter (fun p => p.1 ≠ k)

/-- Membership test `k in d`. -/
def assocHas {α : Type} (d : List (String × α)) (k : String) : Bool :=
  d.any (fun p => p.1 = k)

/-- Association lookup for pair keys (used for the
`(logic_module_endpoint_name, endpoint)` registry key). -/
def assocGetP {α : Type} (d : List ((String × String) × α)) (k : String × String) :
    Option α :=
  (d.find? (fun p => p.1 = k)).map (fun p => p.2)

/-- Python truthiness of a JSON value (`if not origin_pk`). -/
def truthy : Value → Bool
  | .vNull => false
  | .vBool b => b
  | .vNum n => n ≠ 0
  | .vStr s => s ≠ ""
  | .vArr xs => !xs.isEmpty
  | .vObj fs => !fs.isEmpty

/-- Truthiness of `d.get(k)` where a missing key yields `None` (falsy). -/
def truthyOpt : Option Value → Bool
  | none => false
  | some v => truthy v

/-! ## String helpers (Python string operations used by the engine) -/

/-- Python `s.rstrip('/')`. -/
def rstripSlash (s : String) : String :=
  String.mk ((s.data.reverse.dropWhile (fun c => c = '/')).reverse)

/-- Python `s.strip('/')`. -/
def stripSlash (s : String) : String :=
  String.mk (((s.data.dropWhile (fun c => c = '/')).reverse.dropWhile
    (fun c => c = '/')).reverse)

/-- Python `str.lower()` (a structurally recursive replacement for
`String.toLower`, so that concrete runs reduce in the kernel). -/
def strToLower (s : String) : String :=
  String.mk (s.data.map Char.toLower)

/-- Worker for `strReplace`; the fuel makes the recursion structural. -/
def replaceFuel (pat rep : List Char) : Nat → List Char → List Char
  | _, [] => []
  | 0, s => s
  | Nat.succ fuel, c :: rest =>
    if pat.isPrefixOf (c :: rest) ∧ pat ≠ [] then
      rep ++ replaceFuel pat rep fuel ((c :: rest).drop pat.length)
    else c :: replaceFuel pat rep fuel rest

/-- Python `s.replace(pat, rep)` for a non-empty pattern (left-to-right,
non-overlapping), kernel-reducible. -/
def strReplace (s pat rep : String) : String :=
  String.mk (replaceFuel pat.data rep.data s.data.length s.data)

/-- Worker for substring search. -/
def findSubAux (need : List Char) : List Char → Nat → Option Nat
  | [], i => if need.isPrefixOf ([] : List Char) then some i else none
  | hay@(_ :: t), i => if need.isPrefixOf hay then some i else findSubAux need t (i + 1)

/-- Python `s.index(sub)` (as an `Option`; Python raises `ValueError` on `none`). -/
def strIndex (s sub : String) : Option Nat :=
  findSubAux sub.data s.data 0

/-- Python `s.index(c, start)` for a single character. -/
def strIndexFromChar (s : String) (c : Char) (start : Nat) : Option Nat :=
  ((s.data.drop start).findIdx? (fun d => d = c)).map (fun i => i + start)

/-- Python `s[n:]`. -/
def strDrop (s : String) (n : Nat) : String := String.mk (s.data.drop n)

/-- Python `s[:n]`. -/
def strTake (s : String) (n : Nat) : String := String.mk (s.data.take n)

/-- Hexadecimal digit test. -/
def isHexDigit (c : Char) : Bool :=
  c.isDigit || ('a' ≤ c && c ≤ 'f') || ('A' ≤ c && c ≤ 'F')

/-- Modelled from the spec: `gateway/utils.valid_uuid4` is not under `src/`.
Spec §4.3: the pk is routed through `/{model}/{uuid}/` iff it "parses as a
canonical UUID (8-4-4-4-12 hex)", and the "UUID test must be strict (correct
length and hyphen positions, hex content)". -/
def valid_uuid4 (s : String) : Bool :=
  let cs := s.data
  cs.length = 36 &&
    (List.range 36).all (fun i =>
      let c := cs.getD i ' '
      if i = 8 ∨ i = 13 ∨ i = 18 ∨ i = 23 then c = '-' else isHexDigit c)

/-- The placeholder name chosen for a present pk (`prepare_data`, request.py
lines 125-131): `uuid` for a strictly valid canonical UUID, `id` otherwise. -/
def pkName (p : String) : String :=
  if valid_uuid4 p then "uuid" else "id"

/-! ## Registry data model (`gateway.models`, `datamesh.models`) -/

/-- A registered upstream service (`LogicModule`).  `schema_url` is the URL
of its OpenAPI document (spec §3). -/
structure LogicModule where
  endpoint_name : String
  schema_url : String
  deriving Repr, DecidableEq

/-- One resource type of a service (`datamesh.models.LogicModuleModel`). -/
structure LogicModuleModel where
  logic_module_endpoint_name : String
  endpoint : String
  lookup_field_name : String
  deriving Repr, DecidableEq

/-- A directed relationship edge (`datamesh.models.Relationship`). -/
structure Relationship where
  key : String
  origin_model : LogicModuleModel
  related_model : LogicModuleModel
  deriving Repr, DecidableEq

/-- A materialized join link (`datamesh.models.JoinRecord`).  The registry
invariant (spec §3) is that exactly one of the two fields is non-null. -/
structure JoinRecord where
  related_record_id : Option Int
  related_record_uuid : Option String
  deriving Repr, DecidableEq

/-- Which JoinRecord attribute supplies the related pk
(the `related_record_field` string of `prepare_lookup_kwargs`). -/
inductive JRField where
  | relatedRecordId
  | relatedRecordUuid
  deriving Repr, DecidableEq

/-- Python `str(getattr(join_record, related_record_field))`
(`str(None) = "None"`, unreachable under the registry invariant). -/
def jrGetStr (jr : JoinRecord) : JRField → String
  | .relatedRecordId =>
    match jr.related_record_id with
    | some n => toString n
    | none => "None"
  | .relatedRecordUuid =>
    match jr.related_record_uuid with
    | some u => u
    | none => "None"

/-- Modelled from the spec: `datamesh.utils.prepare_lookup_kwargs` is not under
`src/`.  Spec §9: the helper, "given direction and a join record, returns
`(related_model, key_attribute)`"; the related model is the edge's
`related_model` for a forward traversal and its `origin_model` for a reverse
one (spec §3), and spec §4.6 has the planner "determine the related model and
which of `related_record_id` / `related_record_uuid` supplies the pk" (the
non-null one, spec §3 invariant). -/
def prepare_lookup_kwargs (is_forward_lookup : Bool) (rel : Relationship)
    (jr : JoinRecord) : LogicModuleModel × JRField :=
  let related_model := if is_forward_lookup then rel.related_model else rel.origin_model
  let field := if jr.related_record_id.isSome then JRField.relatedRecordId
               else JRField.relatedRecordUuid
  (related_model, field)

/-- The pk string built by `AsyncGatewayRequest._prepare_datamesh_tasks`
(request.py lines 561-562): `str(join_record.related_record_id)` if it is not
`None`, else `str(join_record.related_record_uuid)`. -/
def asyncJoinRecordPk (jr : JoinRecord) : String :=
  match jr.related_record_id with
  | some n => toString n
  | none =>
    match jr.related_record_uuid with
    | some u => u
    | none => "None"

/-! ## OpenAPI model (`bravado_core.spec.Spec`, reduced to what the code reads) -/

/-- One OpenAPI operation: its canonical method and templated path. -/
structure Operation where
  http_method : String
  path_name : String
  deriving Repr, DecidableEq

/-- A parsed OpenAPI document: the base URL and the operation table, keyed by
(lower-case HTTP method, templated path). -/
structure SwSpec where
  api_url : String
  ops : List ((String × String) × Operation)
  deriving Repr, DecidableEq

/-- `spec.get_op_for_request(http_method, path)`: bravado-core keys operations
by lower-case method and exact templated path. -/
def SwSpec.get_op_for_request (spec : SwSpec) (m path : String) : Option Operation :=
  assocGetP spec.ops (strToLower m, path)

/-! ## HTTP model -/

/-- A decoded upstream body: `response.json()` succeeded, or raw content
after a decoding error. -/
inductive BodyContent where
  | json : Value → BodyContent
  | raw : String → BodyContent
  deriving Repr, DecidableEq

/-- The outbound request body built by `get_request_data`: raw JSON when the
inbound content type is `application/json`, else form data. -/
inductive RequestData where
  | jsonBody : Value → RequestData
  | formData : List (String × String) → RequestData
  deriving Repr, DecidableEq

/-- One outbound HTTP call as the engine issues it.  `params` is the query
string collection handed to the HTTP library (`params=self.request.query_params`
in the synchronous engine; the asynchronous engine passes no query parameters,
modelled as `[]`). -/
structure UpstreamCall where
  method : String
  url : String
  params : List (String × String)
  headers : List (String × String)
  data : RequestData
  deriving Repr, DecidableEq

/-- Result of an upstream HTTP exchange: a transport-level exception or a
response (any status). -/
inductive HttpResult where
  | transportError : String → HttpResult
  | ok : BodyContent → Nat → List (String × String) → HttpResult
  deriving Repr, DecidableEq

/-! ## External collaborators (spec §6: registry and network as pure oracles) -/

/-- The read-only external world of one inbound request: the registry tables
and the deterministic responses of upstream services. -/
structure Env where
  logic_modules : List (String × LogicModule)
  logic_module_models : List ((String × String) × LogicModuleModel)
  relationships : String → String → List (Relationship × Bool)
  join_records : Value → Relationship → Bool → List JoinRecord
  spec_documents : String → Option SwSpec
  http : UpstreamCall → HttpResult

/-- The inbound request (`rest_framework.request.Request`), without multipart
files (no claim involves uploads). -/
structure InboundRequest where
  method : String
  path : String
  authorization : String
  content_type : String
  query_params : List (String × String)
  json_body : Value
  form_body : List (String × String)
  deriving Repr, DecidableEq

/-- The URL kwargs of the gateway route `/{service}/{model}[/{pk}]/`. -/
structure UrlKwargs where
  service : String
  model : String
  pk : Option String
  deriving Repr, DecidableEq

/-- The kwargs `prepare_data` actually reads (`model`, `pk`). -/
structure SubKwargs where
  model : String
  pk : Option String
  deriving Repr, DecidableEq

/-- The exceptions of `gateway/exceptions.py` that the engine raises or
catches, by kind (spec §7 error taxonomy). -/
inductive GwError where
  | serviceDoesNotExist : String → GwError
  | endpointNotFound : String → GwError
  | gatewayError : String → GwError
  | dataMeshError : String → GwError
  | pyError : String → GwError
  deriving Repr, DecidableEq

/-- The engine's output (`GatewayResponse`).  `json.dumps` of dict/list content
is modelled as the identity on the structured value. -/
structure GatewayResponse where
  content : BodyContent
  status_code : Nat
  headers : List (String × String)
  deriving Repr, DecidableEq

/-- The mutable state of one gateway-request instance: the live query-parameter
collection of the shared request object (`request._request.GET`), the
per-request caches (`_logic_modules`, `_specs`, `_data`), and observation logs
of the outbound traffic (`upstream_calls`, `spec_fetches`) and of
`logger.error` calls. -/
structure GwState where
  request_GET : List (String × String)
  logic_modules_cache : List (String × LogicModule)
  specs_cache : List (String × SwSpec)
  data_cache : List (String × (BodyContent × Nat × List (String × String)))
  upstream_calls : List UpstreamCall
  spec_fetches : List String
  error_log : List String
  deriving Repr, DecidableEq

/-- State at request entry: the live query parameters are the inbound ones,
all caches and logs empty. -/
def initState (inb : InboundRequest) : GwState :=
  { request_GET := inb.query_params
    logic_modules_cache := []
    specs_cache := []
    data_cache := []
    upstream_calls := []
    spec_fetches := []
    error_log := [] }

/-! ## BaseGatewayRequest methods -/

/-- `BaseGatewayRequest._get_logic_module` (request.py lines 61-68): retrieve a
LogicModule by service name through the `_logic_modules` cache; an unknown name
raises `ServiceDoesNotExist`. -/
def _get_logic_module (env : Env) (service_name : String) (st : GwState) :
    GwState × Except GwError LogicModule :=
  match assocGet st.logic_modules_cache service_name with
  | some lm => (st, .ok lm)
  | none =>
    match assocGet env.logic_modules service_name with
    | none => (st, .error (.serviceDoesNotExist s!"Service \"{service_name}\" not found."))
    | some lm =>
      ({ st with logic_modules_cache := assocSet st.logic_modules_cache service_name lm },
       .ok lm)

/-- `BaseGatewayRequest.is_valid_for_cache` (request.py lines 70-72): the
request is cache-valid iff the inbound method is GET and the live
query-parameter collection is empty. -/
def is_valid_for_cache (inb : InboundRequest) (st : GwState) : Bool :=
  strToLower inb.method = "get" && st.request_GET.isEmpty

/-- `QueryDict.dict()`: one value per key (the last), in first-occurrence
order. -/
def dictOfQuery (qs : List (String × String)) : List (String × String) :=
  qs.foldl (fun acc kv => assocSet acc kv.1 kv.2) []

/-- `BaseGatewayRequest.get_request_data` (request.py lines 74-105): raw JSON
body for JSON requests; otherwise the query parameters with the
gateway-private keys `aggregate` and `join` popped, updated with the form body
for POST/PUT/PATCH.  (Uploaded files are not modelled.) -/
def get_request_data (inb : InboundRequest) (st : GwState) : RequestData :=
  if inb.content_type = "application/json" then
    .jsonBody inb.json_body
  else
    let method := strToLower inb.method
    let data := dictOfQuery st.request_GET
    let data := assocRemove data "aggregate"
    let data := assocRemove data "join"
    let data :=
      if method = "post" ∨ method = "put" ∨ method = "patch" then
        inb.form_body.foldl (fun acc kv => assocSet acc kv.1 kv.2) data
      else data
    .formData data

/-- `BaseGatewayRequest.get_headers` (request.py lines 107-114). -/
def get_headers (inb : InboundRequest) : List (String × String) :=
  let hs := [("Authorization", inb.authorization)]
  if inb.content_type = "application/json" then
    hs ++ [("content-type", "application/json")]
  else hs

/-- `BaseGatewayRequest.prepare_data` (request.py lines 116-142): build the
inbound path template from `model`/`pk`, look the operation up in the spec
(`EndpointNotFound` when absent), and return the spec's canonical lower-case
method together with the base URL (trailing slashes stripped) concatenated
with the spec's `path_name`, the pk placeholder substituted. -/
def prepare_data (spec : SwSpec) (reqMethod : String) (kw : SubKwargs) :
    Except GwError (String × String) :=
  let model := strToLower kw.model
  let (path, path_kwargs) :=
    match kw.pk with
    | none => (s!"/{model}/", ([] : List (String × String)))
    | some p =>
      let pk_name := if valid_uuid4 p then "uuid" else "id"
      (s!"/{model}/\x7b{pk_name}\x7d/", [(pk_name, p)])
  match spec.get_op_for_request reqMethod path with
  | none => .error (.endpointNotFound s!"Endpoint not found: {reqMethod} {path}")
  | some op =>
    let method := strToLower op.http_method
    let url := path_kwargs.foldl
      (fun u kv => strReplace u (s!"\x7b{kv.1}\x7d") kv.2)
      (rstripSlash spec.api_url ++ op.path_name)
    .ok (method, url)

/-- `BaseGatewayRequest.get_datamesh_relationships` (request.py lines
144-157): resolve the LogicModule, carve the endpoint fragment out of the
inbound path, fetch the LogicModuleModel by `(endpoint_name, endpoint)` and
return its ordered relationships and `lookup_field_name`.  A failing substring
search or registry lookup raises (`ValueError` / `DoesNotExist`, modelled as
`pyError`). -/
def get_datamesh_relationships (env : Env) (inb : InboundRequest)
    (service : String) (st : GwState) :
    GwState × Except GwError (List (Relationship × Bool) × String) :=
  match _get_logic_module env service st with
  | (st, .error e) => (st, .error e)
  | (st, .ok lm) =>
    let pat := "/" ++ lm.endpoint_name
    match strIndex inb.path pat with
    | none => (st, .error (.pyError "substring not found"))
    | some padding =>
      let endpoint0 := strDrop inb.path (pat.length + padding)
      match strIndexFromChar endpoint0 '/' 1 with
      | none => (st, .error (.pyError "substring not found"))
      | some idx =>
        let endpoint := strTake endpoint0 (idx + 1)
        match assocGetP env.logic_module_models (lm.endpoint_name, endpoint) with
        | none => (st, .error (.pyError "LogicModuleModel matching query does not exist"))
        | some lmm =>
          (st, .ok (env.relationships lmm.logic_module_endpoint_name lmm.endpoint,
                    lmm.lookup_field_name))

/-! ## GatewayRequest (synchronous engine) -/

/-- Modelled from the spec: `gateway/utils.get_swagger_url_by_logic_module` is
not under `src/`; spec §3 has each LogicModule carry "`schema_url` (where to
fetch OpenAPI)". -/
def get_swagger_url_by_logic_module (lm : LogicModule) : String :=
  lm.schema_url

/-- `GatewayRequest._get_swagger_spec` (request.py lines 177-192): resolve the
LogicModule, then fetch and memoize the OpenAPI document keyed by
`schema_url`; a failed fetch is fatal (spec §4.2: surfaced as a
`GatewayError` identifying the unreachable URL). -/
def _get_swagger_spec (env : Env) (endpoint_name : String) (st : GwState) :
    GwState × Except GwError SwSpec :=
  match _get_logic_module env endpoint_name st with
  | (st, .error e) => (st, .error e)
  | (st, .ok lm) =>
    let schema_url := get_swagger_url_by_logic_module lm
    match assocGet st.specs_cache schema_url with
    | some sp => (st, .ok sp)
    | none =>
      let st := { st with spec_fetches := st.spec_fetches ++ [schema_url] }
      match env.spec_documents schema_url with
      | none => (st, .error (.gatewayError s!"Make sure that {schema_url} is accessible."))
      | some sp =>
        ({ st with specs_cache := assocSet st.specs_cache schema_url sp }, .ok sp)

/-- The `GatewayError` message built in `_data_request` on a transport
failure (request.py lines 241-245). -/
def transportErrorMsg (m : String) : String :=
  "An error occurred when redirecting the request to or receiving the response from the service. Origin: " ++ m

/-- `GatewayRequest._data_request` (request.py lines 221-257): resolve method
and URL via `prepare_data`, serve from the per-request `_data` cache when the
request is cache-valid and the URL was already fetched, otherwise issue the
upstream call (forwarding the live query parameters via `params=`), turn a
transport exception into a fatal `GatewayError`, and cache the result when
cache-valid. -/
def _data_request (env : Env) (inb : InboundRequest) (spec : SwSpec)
    (kw : SubKwargs) (st : GwState) :
    GwState × Except GwError (BodyContent × Nat × List (String × String)) :=
  match prepare_data spec inb.method kw with
  | .error e => (st, .error e)
  | .ok (method, url) =>
    match (if is_valid_for_cache inb st then assocGet st.data_cache url else none) with
    | some r => (st, .ok r)
    | none =>
      let call : UpstreamCall :=
        { method := method, url := url, params := st.request_GET,
          headers := get_headers inb, data := get_request_data inb st }
      let st := { st with upstream_calls := st.upstream_calls ++ [call] }
      match env.http call with
      | .transportError m => (st, .error (.gatewayError (transportErrorMsg m)))
      | .ok body status headers =>
        let ret := (body, status, headers)
        let st :=
          if is_valid_for_cache inb st then
            { st with data_cache := assocSet st.data_cache url ret }
          else st
        (st, .ok ret)

/-- The `logger.error` message of a dropped join entry (request.py line 322). -/
def noResponseDataMsg : String :=
  "No response data for join record"

/-- Append a value to the list stored under `k` (the in-place
`data_item[relationship.key].append(...)` of request.py line 320).  The key
always holds a list here: the relationship loop sets it to `[]` first. -/
def arrAppend (item : Obj) (k : String) (v : Value) : Obj :=
  match assocGet item k with
  | some (.vArr xs) => assocSet item k (.vArr (xs ++ [v]))
  | _ => assocSet item k (.vArr [v])

/-- One iteration of the `for join_record in join_records` loop in
`GatewayRequest._add_nested_data` (request.py lines 308-322): build the
sub-request kwargs, perform the service request, embed a dict body under the
relationship key, and log (dropping the entry) on any other body. -/
def joinRecordStep (env : Env) (inb : InboundRequest) (spec : SwSpec)
    (related_model : LogicModuleModel) (field : JRField) (relKey : String)
    (item : Obj) (jr : JoinRecord) (st : GwState) :
    GwState × Obj × Option GwError :=
  let kw : SubKwargs :=
    { model := stripSlash related_model.endpoint, pk := some (jrGetStr jr field) }
  match _data_request env inb spec kw st with
  | (st, .error e) => (st, item, some e)
  | (st, .ok (content, _, _)) =>
    match content with
    | .json (.vObj fields) => (st, arrAppend item relKey (.vObj fields), none)
    | _ => ({ st with error_log := st.error_log ++ [noResponseDataMsg] }, item, none)

/-- The join-record loop of `_add_nested_data`, propagating a raised exception
(which aborts the remaining records but keeps earlier in-place appends). -/
def runJoinRecords (env : Env) (inb : InboundRequest) (spec : SwSpec)
    (related_model : LogicModuleModel) (field : JRField) (relKey : String) :
    List JoinRecord → Obj → GwState → GwState × Obj × Option GwError
  | [], item, st => (st, item, none)
  | jr :: rest, item, st =>
    match joinRecordStep env inb spec related_model field relKey item jr st with
    | (st, item, some e) => (st, item, some e)
    | (st, item, none) =>
      runJoinRecords env inb spec related_model field relKey rest item st

/-- One iteration of the `for relationship, is_forward_lookup in relationships`
loop in `GatewayRequest._add_nested_data` (request.py lines 298-322): set the
relationship key to `[]`, fetch the join records, and when there are any,
resolve the related model's spec and run the join-record loop. -/
def relationshipStep (env : Env) (inb : InboundRequest) (origin_pk : Value)
    (item : Obj) (rel : Relationship) (fwd : Bool) (st : GwState) :
    GwState × Obj × Option GwError :=
  let item := assocSet item rel.key (.vArr [])
  match env.join_records origin_pk rel fwd with
  | [] => (st, item, none)
  | jr0 :: rest =>
    let (related_model, field) := prepare_lookup_kwargs fwd rel jr0
    match _get_swagger_spec env related_model.logic_module_endpoint_name st with
    | (st, .error e) => (st, item, some e)
    | (st, .ok spec) =>
      runJoinRecords env inb spec related_model field rel.key (jr0 :: rest) item st

/-- The relationship loop of `_add_nested_data`, propagating exceptions. -/
def runRelationships (env : Env) (inb : InboundRequest) (origin_pk : Value) :
    List (Relationship × Bool) → Obj → GwState → GwState × Obj × Option GwError
  | [], item, st => (st, item, none)
  | (rel, fwd) :: rest, item, st =>
    match relationshipStep env inb origin_pk item rel fwd st with
    | (st, item, some e) => (st, item, some e)
    | (st, item, none) => runRelationships env inb origin_pk rest item st

/-- The `DataMeshError` message of `_add_nested_data` (request.py lines
293-296). -/
def dataMeshErrorMsg (f : String) : String :=
  s!"DataMeshConfigurationError: lookup_field_name \"{f}\" not found in response."

/-- `GatewayRequest._add_nested_data` (request.py lines 282-322): clear the
live query parameters on the shared request object, read the origin lookup
value (raising `DataMeshError` when missing or falsy), then run the
relationship loop. -/
def _add_nested_data (env : Env) (inb : InboundRequest) (item : Obj)
    (rels : List (Relationship × Bool)) (origin_lookup_field : String)
    (st : GwState) : GwState × Obj × Option GwError :=
  let st := { st with request_GET := [] }
  let pk? := assocGet item origin_lookup_field
  if truthyOpt pk? then
    runRelationships env inb (pk?.getD .vNull) rels item st
  else
    (st, item, some (.dataMeshError (dataMeshErrorMsg origin_lookup_field)))

/-- The list-view loop of `_join_response_data` (request.py lines 277-280):
process items in order; a raised exception leaves the remaining items
untouched.  A non-dict item raises `AttributeError` (modelled `pyError`). -/
def runItems (env : Env) (inb : InboundRequest) (rels : List (Relationship × Bool))
    (f : String) : List Value → GwState → GwState × List Value × Option GwError
  | [], st => (st, [], none)
  | item :: rest, st =>
    match item with
    | .vObj fields =>
      match _add_nested_data env inb fields rels f st with
      | (st, fields', some e) => (st, .vObj fields' :: rest, some e)
      | (st, fields', none) =>
        match runItems env inb rels f rest st with
        | (st, rest', err) => (st, .vObj fields' :: rest', err)
    | other => (st, other :: rest, some (.pyError "data_item has no attribute get"))

/-- `GatewayRequest._join_response_data` (request.py lines 259-280): unwrap a
paginated `results` member, fetch relationships and the lookup field, then
dispatch on detail view (dict) or list view (list); the in-place mutations are
re-wrapped into the original payload. -/
def _join_response_data (env : Env) (inb : InboundRequest) (service : String)
    (resp : Value) (st : GwState) : GwState × Value × Option GwError :=
  let unwrapped : Bool × Value :=
    match resp with
    | .vObj fields =>
      match assocGet fields "results" with
      | some r => (true, r)
      | none => (false, resp)
    | _ => (false, resp)
  match get_datamesh_relationships env inb service st with
  | (st, .error e) => (st, resp, some e)
  | (st, .ok (rels, f)) =>
    let didUnwrap := unwrapped.1
    let work := unwrapped.2
    let processed : GwState × Value × Option GwError :=
      match work with
      | .vObj fields =>
        match _add_nested_data env inb fields rels f st with
        | (st, fields', err) => (st, Value.vObj fields', err)
      | .vArr items =>
        match runItems env inb rels f items st with
        | (st, items', err) => (st, Value.vArr items', err)
      | other => (st, other, none)
    match processed with
    | (st, work', err) =>
      let resp' :=
        if didUnwrap then
          match resp with
          | .vObj fields => Value.vObj (assocSet fields "results" work')
          | other => other
        else work'
      (st, resp', err)

/-- `type(content) in [dict, list]` for a decoded body. -/
def isJsonContainer : BodyContent → Bool
  | .json (.vObj _) => true
  | .json (.vArr _) => true
  | _ => false

/-- Tail of `GatewayRequest._get_data`: the legacy `aggregate` aggregation
(request.py lines 209-214) is explicitly outside the spec's scope (§1: a
"legacy 'aggregate' path ... new implementations need not reproduce it") and
is modelled as a no-op; theorems whose truth could depend on that branch carry
the hypothesis that the `aggregate` parameter is not `"true"`.  `json.dumps`
of dict/list content (line 217) is modelled as the identity on the structured
value. -/
def finishData (st : GwState) (content : BodyContent) (status : Nat)
    (headers : List (String × String)) : GwState × Except GwError GatewayResponse :=
  (st, .ok { content := content, status_code := status, headers := headers })

/-- `GatewayRequest._get_data` (request.py lines 194-219): perform the primary
service request; on a 200 dict/list response with `join` among the query
parameters run the DataMesh join, catching (and error-logging) only
`ServiceDoesNotExist`; other exceptions propagate and fail the request.  The
response always carries the primary call's status and headers. -/
def _get_data (env : Env) (inb : InboundRequest) (kwargs : UrlKwargs)
    (spec : SwSpec) (st : GwState) : GwState × Except GwError GatewayResponse :=
  match _data_request env inb spec { model := kwargs.model, pk := kwargs.pk } st with
  | (st, .error e) => (st, .error e)
  | (st, .ok (content, status_code, headers)) =>
    if assocHas st.request_GET "join" && status_code == 200 && isJsonContainer content then
      match content with
      | .json v =>
        match _join_response_data env inb kwargs.service v st with
        | (st, v', some (.serviceDoesNotExist m)) =>
          finishData { st with error_log := st.error_log ++ [m] } (.json v')
            status_code headers
        | (st, _, some e) => (st, .error e)
        | (st, v', none) => finishData st (.json v') status_code headers
      | c => finishData st c status_code headers
    else
      finishData st content status_code headers

/-- `GatewayRequest.perform` (request.py lines 165-175): fetch the service's
OpenAPI spec; a `ServiceDoesNotExist` here becomes a 404-like response (the
exception's body/status, spec §7), any other failure propagates; then
`_get_data`. -/
def performSync (env : Env) (inb : InboundRequest) (kwargs : UrlKwargs)
    (st : GwState) : GwState × Except GwError GatewayResponse :=
  match _get_swagger_spec env kwargs.service st with
  | (st, .error (.serviceDoesNotExist m)) =>
    (st, .ok { content := .raw m, status_code := 404,
               headers := [("Content-Type", "application/json")] })
  | (st, .error e) => (st, .error e)
  | (st, .ok spec) => _get_data env inb kwargs spec st

/-! ## AsyncGatewayRequest (concurrent engine)

The asyncio runtime is cooperative: a coroutine runs uninterrupted until its
first genuinely suspending `await` (here: the network operations), and the
per-request caches are plain dict reads/writes inside those synchronous
prefixes.  The fan-out's nondeterminism therefore lives in the *completion
order* of the gathered sub-requests, which the model takes as an explicit
parameter (a list of task indices); each task body is executed atomically in
that order.  Upstream responses are a pure function of the call, so the data
appended by a task does not depend on the interleaving, only its position
does. -/

/-- `AsyncGatewayRequest._get_swagger_spec` (request.py lines 445-461) used
sequentially (awaited directly): same cache logic as the synchronous engine,
with the async error message on an unparsable document. -/
def async_get_swagger_spec (env : Env) (endpoint_name : String) (st : GwState) :
    GwState × Except GwError SwSpec :=
  match _get_logic_module env endpoint_name st with
  | (st, .error e) => (st, .error e)
  | (st, .ok lm) =>
    let schema_url := get_swagger_url_by_logic_module lm
    match assocGet st.specs_cache schema_url with
    | some sp => (st, .ok sp)
    | none =>
      let st := { st with spec_fetches := st.spec_fetches ++ [schema_url] }
      match env.spec_documents schema_url with
      | none =>
        (st, .error (.gatewayError
          s!"Failed to parse swagger schema from {schema_url}. Should be JSON."))
      | some sp =>
        ({ st with specs_cache := assocSet st.specs_cache schema_url sp }, .ok sp)

/-- Resolve the logic modules of the warm-up tasks (request.py lines 519-523:
one `_get_swagger_spec(relationship.related_model.logic_module_endpoint_name)`
task per relationship, regardless of direction).  The synchronous prefixes of
the gathered tasks run in task order, so the `_logic_modules` cache accumulates
sequentially. -/
def warmupUrls (env : Env) : List (Relationship × Bool) → GwState →
    GwState × Except GwError (List String)
  | [], st => (st, .ok [])
  | (rel, _) :: rest, st =>
    match _get_logic_module env rel.related_model.logic_module_endpoint_name st with
    | (st, .error e) => (st, .error e)
    | (st, .ok lm) =>
      match warmupUrls env rest st with
      | (st, .error e) => (st, .error e)
      | (st, .ok us) => (st, .ok (get_swagger_url_by_logic_module lm :: us))

/-- Complete the warm-up fetches in task order, writing each fetched document
into the `_specs` cache; an unfetchable document fails the join. -/
def warmupWrite (env : Env) : List String → GwState → GwState × Option GwError
  | [], st => (st, none)
  | u :: rest, st =>
    match env.spec_documents u with
    | none =>
      (st, some (.gatewayError s!"Failed to parse swagger schema from {u}. Should be JSON."))
    | some sp =>
      warmupWrite env rest { st with specs_cache := assocSet st.specs_cache u sp }

/-- The spec warm-up phase of `AsyncGatewayRequest._join_response_data`
(request.py lines 518-523).  Every gathered `_get_swagger_spec` task performs
its `_specs` cache check in its synchronous prefix, before any fetch has
completed and written, so each task whose `schema_url` is uncached *at
warm-up entry* starts its own fetch — concurrent misses for one key do not
coalesce. -/
def asyncWarmup (env : Env) (rels : List (Relationship × Bool)) (st : GwState) :
    GwState × Option GwError :=
  match warmupUrls env rels st with
  | (st, .error e) => (st, some e)
  | (st, .ok us) =>
    let misses := us.filter (fun u => !(assocHas st.specs_cache u))
    let st := { st with spec_fetches := st.spec_fetches ++ misses }
    warmupWrite env misses st

/-- One planned fan-out sub-request of the concurrent engine: the coroutine
built by `_prepare_datamesh_tasks` for one join record, targeting the embed
list (`placeholder`) of planning slot `slotIdx` of record `itemIdx`. -/
structure ATask where
  itemIdx : Nat
  slotIdx : Nat
  relKey : String
  model : String
  pk : String
  spec : SwSpec
  deriving Repr, DecidableEq

/-- `AsyncGatewayRequest._data_request` (request.py lines 481-504): as the
synchronous one, but the aiohttp call carries no query-string parameters
(line 493 passes only `data` and `headers`), modelled as `params := []`. -/
def async_data_request (env : Env) (inb : InboundRequest) (spec : SwSpec)
    (kw : SubKwargs) (st : GwState) :
    GwState × Except GwError (BodyContent × Nat × List (String × String)) :=
  match prepare_data spec inb.method kw with
  | .error e => (st, .error e)
  | .ok (method, url) =>
    match (if is_valid_for_cache inb st then assocGet st.data_cache url else none) with
    | some r => (st, .ok r)
    | none =>
      let call : UpstreamCall :=
        { method := method, url := url, params := [],
          headers := get_headers inb, data := get_request_data inb st }
      let st := { st with upstream_calls := st.upstream_calls ++ [call] }
      match env.http call with
      | .transportError m => (st, .error (.gatewayError (transportErrorMsg m)))
      | .ok body status headers =>
        let ret := (body, status, headers)
        let st :=
          if is_valid_for_cache inb st then
            { st with data_cache := assocSet st.data_cache url ret }
          else st
        (st, .ok ret)

/-- The relationship loop of `AsyncGatewayRequest._prepare_datamesh_tasks`
(request.py lines 550-569): set each relationship key to `[]`, fetch join
records, resolve the related spec, and emit one task per join record (whose pk
is always taken from `related_record_id`/`related_record_uuid`, lines
561-562).  Returns the planned slots in planning order and the emitted tasks
in emission order. -/
def asyncPlanRels (env : Env) (inb : InboundRequest) (itemIdx : Nat)
    (origin_pk : Value) :
    List (Relationship × Bool) → Nat → Obj → GwState →
    GwState × Obj × List (Nat × String) × List ATask × Option GwError
  | [], _, item, st => (st, item, [], [], none)
  | (rel, fwd) :: rest, slotIdx, item, st =>
    let item := assocSet item rel.key (.vArr [])
    match env.join_records origin_pk rel fwd with
    | [] =>
      match asyncPlanRels env inb itemIdx origin_pk rest (slotIdx + 1) item st with
      | (st, item, slots, tasks, err) =>
        (st, item, (slotIdx, rel.key) :: slots, tasks, err)
    | jr0 :: rest_jr =>
      let rm_field := prepare_lookup_kwargs fwd rel jr0
      let related_model := rm_field.1
      match async_get_swagger_spec env related_model.logic_module_endpoint_name st with
      | (st, .error e) => (st, item, [(slotIdx, rel.key)], [], some e)
      | (st, .ok spec) =>
        let newTasks := (jr0 :: rest_jr).map (fun jr =>
          { itemIdx := itemIdx, slotIdx := slotIdx, relKey := rel.key,
            model := stripSlash related_model.endpoint,
            pk := asyncJoinRecordPk jr, spec := spec : ATask })
        match asyncPlanRels env inb itemIdx origin_pk rest (slotIdx + 1) item st with
        | (st, item, slots, tasks, err) =>
          (st, item, (slotIdx, rel.key) :: slots, newTasks ++ tasks, err)

/-- `AsyncGatewayRequest._prepare_datamesh_tasks` for one record (request.py
lines 535-569): clear the live query parameters, check the origin lookup value
(raising `DataMeshError` when missing or falsy), then plan the relationship
loop. -/
def asyncPlanItem (env : Env) (inb : InboundRequest) (itemIdx : Nat)
    (fields : Obj) (rels : List (Relationship × Bool)) (f : String)
    (st : GwState) :
    GwState × Obj × List (Nat × String) × List ATask × Option GwError :=
  let st := { st with request_GET := [] }
  let pk? := assocGet fields f
  if truthyOpt pk? then
    asyncPlanRels env inb itemIdx (pk?.getD .vNull) rels 0 fields st
  else
    (st, fields, [], [], some (.dataMeshError (dataMeshErrorMsg f)))

/-- Planning over a list view (request.py lines 529-532): records are planned
in order, a raised exception aborting the remaining ones before any task
runs. -/
def asyncPlanItems (env : Env) (inb : InboundRequest)
    (rels : List (Relationship × Bool)) (f : String) :
    List Value → Nat → GwState →
    GwState × List (Value × List (Nat × String)) × List ATask × Option GwError
  | [], _, st => (st, [], [], none)
  | item :: rest, idx, st =>
    match item with
    | .vObj fields =>
      match asyncPlanItem env inb idx fields rels f st with
      | (st, fields', slots, tasks, some e) =>
        (st, (Value.vObj fields', slots) :: rest.map (fun v => (v, [])), tasks, some e)
      | (st, fields', slots, tasks, none) =>
        match asyncPlanItems env inb rels f rest (idx + 1) st with
        | (st, rest', tasks2, err) =>
          (st, (Value.vObj fields', slots) :: rest', tasks ++ tasks2, err)
    | other =>
      (st, (other, []) :: rest.map (fun v => (v, [])), [],
       some (.pyError "data_item has no attribute get"))

/-- Reorder the planned tasks into their completion order `σ` (a permutation
of the task indices). -/
def permuteTasks (σ : List Nat) (tasks : List ATask) : List ATask :=
  σ.filterMap (fun i => tasks.get? i)

/-- Execute the gathered `_extend_content` coroutines (request.py lines
571-577) in completion order: each performs its `_data_request` and appends a
dict body to its placeholder (recorded as `some content`), logging and
dropping any other body; a raised exception loses the not-yet-completed
tasks. -/
def asyncRunTasks (env : Env) (inb : InboundRequest) :
    List ATask → GwState → GwState × List (ATask × Option Value) × Option GwError
  | [], st => (st, [], none)
  | t :: rest, st =>
    match async_data_request env inb t.spec { model := t.model, pk := some t.pk } st with
    | (st, .error e) => (st, [], some e)
    | (st, .ok (content, _, _)) =>
      match content with
      | .json (.vObj fields) =>
        match asyncRunTasks env inb rest st with
        | (st, out, err) => (st, (t, some (Value.vObj fields)) :: out, err)
      | _ =>
        let st := { st with error_log := st.error_log ++ [noResponseDataMsg] }
        match asyncRunTasks env inb rest st with
        | (st, out, err) => (st, (t, none) :: out, err)

/-- Materialize one record after the fan-out: each planned slot's key holds
the placeholder list with the successful task contents in completion order
(a later planning slot for the same key supersedes an earlier one, exactly
like the re-assignment of the placeholder object in the source). -/
def asyncMaterializeItem (executed : List (ATask × Option Value)) (itemIdx : Nat)
    (item : Obj) (slots : List (Nat × String)) : Obj :=
  slots.foldl (fun it slot =>
    let contents := (executed.filter (fun p =>
      p.1.itemIdx == itemIdx && p.1.slotIdx == slot.1)).filterMap (fun p => p.2)
    assocSet it slot.2 (.vArr contents)) item

/-- Materialize all records of a list view. -/
def materializeItems (executed : List (ATask × Option Value))
    (pitems : List (Value × List (Nat × String))) : List Value :=
  pitems.enum.map (fun p =>
    match p.2.1 with
    | .vObj fields => Value.vObj (asyncMaterializeItem executed p.1 fields p.2.2)
    | other => other)

/-- Re-wrap the processed payload into the paginated envelope when the join
operated on a `results` member. -/
def rewrap (didUnwrap : Bool) (orig work : Value) : Value :=
  if didUnwrap then
    match orig with
    | .vObj fields => Value.vObj (assocSet fields "results" work)
    | other => other
  else work

/-- `AsyncGatewayRequest._join_response_data` (request.py lines 506-533):
pagination unwrap, relationship lookup, spec warm-up, sequential planning,
then the fan-out in completion order `σ` followed by materialization of the
placeholders. -/
def async_join_response_data (env : Env) (inb : InboundRequest) (service : String)
    (σ : List Nat) (resp : Value) (st : GwState) :
    GwState × Value × Option GwError :=
  let unwrapped : Bool × Value :=
    match resp with
    | .vObj fields =>
      match assocGet fields "results" with
      | some r => (true, r)
      | none => (false, resp)
    | _ => (false, resp)
  match get_datamesh_relationships env inb service st with
  | (st, .error e) => (st, resp, some e)
  | (st, .ok (rels, f)) =>
    match asyncWarmup env rels st with
    | (st, some e) => (st, resp, some e)
    | (st, none) =>
      let didUnwrap := unwrapped.1
      let work := unwrapped.2
      match work with
      | .vObj fields =>
        match asyncPlanItem env inb 0 fields rels f st with
        | (st, fields', _, _, some e) =>
          (st, rewrap didUnwrap resp (Value.vObj fields'), some e)
        | (st, fields', slots, tasks, none) =>
          match asyncRunTasks env inb (permuteTasks σ tasks) st with
          | (st, executed, errE) =>
            let fields2 := asyncMaterializeItem executed 0 fields' slots
            (st, rewrap didUnwrap resp (Value.vObj fields2), errE)
      | .vArr items =>
        match asyncPlanItems env inb rels f items 0 st with
        | (st, pitems, _, some e) =>
          (st, rewrap didUnwrap resp (Value.vArr (pitems.map (fun p => p.1))), some e)
        | (st, pitems, tasks, none) =>
          match asyncRunTasks env inb (permuteTasks σ tasks) st with
          | (st, executed, errE) =>
            (st, rewrap didUnwrap resp (Value.vArr (materializeItems executed pitems)), errE)
      | other => (st, rewrap didUnwrap resp other, none)

/-- `AsyncGatewayRequest._get_data` (request.py lines 463-479): as the
synchronous one but without the legacy aggregate branch; only
`ServiceDoesNotExist` from the join is caught and error-logged. -/
def async_get_data (env : Env) (inb : InboundRequest) (kwargs : UrlKwargs)
    (σ : List Nat) (spec : SwSpec) (st : GwState) :
    GwState × Except GwError GatewayResponse :=
  match async_data_request env inb spec { model := kwargs.model, pk := kwargs.pk } st with
  | (st, .error e) => (st, .error e)
  | (st, .ok (content, status_code, headers)) =>
    if assocHas st.request_GET "join" && status_code == 200 && isJsonContainer content then
      match content with
      | .json v =>
        match async_join_response_data env inb kwargs.service σ v st with
        | (st, v', some (.serviceDoesNotExist m)) =>
          ({ st with error_log := st.error_log ++ [m] },
           .ok { content := .json v', status_code := status_code, headers := headers })
        | (st, _, some e) => (st, .error e)
        | (st, v', none) =>
          (st, .ok { content := .json v', status_code := status_code, headers := headers })
      | c => (st, .ok { content := c, status_code := status_code, headers := headers })
    else
      (st, .ok { content := content, status_code := status_code, headers := headers })

/-- `AsyncGatewayRequest.perform` / `async_perform` (request.py lines
428-443): on `ServiceDoesNotExist` at the spec step, `async_perform` returns
without filling `result`, so `perform` raises
`GatewayError('Error performing asynchronous gateway request')`; other
exceptions propagate through `asyncio.run`. -/
def performAsync (env : Env) (inb : InboundRequest) (kwargs : UrlKwargs)
    (σ : List Nat) (st : GwState) : GwState × Except GwError GatewayResponse :=
  match async_get_swagger_spec env kwargs.service st with
  | (st, .error (.serviceDoesNotExist _)) =>
    (st, .error (.gatewayError "Error performing asynchronous gateway request"))
  | (st, .error e) => (st, .error e)
  | (st, .ok spec) => async_get_data env inb kwargs σ spec st

/-- The payload the join operates on after pagination normalization: the value
under `results` when the payload is an object carrying that key, else the
payload itself (request.py lines 267-270 and 511-514). -/
def joinWork : Value → Value
  | .vObj fields =>
    match assocGet fields "results" with
    | some r => r
    | none => .vObj fields
  | v => v

/-- The join reaches `_add_nested_data` (respectively
`_prepare_datamesh_tasks`) for at least one record: the normalized payload is
a detail object, or a list whose first element is an object. -/
def processesARecord (v : Value) : Prop :=
  (∃ fields, joinWork v = .vObj fields) ∨
  (∃ fields rest, joinWork v = .vArr (.vObj fields :: rest))

/-! ## Concrete fixtures

A small world with a primary service `orders` and a related service
`products`, used to evaluate the engine at concrete inputs. -/

namespace Ex

/-- Registry row of the primary model. -/
def ordersLMM : LogicModuleModel :=
  { logic_module_endpoint_name := "orders", endpoint := "/orders/",
    lookup_field_name := "id" }

/-- Registry row of the related model. -/
def productsLMM : LogicModuleModel :=
  { logic_module_endpoint_name := "products", endpoint := "/products/",
    lookup_field_name := "id" }

/-- A second resource of the `products` service (same `schema_url`). -/
def cratesLMM : LogicModuleModel :=
  { logic_module_endpoint_name := "products", endpoint := "/crates/",
    lookup_field_name := "id" }

/-- A model of a service that is not registered. -/
def ghostLMM : LogicModuleModel :=
  { logic_module_endpoint_name := "ghost", endpoint := "/ghosts/",
    lookup_field_name := "id" }

/-- Forward relationship `orders → products` embedded under `items`. -/
def relItems : Relationship :=
  { key := "items", origin_model := ordersLMM, related_model := productsLMM }

/-- A second relationship whose related model lives on the same service. -/
def relCrates : Relationship :=
  { key := "crates", origin_model := ordersLMM, related_model := cratesLMM }

/-- A relationship pointing at the unregistered service. -/
def relGhost : Relationship :=
  { key := "ghosts", origin_model := ordersLMM, related_model := ghostLMM }

/-- OpenAPI document of the `orders` service. -/
def ordersSpec : SwSpec :=
  { api_url := "http://orders.service/"
    ops := [ (("get", "/orders/"), { http_method := "GET", path_name := "/orders/" }),
             (("get", "/orders/\x7bid\x7d/"),
              { http_method := "GET", path_name := "/orders/\x7bid\x7d/" }),
             (("get", "/orders/\x7buuid\x7d/"),
              { http_method := "GET", path_name := "/orders/\x7buuid\x7d/" }) ] }

/-- OpenAPI document of the `products` service. -/
def productsSpec : SwSpec :=
  { api_url := "http://products.service/"
    ops := [ (("get", "/products/\x7bid\x7d/"),
              { http_method := "GET", path_name := "/products/\x7bid\x7d/" }) ] }

/-- Primary list payload with one record of pk 7. -/
def primaryPayload : Value :=
  .vArr [ .vObj [("id", .vNum 7), ("name", .vStr "o7")] ]

/-- Embedded product payloads. -/
def product10 : Value := .vObj [("id", .vNum 10)]

/-- Second embedded product payload. -/
def product11 : Value := .vObj [("id", .vNum 11)]

/-- The happy-path world: one order with two product join records. -/
def baseEnv : Env :=
  { logic_modules :=
      [ ("orders", { endpoint_name := "orders", schema_url := "http://orders/docs" }),
        ("products", { endpoint_name := "products", schema_url := "http://products/docs" }) ]
    logic_module_models :=
      [ (("orders", "/orders/"), ordersLMM),
        (("products", "/products/"), productsLMM) ]
    relationships := fun n e =>
      if n = "orders" && e = "/orders/" then [(relItems, true)] else []
    join_records := fun pk rel fwd =>
      if pk = Value.vNum 7 && rel.key = "items" && fwd then
        [ { related_record_id := some 10, related_record_uuid := none },
          { related_record_id := some 11, related_record_uuid := none } ]
      else []
    spec_documents := fun u =>
      if u = "http://orders/docs" then some ordersSpec
      else if u = "http://products/docs" then some productsSpec
      else none
    http := fun c =>
      if c.url = "http://orders.service/orders/" then
        .ok (.json primaryPayload) 200 [("H", "pri")]
      else if c.url = "http://products.service/products/10/" then
        .ok (.json product10) 200 []
      else if c.url = "http://products.service/products/11/" then
        .ok (.json product11) 200 []
      else .transportError "conn refused" }

/-- The inbound joined list request `GET /orders/orders/?join`. -/
def inbJoin : InboundRequest :=
  { method := "GET", path := "/orders/orders/", authorization := "tok",
    content_type := "", query_params := [("join", "")], json_body := .vNull,
    form_body := [] }

/-- URL kwargs of the inbound request. -/
def kwargsOrders : UrlKwargs := { service := "orders", model := "orders", pk := none }

/-- World where the sub-request for product 11 fails at the transport layer. -/
def envSubTransportFail : Env :=
  { baseEnv with
    http := fun c =>
      if c.url = "http://products.service/products/11/" then .transportError "conn refused"
      else baseEnv.http c }

/-- World with two primary records (pks 8 and 7); record 7 carries a join
record towards the unregistered `ghost` service, record 8 has none. -/
def envJoinUnknownService : Env :=
  { baseEnv with
    relationships := fun n e =>
      if n = "orders" && e = "/orders/" then [(relGhost, true), (relItems, true)] else []
    join_records := fun pk rel fwd =>
      if pk = Value.vNum 7 && rel.key = "ghosts" && fwd then
        [ { related_record_id := some 1, related_record_uuid := none } ]
      else []
    http := fun c =>
      if c.url = "http://orders.service/orders/" then
        .ok (.json (.vArr [ .vObj [("id", .vNum 8)], .vObj [("id", .vNum 7)] ])) 200
          [("H", "pri")]
      else baseEnv.http c }

/-- World with two relationships whose related models live on the same
(uncached) `products` service, and no join records. -/
def envSharedRelatedService : Env :=
  { baseEnv with
    relationships := fun n e =>
      if n = "orders" && e = "/orders/" then [(relItems, true), (relCrates, true)] else []
    join_records := fun _ _ _ => [] }

/-- World whose primary list contains a record with the lookup field present
but falsy (`id = 0`). -/
def envFalsyLookup : Env :=
  { baseEnv with
    http := fun c =>
      if c.url = "http://orders.service/orders/" then
        .ok (.json (.vArr [ .vObj [("id", .vNum 7)], .vObj [("id", .vNum 0)] ])) 200
          [("H", "pri")]
      else baseEnv.http c }

/-- World whose primary response is a detail object with the lookup field
present but falsy (`id = 0`). -/
def envFalsyDetail : Env :=
  { baseEnv with
    http := fun c =>
      if c.url = "http://orders.service/orders/" then
        .ok (.json (.vObj [("id", .vNum 0)])) 200 [("H", "pri")]
      else baseEnv.http c }

/-- World where the sub-request for product 11 answers with a non-JSON body. -/
def envSubRawBody : Env :=
  { baseEnv with
    http := fun c =>
      if c.url = "http://products.service/products/11/" then
        .ok (.raw "oops") 500 []
      else baseEnv.http c }

/-- World where the sub-request for product 11 answers 404 with a JSON
object body. -/
def envSub404Json : Env :=
  { baseEnv with
    http := fun c =>
      if c.url = "http://products.service/products/11/" then
        .ok (.json (.vObj [("detail", .vStr "Not found.")])) 404 []
      else baseEnv.http c }

/-- An inbound GET without query parameters (cache-eligible shape). -/
def inbPlain : InboundRequest :=
  { method := "GET", path := "/orders/orders/", authorization := "tok",
    content_type := "", query_params := [], json_body := .vNull, form_body := [] }

end Ex

/-! ## Association-list lemmas -/

theorem assocGet_assocSet_self {α : Type} (d : List (String × α)) (k : String) (v : α) :
    assocGet (assocSet d k v) k = some v := by
  induction d with
  | nil => simp [assocSet, assocGet]
  | cons hd tl ih =>
    obtain ⟨a, b⟩ := hd
    by_cases h : a = k
    · simp [assocSet, h, assocGet]
    · simp [assocSet, h, assocGet] at ih ⊢
      exact ih

theorem assocGet_cons {α : Type} (a : String) (b : α) (tl : List (String × α))
    (k : String) :
    assocGet ((a, b) :: tl) k = if a = k then some b else assocGet tl k := by
  by_cases h : a = k <;> simp [assocGet, List.find?_cons, h]

theorem assocSet_cons_eq {α : Type} (a : String) (b : α) (tl : List (String × α))
    (k : String) (v : α) (ha : a = k) :
    assocSet ((a, b) :: tl) k v = (k, v) :: tl := by
  simp [assocSet, ha]

theorem assocSet_cons_ne {α : Type} (a : String) (b : α) (tl : List (String × α))
    (k : String) (v : α) (ha : ¬a = k) :
    assocSet ((a, b) :: tl) k v = (a, b) :: assocSet tl k v := by
  simp [assocSet, ha]

theorem assocGet_assocSet_ne {α : Type} (d : List (String × α)) (k k' : String)
    (v : α) (h : k' ≠ k) : assocGet (assocSet d k v) k' = assocGet d k' := by
  have hkk : (k = k') = False := eq_false (fun hh => h hh.symm)
  induction d with
  | nil =>
    show assocGet [(k, v)] k' = assocGet [] k'
    rw [assocGet_cons]
    simp [assocGet, hkk]
  | cons hd tl ih =>
    obtain ⟨a, b⟩ := hd
    by_cases ha : a = k
    · rw [assocSet_cons_eq a b tl k v ha, assocGet_cons, assocGet_cons, ha]
      simp [hkk]
    · rw [assocSet_cons_ne a b tl k v ha, assocGet_cons, assocGet_cons, ih]

theorem assocHas_assocSet {α : Type} (d : List (String × α)) (k k' : String) (v : α) :
    assocHas (assocSet d k v) k' = (assocHas d k' || k' = k) := by
  induction d with
  | nil => simp [assocSet, assocHas, eq_comm]
  | cons hd tl ih =>
    obtain ⟨a, b⟩ := hd
    by_cases ha : a = k
    · rw [assocSet_cons_eq a b tl k v ha]
      subst ha
      simp only [assocHas, List.any_cons]
      by_cases h' : k' = a
      · subst h'
        simp
      · have h1 : (a = k') = False := eq_false (fun hh => h' hh.symm)
        have h2 : (k' = a) = False := eq_false h'
        simp [h1, h2]
    · rw [assocSet_cons_ne a b tl k v ha]
      simp only [assocHas, List.any_cons] at ih ⊢
      rw [ih, Bool.or_assoc]

theorem assocHas_eq_isSome {α : Type} (d : List (String × α)) (k : String) :
    assocHas d k = (assocGet d k).isSome := by
  induction d with
  | nil => simp [assocHas, assocGet]
  | cons hd tl ih =>
    obtain ⟨a, b⟩ := hd
    by_cases h : a = k <;> simp [assocHas, assocGet, h] at ih ⊢ <;> exact ih

/-- Setting a key whose name a filter rejects does not change the filtered
list (frame property for relationship-key insertion). -/
theorem filter_assocSet_of_not {α : Type} (d : List (String × α)) (k : String)
    (v : α) (q : String → Bool) (hq : q k = false) :
    (assocSet d k v).filter (fun p => q p.1) = d.filter (fun p => q p.1) := by
  induction d with
  | nil => simp [assocSet, hq]
  | cons hd tl ih =>
    obtain ⟨a, b⟩ := hd
    by_cases ha : a = k
    · subst ha
      simp [assocSet, hq]
    · simp only [assocSet, if_neg ha, List.filter_cons]
      by_cases hqa : q a <;> simp [hqa, ih]

theorem assocGet_arrAppend_ne (item : Obj) (k k' : String) (v : Value)
    (h : k' ≠ k) : assocGet (arrAppend item k v) k' = assocGet item k' := by
  unfold arrAppend
  split <;> (try split) <;> exact assocGet_assocSet_ne _ _ _ _ h

theorem arrAppend_isArr (item : Obj) (k : String) (v : Value) :
    ∃ xs, assocGet (arrAppend item k v) k = some (.vArr xs) := by
  unfold arrAppend
  split
  · exact ⟨_, assocGet_assocSet_self _ _ _⟩
  · exact ⟨_, assocGet_assocSet_self _ _ _⟩

theorem filter_arrAppend_of_not (item : Obj) (k : String) (v : Value)
    (q : String → Bool) (hq : q k = false) :
    (arrAppend item k v).filter (fun p => q p.1) = item.filter (fun p => q p.1) := by
  unfold arrAppend
  split <;> (try split) <;> exact filter_assocSet_of_not _ _ _ _ hq

/-! ## State-effect lemmas for the engine's primitives -/

theorem getLogicModule_frame (env : Env) (n : String) (st : GwState) :
    (_get_logic_module env n st).1.request_GET = st.request_GET ∧
    (_get_logic_module env n st).1.specs_cache = st.specs_cache ∧
    (_get_logic_module env n st).1.spec_fetches = st.spec_fetches ∧
    (_get_logic_module env n st).1.data_cache = st.data_cache ∧
    (_get_logic_module env n st).1.upstream_calls = st.upstream_calls ∧
    (_get_logic_module env n st).1.error_log = st.error_log := by
  unfold _get_logic_module
  repeat' (first | split | dsimp only)
  all_goals exact ⟨rfl, rfl, rfl, rfl, rfl, rfl⟩

theorem getSwaggerSpec_frame (env : Env) (n : String) (st : GwState) :
    (_get_swagger_spec env n st).1.request_GET = st.request_GET ∧
    (_get_swagger_spec env n st).1.data_cache = st.data_cache ∧
    (_get_swagger_spec env n st).1.upstream_calls = st.upstream_calls ∧
    (_get_swagger_spec env n st).1.error_log = st.error_log := by
  have hf := getLogicModule_frame env n st
  unfold _get_swagger_spec
  repeat' (first | split | dsimp only)
  all_goals simp_all

theorem asyncGetSwaggerSpec_frame (env : Env) (n : String) (st : GwState) :
    (async_get_swagger_spec env n st).1.request_GET = st.request_GET ∧
    (async_get_swagger_spec env n st).1.data_cache = st.data_cache ∧
    (async_get_swagger_spec env n st).1.upstream_calls = st.upstream_calls ∧
    (async_get_swagger_spec env n st).1.error_log = st.error_log := by
  have hf := getLogicModule_frame env n st
  unfold async_get_swagger_spec
  repeat' (first | split | dsimp only)
  all_goals simp_all

theorem dataRequest_frame (env : Env) (inb : InboundRequest) (spec : SwSpec)
    (kw : SubKwargs) (st : GwState) :
    (_data_request env inb spec kw st).1.request_GET = st.request_GET ∧
    (_data_request env inb spec kw st).1.specs_cache = st.specs_cache ∧
    (_data_request env inb spec kw st).1.spec_fetches = st.spec_fetches ∧
    (_data_request env inb spec kw st).1.error_log = st.error_log := by
  unfold _data_request
  repeat' (first | split | dsimp only)
  all_goals exact ⟨rfl, rfl, rfl, rfl⟩

theorem asyncDataRequest_frame (env : Env) (inb : InboundRequest) (spec : SwSpec)
    (kw : SubKwargs) (st : GwState) :
    (async_data_request env inb spec kw st).1.request_GET = st.request_GET ∧
    (async_data_request env inb spec kw st).1.specs_cache = st.specs_cache ∧
    (async_data_request env inb spec kw st).1.spec_fetches = st.spec_fetches ∧
    (async_data_request env inb spec kw st).1.error_log = st.error_log := by
  unfold async_data_request
  repeat' (first | split | dsimp only)
  all_goals exact ⟨rfl, rfl, rfl, rfl⟩

theorem getDatameshRelationships_frame (env : Env) (inb : InboundRequest)
    (service : String) (st : GwState) :
    (get_datamesh_relationships env inb service st).1.request_GET = st.request_GET ∧
    (get_datamesh_relationships env inb service st).1.specs_cache = st.specs_cache ∧
    (get_datamesh_relationships env inb service st).1.spec_fetches = st.spec_fetches ∧
    (get_datamesh_relationships env inb service st).1.data_cache = st.data_cache ∧
    (get_datamesh_relationships env inb service st).1.upstream_calls = st.upstream_calls ∧
    (get_datamesh_relationships env inb service st).1.error_log = st.error_log := by
  have hf := getLogicModule_frame env service st
  unfold get_datamesh_relationships
  repeat' (first | split | dsimp only)
  all_goals simp_all

/-! ## The live query parameters along the join pipeline -/

theorem joinRecordStep_GET (env : Env) (inb : InboundRequest) (spec : SwSpec)
    (rm : LogicModuleModel) (field : JRField) (relKey : String) (item : Obj)
    (jr : JoinRecord) (st : GwState) :
    (joinRecordStep env inb spec rm field relKey item jr st).1.request_GET =
      st.request_GET := by
  have hf := (dataRequest_frame env inb spec
    { model := stripSlash rm.endpoint, pk := some (jrGetStr jr field) } st).1
  unfold joinRecordStep
  repeat' (first | split | dsimp only)
  all_goals simp_all

theorem runJoinRecords_GET (env : Env) (inb : InboundRequest) (spec : SwSpec)
    (rm : LogicModuleModel) (field : JRField) (relKey : String) :
    ∀ (jrs : List JoinRecord) (item : Obj) (st : GwState),
    (runJoinRecords env inb spec rm field relKey jrs item st).1.request_GET =
      st.request_GET := by
  intro jrs
  induction jrs with
  | nil => intro item st; rfl
  | cons jr rest ih =>
    intro item st
    have hs := joinRecordStep_GET env inb spec rm field relKey item jr st
    unfold runJoinRecords
    repeat' (first | split | dsimp only)
    all_goals simp_all

theorem relationshipStep_GET (env : Env) (inb : InboundRequest) (origin_pk : Value)
    (item : Obj) (rel : Relationship) (fwd : Bool) (st : GwState) :
    (relationshipStep env inb origin_pk item rel fwd st).1.request_GET =
      st.request_GET := by
  unfold relationshipStep
  dsimp only
  cases hjr : env.join_records origin_pk rel fwd with
  | nil => rfl
  | cons jr0 rest =>
    dsimp only
    cases hpl : prepare_lookup_kwargs fwd rel jr0 with
    | mk rm field =>
      dsimp only
      cases hsp : _get_swagger_spec env rm.logic_module_endpoint_name st with
      | mk st1 r =>
        have h1 : st1.request_GET = st.request_GET := by
          have h := (getSwaggerSpec_frame env rm.logic_module_endpoint_name st).1
          rw [hsp] at h
          exact h
        cases r with
        | error e => simpa using h1
        | ok spec =>
          have h2 := runJoinRecords_GET env inb spec rm field rel.key (jr0 :: rest)
            (assocSet item rel.key (.vArr [])) st1
          simp [h2, h1]

theorem runRelationships_GET (env : Env) (inb : InboundRequest) (origin_pk : Value) :
    ∀ (rels : List (Relationship × Bool)) (item : Obj) (st : GwState),
    (runRelationships env inb origin_pk rels item st).1.request_GET =
      st.request_GET := by
  intro rels
  induction rels with
  | nil => intro item st; rfl
  | cons rf rest ih =>
    intro item st
    obtain ⟨rel, fwd⟩ := rf
    have hs := relationshipStep_GET env inb origin_pk item rel fwd st
    unfold runRelationships
    repeat' (first | split | dsimp only)
    all_goals simp_all

/-- After `_add_nested_data` the live query parameters are always empty:
they are cleared on entry and no callee repopulates them. -/
theorem addNestedData_GET (env : Env) (inb : InboundRequest) (item : Obj)
    (rels : List (Relationship × Bool)) (f : String) (st : GwState) :
    (_add_nested_data env inb item rels f st).1.request_GET = [] := by
  unfold _add_nested_data
  dsimp only
  split
  · exact runRelationships_GET env inb _ rels item _
  · rfl

/-! ## Parameters of the outbound calls -/

theorem dataRequest_calls_params (env : Env) (inb : InboundRequest) (spec : SwSpec)
    (kw : SubKwargs) (st : GwState) :
    ∀ c ∈ (_data_request env inb spec kw st).1.upstream_calls,
      c ∈ st.upstream_calls ∨ c.params = st.request_GET := by
  unfold _data_request
  repeat' (first | split | dsimp only)
  all_goals intro c hc
  all_goals try (exact Or.inl hc)
  all_goals
    rcases List.mem_append.mp hc with h | h
  all_goals try (exact Or.inl h)
  all_goals rw [List.mem_singleton.mp h]
  all_goals exact Or.inr rfl

theorem joinRecordStep_calls (env : Env) (inb : InboundRequest) (spec : SwSpec)
    (rm : LogicModuleModel) (field : JRField) (relKey : String) (item : Obj)
    (jr : JoinRecord) (st : GwState) :
    (joinRecordStep env inb spec rm field relKey item jr st).1.upstream_calls =
      (_data_request env inb spec
        { model := stripSlash rm.endpoint, pk := some (jrGetStr jr field) }
        st).1.upstream_calls := by
  unfold joinRecordStep
  repeat' (first | split | dsimp only)
  all_goals simp_all

theorem joinRecordStep_calls_params (env : Env) (inb : InboundRequest) (spec : SwSpec)
    (rm : LogicModuleModel) (field : JRField) (relKey : String) (item : Obj)
    (jr : JoinRecord) (st : GwState) :
    ∀ c ∈ (joinRecordStep env inb spec rm field relKey item jr st).1.upstream_calls,
      c ∈ st.upstream_calls ∨ c.params = st.request_GET := by
  rw [joinRecordStep_calls]
  exact dataRequest_calls_params env inb spec _ st

theorem runJoinRecords_calls_params (env : Env) (inb : InboundRequest) (spec : SwSpec)
    (rm : LogicModuleModel) (field : JRField) (relKey : String) :
    ∀ (jrs : List JoinRecord) (item : Obj) (st : GwState),
    ∀ c ∈ (runJoinRecords env inb spec rm field relKey jrs item st).1.upstream_calls,
      c ∈ st.upstream_calls ∨ c.params = st.request_GET := by
  intro jrs
  induction jrs with
  | nil => intro item st c hc; exact Or.inl hc
  | cons jr rest ih =>
    intro item st c hc
    rw [show runJoinRecords env inb spec rm field relKey (jr :: rest) item st =
        (match joinRecordStep env inb spec rm field relKey item jr st with
         | (st', item', some e) => (st', item', some e)
         | (st', item', none) =>
             runJoinRecords env inb spec rm field relKey rest item' st') from rfl] at hc
    cases hstep : joinRecordStep env inb spec rm field relKey item jr st with
    | mk st1 ir =>
      obtain ⟨item1, err⟩ := ir
      have hstepc := joinRecordStep_calls_params env inb spec rm field relKey item jr st
      rw [hstep] at hstepc hc
      have hGET : st1.request_GET = st.request_GET := by
        have h := joinRecordStep_GET env inb spec rm field relKey item jr st
        rw [hstep] at h
        exact h
      cases err with
      | some e => exact hstepc c hc
      | none =>
        rcases ih item1 st1 c hc with h | h
        · exact hstepc c h
        · rw [hGET] at h
          exact Or.inr h

theorem relationshipStep_calls_params (env : Env) (inb : InboundRequest)
    (origin_pk : Value) (item : Obj) (rel : Relationship) (fwd : Bool)
    (st : GwState) :
    ∀ c ∈ (relationshipStep env inb origin_pk item rel fwd st).1.upstream_calls,
      c ∈ st.upstream_calls ∨ c.params = st.request_GET := by
  unfold relationshipStep
  dsimp only
  cases hjr : env.join_records origin_pk rel fwd with
  | nil => intro c hc; exact Or.inl hc
  | cons jr0 rest =>
    dsimp only
    cases hpl : prepare_lookup_kwargs fwd rel jr0 with
    | mk rm field =>
      dsimp only
      cases hsp : _get_swagger_spec env rm.logic_module_endpoint_name st with
      | mk st1 r =>
        have hcalls : st1.upstream_calls = st.upstream_calls := by
          have h := (getSwaggerSpec_frame env rm.logic_module_endpoint_name st).2.2.1
          rw [hsp] at h
          exact h
        have hGET : st1.request_GET = st.request_GET := by
          have h := (getSwaggerSpec_frame env rm.logic_module_endpoint_name st).1
          rw [hsp] at h
          exact h
        cases r with
        | error e =>
          intro c hc
          rw [hcalls] at hc
          exact Or.inl hc
        | ok spec =>
          intro c hc
          rcases runJoinRecords_calls_params env inb spec rm field rel.key
            (jr0 :: rest) (assocSet item rel.key (.vArr [])) st1 c hc with h | h
          · rw [hcalls] at h
            exact Or.inl h
          · rw [hGET] at h
            exact Or.inr h

theorem runRelationships_calls_params (env : Env) (inb : InboundRequest)
    (origin_pk : Value) :
    ∀ (rels : List (Relationship × Bool)) (item : Obj) (st : GwState),
    ∀ c ∈ (runRelationships env inb origin_pk rels item st).1.upstream_calls,
      c ∈ st.upstream_calls ∨ c.params = st.request_GET := by
  intro rels
  induction rels with
  | nil => intro item st c hc; exact Or.inl hc
  | cons rf rest ih =>
    intro item st c hc
    obtain ⟨rel, fwd⟩ := rf
    rw [show runRelationships env inb origin_pk ((rel, fwd) :: rest) item st =
        (match relationshipStep env inb origin_pk item rel fwd st with
         | (st', item', some e) => (st', item', some e)
         | (st', item', none) => runRelationships env inb origin_pk rest item' st')
      from rfl] at hc
    cases hstep : relationshipStep env inb origin_pk item rel fwd st with
    | mk st1 ir =>
      obtain ⟨item1, err⟩ := ir
      have hstepc := relationshipStep_calls_params env inb origin_pk item rel fwd st
      rw [hstep] at hstepc hc
      have hGET : st1.request_GET = st.request_GET := by
        have h := relationshipStep_GET env inb origin_pk item rel fwd st
        rw [hstep] at h
        exact h
      cases err with
      | some e => exact hstepc c hc
      | none =>
        rcases ih item1 st1 c hc with h | h
        · exact hstepc c h
        · rw [hGET] at h
          exact Or.inr h

/-- Every upstream call issued while nesting data into one record carries an
empty query-parameter collection: the live parameters are cleared before any
sub-request. -/
theorem addNestedData_calls_params (env : Env) (inb : InboundRequest) (item : Obj)
    (rels : List (Relationship × Bool)) (f : String) (st : GwState) :
    ∀ c ∈ (_add_nested_data env inb item rels f st).1.upstream_calls,
      c ∈ st.upstream_calls ∨ c.params = [] := by
  unfold _add_nested_data
  dsimp only
  split
  · intro c hc
    exact runRelationships_calls_params env inb _ rels item _ c hc
  · intro c hc
    exact Or.inl hc

theorem runItems_calls_params (env : Env) (inb : InboundRequest)
    (rels : List (Relationship × Bool)) (f : String) :
    ∀ (items : List Value) (st : GwState),
    ∀ c ∈ (runItems env inb rels f items st).1.upstream_calls,
      c ∈ st.upstream_calls ∨ c.params = [] := by
  intro items
  induction items with
  | nil => intro st c hc; exact Or.inl hc
  | cons item rest ih =>
    intro st c
    cases item with
    | vObj fields =>
      rw [show runItems env inb rels f (.vObj fields :: rest) st =
          (match _add_nested_data env inb fields rels f st with
           | (st', fields', some e) => (st', .vObj fields' :: rest, some e)
           | (st', fields', none) =>
             match runItems env inb rels f rest st' with
             | (st'', rest', err) => (st'', .vObj fields' :: rest', err))
        from rfl]
      cases hstep : _add_nested_data env inb fields rels f st with
      | mk st1 ir =>
        obtain ⟨fields1, err⟩ := ir
        have hstepc := addNestedData_calls_params env inb fields rels f st
        rw [hstep] at hstepc
        cases err with
        | some e => exact hstepc c
        | none =>
          cases hrest : runItems env inb rels f rest st1 with
          | mk st2 rr =>
            obtain ⟨rest', err2⟩ := rr
            dsimp only
            rw [hrest]
            intro hc
            have hr := ih st1 c
            rw [hrest] at hr
            rcases hr hc with h | h
            · exact hstepc c h
            · exact Or.inr h
    | vNull => intro hc; exact Or.inl hc
    | vBool b => intro hc; exact Or.inl hc
    | vNum n => intro hc; exact Or.inl hc
    | vStr s => intro hc; exact Or.inl hc
    | vArr xs => intro hc; exact Or.inl hc

theorem runItems_GET_cases (env : Env) (inb : InboundRequest)
    (rels : List (Relationship × Bool)) (f : String) :
    ∀ (items : List Value) (st : GwState),
    (runItems env inb rels f items st).1.request_GET = st.request_GET ∨
      (runItems env inb rels f items st).1.request_GET = [] := by
  intro items
  induction items with
  | nil => intro st; exact Or.inl rfl
  | cons item rest ih =>
    intro st
    cases item with
    | vObj fields =>
      rw [show runItems env inb rels f (.vObj fields :: rest) st =
          (match _add_nested_data env inb fields rels f st with
           | (st', fields', some e) => (st', .vObj fields' :: rest, some e)
           | (st', fields', none) =>
             match runItems env inb rels f rest st' with
             | (st'', rest', err) => (st'', .vObj fields' :: rest', err))
        from rfl]
      cases hstep : _add_nested_data env inb fields rels f st with
      | mk st1 ir =>
        obtain ⟨fields1, err⟩ := ir
        have hGET : st1.request_GET = [] := by
          have h := addNestedData_GET env inb fields rels f st
          rw [hstep] at h
          exact h
        cases err with
        | some e => exact Or.inr hGET
        | none =>
          cases hrest : runItems env inb rels f rest st1 with
          | mk st2 rr =>
            obtain ⟨rest', err2⟩ := rr
            dsimp only
            rw [hrest]
            have h2 := ih st1
            rw [hrest] at h2
            rcases h2 with h2 | h2
            · exact Or.inr (h2.trans hGET)
            · exact Or.inr h2
    | vNull => exact Or.inl rfl
    | vBool b => exact Or.inl rfl
    | vNum n => exact Or.inl rfl
    | vStr s => exact Or.inl rfl
    | vArr xs => exact Or.inl rfl

theorem runItems_GET_cons_obj (env : Env) (inb : InboundRequest)
    (rels : List (Relationship × Bool)) (f : String) (fields : Obj)
    (rest : List Value) (st : GwState) :
    (runItems env inb rels f (.vObj fields :: rest) st).1.request_GET = [] := by
  rw [show runItems env inb rels f (.vObj fields :: rest) st =
      (match _add_nested_data env inb fields rels f st with
       | (st', fields', some e) => (st', .vObj fields' :: rest, some e)
       | (st', fields', none) =>
         match runItems env inb rels f rest st' with
         | (st'', rest', err) => (st'', .vObj fields' :: rest', err))
    from rfl]
  cases hstep : _add_nested_data env inb fields rels f st with
  | mk st1 ir =>
    obtain ⟨fields1, err⟩ := ir
    have hGET : st1.request_GET = [] := by
      have h := addNestedData_GET env inb fields rels f st
      rw [hstep] at h
      exact h
    cases err with
    | some e => exact hGET
    | none =>
      cases hrest : runItems env inb rels f rest st1 with
      | mk st2 rr =>
        obtain ⟨rest', err2⟩ := rr
        dsimp only
        rw [hrest]
        have h2 := runItems_GET_cases env inb rels f rest st1
        rw [hrest] at h2
        rcases h2 with h2 | h2
        · exact h2.trans hGET
        · exact h2

/-- After the (synchronous) join has processed at least one record, the live
query parameters are empty. -/
theorem joinResponseData_GET (env : Env) (inb : InboundRequest) (service : String)
    (resp : Value) (st st1 : GwState) (rels : List (Relationship × Bool))
    (f : String)
    (hrels : get_datamesh_relationships env inb service st = (st1, .ok (rels, f)))
    (hrec : processesARecord resp) :
    (_join_response_data env inb service resp st).1.request_GET = [] := by
  unfold _join_response_data
  dsimp only
  rw [hrels]
  dsimp only
  cases resp with
  | vObj rf =>
    cases hres : assocGet rf "results" with
    | some r =>
      have hw : joinWork (.vObj rf) = r := by simp [joinWork, hres]
      simp only [hres]
      rcases hrec with ⟨fields, hsh⟩ | ⟨fields, rest, hsh⟩
      all_goals rw [hw] at hsh
      all_goals subst hsh
      · cases hstep : _add_nested_data env inb fields rels f st1 with
        | mk st2 ir =>
          obtain ⟨fields2, err⟩ := ir
          have h := addNestedData_GET env inb fields rels f st1
          rw [hstep] at h
          simpa [hstep] using h
      · cases hstep : runItems env inb rels f (.vObj fields :: rest) st1 with
        | mk st2 rr =>
          obtain ⟨rest', err⟩ := rr
          have h := runItems_GET_cons_obj env inb rels f fields rest st1
          rw [hstep] at h
          simpa [hstep] using h
    | none =>
      have hw : joinWork (.vObj rf) = .vObj rf := by simp [joinWork, hres]
      simp only [hres]
      rcases hrec with ⟨fields, hsh⟩ | ⟨fields, rest, hsh⟩
      all_goals rw [hw] at hsh
      · cases hstep : _add_nested_data env inb rf rels f st1 with
        | mk st2 ir =>
          obtain ⟨fields2, err⟩ := ir
          have h := addNestedData_GET env inb rf rels f st1
          rw [hstep] at h
          simpa [hstep] using h
      · exact absurd hsh (by simp)
  | vArr xs =>
    have hw : joinWork (.vArr xs) = .vArr xs := rfl
    rcases hrec with ⟨fields, hsh⟩ | ⟨fields, rest, hsh⟩
    all_goals rw [hw] at hsh
    · exact absurd hsh (by simp)
    · cases hsh
      cases hstep : runItems env inb rels f (.vObj fields :: rest) st1 with
      | mk st2 rr =>
        obtain ⟨rest', err⟩ := rr
        have h := runItems_GET_cons_obj env inb rels f fields rest st1
        rw [hstep] at h
        simpa [hstep] using h
  | vNull =>
    rcases hrec with ⟨fields, hsh⟩ | ⟨fields, rest, hsh⟩ <;>
      exact absurd hsh (by simp [joinWork])
  | vBool b =>
    rcases hrec with ⟨fields, hsh⟩ | ⟨fields, rest, hsh⟩ <;>
      exact absurd hsh (by simp [joinWork])
  | vNum n =>
    rcases hrec with ⟨fields, hsh⟩ | ⟨fields, rest, hsh⟩ <;>
      exact absurd hsh (by simp [joinWork])
  | vStr s =>
    rcases hrec with ⟨fields, hsh⟩ | ⟨fields, rest, hsh⟩ <;>
      exact absurd hsh (by simp [joinWork])

/-! ## Spec-fetch bookkeeping (sequential at-most-once) -/

/-- Well-formedness of the spec-fetch log: no URL was fetched twice, and every
fetched URL made it into the `_specs` cache (so a later lookup hits). -/
def SpecOk (st : GwState) : Prop :=
  st.spec_fetches.Nodup ∧ ∀ u ∈ st.spec_fetches, assocHas st.specs_cache u = true

/-- The raised exception is the fatal `GatewayError` kind. -/
def isGatewayErr : Option GwError → Prop
  | some (.gatewayError _) => True
  | _ => False

/-- After a step: either the fetch log is still well-formed, or the step ended
in a fatal `GatewayError` (a failed spec fetch, which aborts the request) and
the log is at least duplicate-free. -/
def SpecAfter (st' : GwState) (e : Option GwError) : Prop :=
  SpecOk st' ∨ (st'.spec_fetches.Nodup ∧ isGatewayErr e)

/-- The error component of an `Except` result. -/
def errOf {α : Type} : Except GwError α → Option GwError
  | .error e => some e
  | .ok _ => none

theorem SpecOk.after {st' : GwState} {e : Option GwError} (h : SpecOk st') :
    SpecAfter st' e := Or.inl h

theorem SpecOk.of_fields {st st' : GwState} (h : SpecOk st)
    (hc : st'.specs_cache = st.specs_cache)
    (hfe : st'.spec_fetches = st.spec_fetches) : SpecOk st' := by
  constructor
  · rw [hfe]; exact h.1
  · intro u hu
    rw [hfe] at hu
    rw [hc]
    exact h.2 u hu

theorem getSwaggerSpec_SpecOk (env : Env) (n : String) (st : GwState)
    (h : SpecOk st) :
    SpecAfter (_get_swagger_spec env n st).1
      (errOf (_get_swagger_spec env n st).2) := by
  have hf := getLogicModule_frame env n st
  unfold _get_swagger_spec
  cases hlm : _get_logic_module env n st with
  | mk st1 r =>
    rw [hlm] at hf
    have hok : SpecOk st1 := h.of_fields hf.2.1 hf.2.2.1
    cases r with
    | error e => exact hok.after
    | ok lm =>
      dsimp only
      cases hc : assocGet st1.specs_cache (get_swagger_url_by_logic_module lm) with
      | some sp => exact hok.after
      | none =>
        have hnotin : get_swagger_url_by_logic_module lm ∉ st1.spec_fetches := by
          intro hin
          have hh := hok.2 _ hin
          rw [assocHas_eq_isSome, hc] at hh
          simp at hh
        have hnodup : (st1.spec_fetches ++ [get_swagger_url_by_logic_module lm]).Nodup := by
          rw [List.nodup_append]
          exact ⟨hok.1, List.nodup_singleton _, by simpa using hnotin⟩
        cases hd : env.spec_documents (get_swagger_url_by_logic_module lm) with
        | none => exact Or.inr ⟨hnodup, trivial⟩
        | some sp =>
          refine Or.inl ⟨hnodup, ?_⟩
          intro v hv
          rw [show ({ st1 with
              spec_fetches := st1.spec_fetches ++ [get_swagger_url_by_logic_module lm],
              specs_cache := assocSet st1.specs_cache
                (get_swagger_url_by_logic_module lm) sp } : GwState).specs_cache =
            assocSet st1.specs_cache (get_swagger_url_by_logic_module lm) sp from rfl]
          rw [assocHas_assocSet]
          rcases List.mem_append.mp hv with hv | hv
          · rw [hok.2 v hv]
            rfl
          · rw [List.mem_singleton.mp hv]
            simp

theorem joinRecordStep_specFields (env : Env) (inb : InboundRequest) (spec : SwSpec)
    (rm : LogicModuleModel) (field : JRField) (relKey : String) (item : Obj)
    (jr : JoinRecord) (st : GwState) :
    (joinRecordStep env inb spec rm field relKey item jr st).1.specs_cache =
      st.specs_cache ∧
    (joinRecordStep env inb spec rm field relKey item jr st).1.spec_fetches =
      st.spec_fetches := by
  have hf := dataRequest_frame env inb spec
    { model := stripSlash rm.endpoint, pk := some (jrGetStr jr field) } st
  unfold joinRecordStep
  repeat' (first | split | dsimp only)
  all_goals simp_all

theorem runJoinRecords_specFields (env : Env) (inb : InboundRequest) (spec : SwSpec)
    (rm : LogicModuleModel) (field : JRField) (relKey : String) :
    ∀ (jrs : List JoinRecord) (item : Obj) (st : GwState),
    (runJoinRecords env inb spec rm field relKey jrs item st).1.specs_cache =
      st.specs_cache ∧
    (runJoinRecords env inb spec rm field relKey jrs item st).1.spec_fetches =
      st.spec_fetches := by
  intro jrs
  induction jrs with
  | nil => intro item st; exact ⟨rfl, rfl⟩
  | cons jr rest ih =>
    intro item st
    have hs := joinRecordStep_specFields env inb spec rm field relKey item jr st
    unfold runJoinRecords
    repeat' (first | split | dsimp only)
    all_goals simp_all

theorem relationshipStep_SpecOk (env : Env) (inb : InboundRequest)
    (origin_pk : Value) (item : Obj) (rel : Relationship) (fwd : Bool)
    (st : GwState) (h : SpecOk st) :
    SpecAfter (relationshipStep env inb origin_pk item rel fwd st).1
      (relationshipStep env inb origin_pk item rel fwd st).2.2 := by
  unfold relationshipStep
  dsimp only
  cases hjr : env.join_records origin_pk rel fwd with
  | nil => exact h.after
  | cons jr0 rest =>
    dsimp only
    cases hpl : prepare_lookup_kwargs fwd rel jr0 with
    | mk rm field =>
      dsimp only
      have hsp0 := getSwaggerSpec_SpecOk env rm.logic_module_endpoint_name st h
      cases hsp : _get_swagger_spec env rm.logic_module_endpoint_name st with
      | mk st1 r =>
        rw [hsp] at hsp0
        cases r with
        | error e => exact hsp0
        | ok spec =>
          have hok : SpecOk st1 := by
            rcases hsp0 with hh | hh
            · exact hh
            · exact absurd hh.2 (by simp [errOf, isGatewayErr])
          have hrun := runJoinRecords_specFields env inb spec rm field rel.key
            (jr0 :: rest) (assocSet item rel.key (.vArr [])) st1
          exact (hok.of_fields hrun.1 hrun.2).after

theorem runRelationships_SpecOk (env : Env) (inb : InboundRequest)
    (origin_pk : Value) :
    ∀ (rels : List (Relationship × Bool)) (item : Obj) (st : GwState),
    SpecOk st →
    SpecAfter (runRelationships env inb origin_pk rels item st).1
      (runRelationships env inb origin_pk rels item st).2.2 := by
  intro rels
  induction rels with
  | nil => intro item st h; exact h.after
  | cons rf rest ih =>
    intro item st h
    obtain ⟨rel, fwd⟩ := rf
    rw [show runRelationships env inb origin_pk ((rel, fwd) :: rest) item st =
        (match relationshipStep env inb origin_pk item rel fwd st with
         | (st', item', some e) => (st', item', some e)
         | (st', item', none) => runRelationships env inb origin_pk rest item' st')
      from rfl]
    have hstep0 := relationshipStep_SpecOk env inb origin_pk item rel fwd st h
    cases hstep : relationshipStep env inb origin_pk item rel fwd st with
    | mk st1 ir =>
      rw [hstep] at hstep0
      obtain ⟨item1, err⟩ := ir
      cases err with
      | some e => exact hstep0
      | none =>
        have hok : SpecOk st1 := by
          rcases hstep0 with hh | hh
          · exact hh
          · exact absurd hh.2 (by simp [isGatewayErr])
        exact ih item1 st1 hok

theorem addNestedData_SpecOk (env : Env) (inb : InboundRequest) (item : Obj)
    (rels : List (Relationship × Bool)) (f : String) (st : GwState)
    (h : SpecOk st) :
    SpecAfter (_add_nested_data env inb item rels f st).1
      (_add_nested_data env inb item rels f st).2.2 := by
  unfold _add_nested_data
  dsimp only
  have hcl : SpecOk { st with request_GET := [] } := h.of_fields rfl rfl
  split
  · exact runRelationships_SpecOk env inb _ rels item _ hcl
  · exact hcl.after

theorem runItems_SpecOk (env : Env) (inb : InboundRequest)
    (rels : List (Relationship × Bool)) (f : String) :
    ∀ (items : List Value) (st : GwState), SpecOk st →
    SpecAfter (runItems env inb rels f items st).1
      (runItems env inb rels f items st).2.2 := by
  intro items
  induction items with
  | nil => intro st h; exact h.after
  | cons item rest ih =>
    intro st h
    cases item with
    | vObj fields =>
      rw [show runItems env inb rels f (.vObj fields :: rest) st =
          (match _add_nested_data env inb fields rels f st with
           | (st', fields', some e) => (st', .vObj fields' :: rest, some e)
           | (st', fields', none) =>
             match runItems env inb rels f rest st' with
             | (st'', rest', err) => (st'', .vObj fields' :: rest', err))
        from rfl]
      have hstep0 := addNestedData_SpecOk env inb fields rels f st h
      cases hstep : _add_nested_data env inb fields rels f st with
      | mk st1 ir =>
        rw [hstep] at hstep0
        obtain ⟨fields1, err⟩ := ir
        cases err with
        | some e => exact hstep0
        | none =>
          have hok : SpecOk st1 := by
            rcases hstep0 with hh | hh
            · exact hh
            · exact absurd hh.2 (by simp [isGatewayErr])
          have hr := ih st1 hok
          cases hrest : runItems env inb rels f rest st1 with
          | mk st2 rr =>
            rw [hrest] at hr
            obtain ⟨rest', err2⟩ := rr
            dsimp only
            rw [hrest]
            exact hr
    | vNull => exact h.after
    | vBool b => exact h.after
    | vNum n => exact h.after
    | vStr s => exact h.after
    | vArr xs => exact h.after

theorem joinResponseData_SpecOk (env : Env) (inb : InboundRequest)
    (service : String) (resp : Value) (st : GwState) (h : SpecOk st) :
    SpecAfter (_join_response_data env inb service resp st).1
      (_join_response_data env inb service resp st).2.2 := by
  unfold _join_response_data
  dsimp only
  have hrf := getDatameshRelationships_frame env inb service st
  cases hrels : get_datamesh_relationships env inb service st with
  | mk st1 r =>
    rw [hrels] at hrf
    have hok : SpecOk st1 := h.of_fields hrf.2.1 hrf.2.2.1
    cases r with
    | error e => exact hok.after
    | ok p =>
      obtain ⟨rels, f⟩ := p
      dsimp only
      cases resp with
      | vObj rf =>
        cases hres : assocGet rf "results" with
        | some r =>
          simp only [hres]
          cases r with
          | vObj fields =>
            have hs := addNestedData_SpecOk env inb fields rels f st1 hok
            cases hstep : _add_nested_data env inb fields rels f st1 with
            | mk st2 ir =>
              rw [hstep] at hs
              obtain ⟨fields2, err⟩ := ir
              cases err <;> simpa [hstep] using hs
          | vArr items =>
            have hs := runItems_SpecOk env inb rels f items st1 hok
            cases hstep : runItems env inb rels f items st1 with
            | mk st2 rr =>
              rw [hstep] at hs
              obtain ⟨items', err⟩ := rr
              cases err <;> simpa [hstep] using hs
          | vNull => exact hok.after
          | vBool b => exact hok.after
          | vNum n => exact hok.after
          | vStr s => exact hok.after
        | none =>
          simp only [hres]
          have hs := addNestedData_SpecOk env inb rf rels f st1 hok
          cases hstep : _add_nested_data env inb rf rels f st1 with
          | mk st2 ir =>
            rw [hstep] at hs
            obtain ⟨fields2, err⟩ := ir
            cases err <;> simpa [hstep] using hs
      | vArr xs =>
        have hs := runItems_SpecOk env inb rels f xs st1 hok
        cases hstep : runItems env inb rels f xs st1 with
        | mk st2 rr =>
          rw [hstep] at hs
          obtain ⟨items', err⟩ := rr
          cases err <;> simpa [hstep] using hs
      | vNull => exact hok.after
      | vBool b => exact hok.after
      | vNum n => exact hok.after
      | vStr s => exact hok.after

theorem getData_Nodup (env : Env) (inb : InboundRequest) (kwargs : UrlKwargs)
    (spec : SwSpec) (st : GwState) (h : SpecOk st) :
    (_get_data env inb kwargs spec st).1.spec_fetches.Nodup := by
  unfold _get_data
  have hdr := dataRequest_frame env inb spec { model := kwargs.model, pk := kwargs.pk } st
  cases hreq : _data_request env inb spec { model := kwargs.model, pk := kwargs.pk } st with
  | mk st1 r =>
    rw [hreq] at hdr
    have hok1 : SpecOk st1 := h.of_fields hdr.2.1 hdr.2.2.1
    cases r with
    | error e => exact hok1.1
    | ok t =>
      obtain ⟨content, status, headers⟩ := t
      dsimp only
      split
      · cases content with
        | json v =>
          dsimp only
          have hj0 := joinResponseData_SpecOk env inb kwargs.service v st1 hok1
          cases hj : _join_response_data env inb kwargs.service v st1 with
          | mk st2 vr =>
            rw [hj] at hj0
            obtain ⟨v', err⟩ := vr
            have hnodup2 : st2.spec_fetches.Nodup := by
              rcases hj0 with hh | hh
              · exact hh.1
              · exact hh.1
            cases err with
            | none => exact hnodup2
            | some e => cases e <;> exact hnodup2
        | raw s => exact hok1.1
      · exact hok1.1

theorem performSync_Nodup (env : Env) (inb : InboundRequest) (kwargs : UrlKwargs) :
    (performSync env inb kwargs (initState inb)).1.spec_fetches.Nodup := by
  have h0 : SpecOk (initState inb) := by
    constructor
    · exact List.nodup_nil
    · intro u hu
      simp [initState] at hu
  unfold performSync
  have hsp0 := getSwaggerSpec_SpecOk env kwargs.service (initState inb) h0
  cases hsp : _get_swagger_spec env kwargs.service (initState inb) with
  | mk st1 r =>
    rw [hsp] at hsp0
    cases r with
    | error e =>
      have hnodup : st1.spec_fetches.Nodup := by
        rcases hsp0 with hh | hh
        · exact hh.1
        · exact hh.1
      cases e <;> exact hnodup
    | ok spec =>
      have hok : SpecOk st1 := by
        rcases hsp0 with hh | hh
        · exact hh
        · exact absurd hh.2 (by simp [errOf, isGatewayErr])
      exact getData_Nodup env inb kwargs spec st1 hok

/-! ## Removal and fold lemmas for the form payload -/

theorem any_filter {α : Type} (p q : α → Bool) :
    ∀ l : List α, (l.filter p).any q = l.any (fun x => p x && q x) := by
  intro l
  induction l with
  | nil => rfl
  | cons a tl ih =>
    rw [List.filter_cons]
    by_cases h : p a = true
    · simp [h, ih]
    · simp only [h, Bool.false_eq_true, if_false, List.any_cons]
      rw [ih]
      simp [Bool.false_and, (Bool.not_eq_true (p a)).mp h]

theorem any_and_const {α : Type} (f : α → Bool) (c : Bool) :
    ∀ l : List α, l.any (fun x => f x && c) = (l.any f && c) := by
  intro l
  induction l with
  | nil => simp
  | cons a tl ih =>
    simp only [List.any_cons, ih]
    cases c <;> cases f a <;> simp

theorem assocHas_assocRemove {α : Type} (d : List (String × α)) (k k' : String) :
    assocHas (assocRemove d k') k = (assocHas d k && decide (k ≠ k')) := by
  show (d.filter (fun p => p.1 ≠ k')).any (fun p => p.1 = k) = _
  rw [any_filter]
  rw [show (fun p : String × α => decide (p.1 ≠ k') && decide (p.1 = k)) =
      (fun p : String × α => decide (p.1 = k) && decide (k ≠ k')) from
    funext (fun p => by
      by_cases h : p.1 = k
      · subst h
        simp [Bool.and_comm]
      · simp [h])]
  rw [any_and_const]
  rfl

theorem assocHas_foldl_assocSet {α : Type} (k : String) :
    ∀ (l : List (String × α)) (d : List (String × α)),
    (∀ p ∈ l, p.1 ≠ k) →
    assocHas (l.foldl (fun acc kv => assocSet acc kv.1 kv.2) d) k = assocHas d k := by
  intro l
  induction l with
  | nil => intro d _; rfl
  | cons hd tl ih =>
    intro d hl
    obtain ⟨a, b⟩ := hd
    have ha : a ≠ k := by
      have hh := hl (a, b) (List.mem_cons_self _ _)
      simpa using hh
    rw [List.foldl_cons]
    rw [ih (assocSet d a b) (fun p hp => hl p (List.mem_cons_of_mem _ hp))]
    rw [assocHas_assocSet]
    have hka : (k = a) = False := eq_false (fun hh => ha hh.symm)
    simp [hka]

/-- As the synchronous `_data_request`, the asynchronous one appends at most
one call, and such a call carries no query parameters. -/
theorem asyncDataRequest_calls_params (env : Env) (inb : InboundRequest)
    (spec : SwSpec) (kw : SubKwargs) (st : GwState) :
    ∀ c ∈ (async_data_request env inb spec kw st).1.upstream_calls,
      c ∈ st.upstream_calls ∨ c.params = [] := by
  unfold async_data_request
  repeat' (first | split | dsimp only)
  all_goals intro c hc
  all_goals try (exact Or.inl hc)
  all_goals
    rcases List.mem_append.mp hc with h | h
  all_goals try (exact Or.inl h)
  all_goals rw [List.mem_singleton.mp h]
  all_goals exact Or.inr rfl

theorem asyncPlanRels_GET (env : Env) (inb : InboundRequest) (itemIdx : Nat)
    (origin_pk : Value) :
    ∀ (rels : List (Relationship × Bool)) (slotIdx : Nat) (item : Obj)
      (st : GwState),
    (asyncPlanRels env inb itemIdx origin_pk rels slotIdx item st).1.request_GET =
      st.request_GET := by
  intro rels
  induction rels with
  | nil => intro slotIdx item st; rfl
  | cons rf rest ih =>
    intro slotIdx item st
    obtain ⟨rel, fwd⟩ := rf
    unfold asyncPlanRels
    dsimp only
    cases hjr : env.join_records origin_pk rel fwd with
    | nil =>
      dsimp only
      cases hrec : asyncPlanRels env inb itemIdx origin_pk rest (slotIdx + 1)
          (assocSet item rel.key (.vArr [])) st with
      | mk st1 r =>
        obtain ⟨item1, slots1, tasks1, err1⟩ := r
        have h := ih (slotIdx + 1) (assocSet item rel.key (.vArr [])) st
        rw [hrec] at h
        simpa using h
    | cons jr0 rest_jr =>
      dsimp only
      cases hsp : async_get_swagger_spec env
          (prepare_lookup_kwargs fwd rel jr0).1.logic_module_endpoint_name st with
      | mk st1 r =>
        have h1 : st1.request_GET = st.request_GET := by
          have h := (asyncGetSwaggerSpec_frame env
            (prepare_lookup_kwargs fwd rel jr0).1.logic_module_endpoint_name st).1
          rw [hsp] at h
          exact h
        cases r with
        | error e => simpa using h1
        | ok spec =>
          dsimp only
          cases hrec : asyncPlanRels env inb itemIdx origin_pk rest (slotIdx + 1)
              (assocSet item rel.key (.vArr [])) st1 with
          | mk st2 r2 =>
            obtain ⟨item2, slots2, tasks2, err2⟩ := r2
            have h := ih (slotIdx + 1) (assocSet item rel.key (.vArr [])) st1
            rw [hrec] at h
            simpa using h.trans h1

/-- After the async planner has processed a record, the live query parameters
are empty: they are cleared on entry and no callee repopulates them. -/
theorem asyncPlanItem_GET (env : Env) (inb : InboundRequest) (idx : Nat)
    (fields : Obj) (rels : List (Relationship × Bool)) (f : String)
    (st : GwState) :
    (asyncPlanItem env inb idx fields rels f st).1.request_GET = [] := by
  unfold asyncPlanItem
  dsimp only
  split
  · exact asyncPlanRels_GET env inb idx _ rels 0 fields _
  · rfl

/-- The fan-out phase never writes the live query parameters. -/
theorem asyncRunTasks_GET (env : Env) (inb : InboundRequest) :
    ∀ (tasks : List ATask) (st : GwState),
    (asyncRunTasks env inb tasks st).1.request_GET = st.request_GET := by
  intro tasks
  induction tasks with
  | nil => intro st; rfl
  | cons t rest ih =>
    intro st
    unfold asyncRunTasks
    dsimp only
    cases hreq : async_data_request env inb t.spec
        { model := t.model, pk := some t.pk } st with
    | mk st1 r =>
      have h1 : st1.request_GET = st.request_GET := by
        have h := (asyncDataRequest_frame env inb t.spec
          { model := t.model, pk := some t.pk } st).1
        rw [hreq] at h
        exact h
      cases r with
      | error e => simpa using h1
      | ok ret =>
        obtain ⟨content, status, headers⟩ := ret
        cases content with
        | json v =>
          cases v with
          | vObj fields =>
            dsimp only
            cases hrec : asyncRunTasks env inb rest st1 with
            | mk st2 r2 =>
              obtain ⟨out2, err2⟩ := r2
              have h := ih st1
              rw [hrec] at h
              simpa using h.trans h1
          | vNull =>
            dsimp only
            cases hrec : asyncRunTasks env inb rest
                { st1 with error_log := st1.error_log ++ [noResponseDataMsg] } with
            | mk st2 r2 =>
              obtain ⟨out2, err2⟩ := r2
              have h := ih { st1 with error_log := st1.error_log ++ [noResponseDataMsg] }
              rw [hrec] at h
              simpa using h.trans h1
          | vBool b =>
            dsimp only
            cases hrec : asyncRunTasks env inb rest
                { st1 with error_log := st1.error_log ++ [noResponseDataMsg] } with
            | mk st2 r2 =>
              obtain ⟨out2, err2⟩ := r2
              have h := ih { st1 with error_log := st1.error_log ++ [noResponseDataMsg] }
              rw [hrec] at h
              simpa using h.trans h1
          | vNum n =>
            dsimp only
            cases hrec : asyncRunTasks env inb rest
                { st1 with error_log := st1.error_log ++ [noResponseDataMsg] } with
            | mk st2 r2 =>
              obtain ⟨out2, err2⟩ := r2
              have h := ih { st1 with error_log := st1.error_log ++ [noResponseDataMsg] }
              rw [hrec] at h
              simpa using h.trans h1
          | vStr s =>
            dsimp only
            cases hrec : asyncRunTasks env inb rest
                { st1 with error_log := st1.error_log ++ [noResponseDataMsg] } with
            | mk st2 r2 =>
              obtain ⟨out2, err2⟩ := r2
              have h := ih { st1 with error_log := st1.error_log ++ [noResponseDataMsg] }
              rw [hrec] at h
              simpa using h.trans h1
          | vArr xs =>
            dsimp only
            cases hrec : asyncRunTasks env inb rest
                { st1 with error_log := st1.error_log ++ [noResponseDataMsg] } with
            | mk st2 r2 =>
              obtain ⟨out2, err2⟩ := r2
              have h := ih { st1 with error_log := st1.error_log ++ [noResponseDataMsg] }
              rw [hrec] at h
              simpa using h.trans h1
        | raw s =>
          dsimp only
          cases hrec : asyncRunTasks env inb rest
              { st1 with error_log := st1.error_log ++ [noResponseDataMsg] } with
          | mk st2 r2 =>
            obtain ⟨out2, err2⟩ := r2
            have h := ih { st1 with error_log := st1.error_log ++ [noResponseDataMsg] }
            rw [hrec] at h
            simpa using h.trans h1

/-! ## Relationship keys hold lists -/

/-- The value under `k` is a (possibly empty) embedded list. -/
def KeyIsArr (item : Obj) (k : String) : Prop :=
  ∃ xs, assocGet item k = some (.vArr xs)

theorem KeyIsArr_assocSet_arr (item : Obj) (k : String) (xs : List Value) :
    KeyIsArr (assocSet item k (.vArr xs)) k :=
  ⟨xs, assocGet_assocSet_self item k _⟩

theorem KeyIsArr_assocSet_of (item : Obj) (k k' : String) (xs : List Value)
    (h : KeyIsArr item k) : KeyIsArr (assocSet item k' (.vArr xs)) k := by
  by_cases hk : k = k'
  · subst hk
    exact KeyIsArr_assocSet_arr item k xs
  · obtain ⟨ys, hy⟩ := h
    exact ⟨ys, (assocGet_assocSet_ne item k' k _ hk).trans hy⟩

theorem KeyIsArr_arrAppend (item : Obj) (k k' : String) (v : Value)
    (h : KeyIsArr item k) : KeyIsArr (arrAppend item k' v) k := by
  by_cases hk : k = k'
  · subst hk
    exact arrAppend_isArr item k v
  · obtain ⟨ys, hy⟩ := h
    exact ⟨ys, (assocGet_arrAppend_ne item k' k v hk).trans hy⟩

/-- A join-record step either leaves the record alone (dropped entry) or
appends one object to the embed list under the relationship key. -/
theorem joinRecordStep_item (env : Env) (inb : InboundRequest) (spec : SwSpec)
    (rm : LogicModuleModel) (field : JRField) (relKey : String) (item : Obj)
    (jr : JoinRecord) (st : GwState) :
    (joinRecordStep env inb spec rm field relKey item jr st).2.1 = item ∨
    ∃ fs, (joinRecordStep env inb spec rm field relKey item jr st).2.1 =
      arrAppend item relKey (.vObj fs) := by
  unfold joinRecordStep
  repeat' (first | split | dsimp only)
  all_goals first
    | exact Or.inl rfl
    | exact Or.inr ⟨_, rfl⟩

theorem runJoinRecords_KeyIsArr (env : Env) (inb : InboundRequest) (spec : SwSpec)
    (rm : LogicModuleModel) (field : JRField) (relKey : String) :
    ∀ (jrs : List JoinRecord) (item : Obj) (st : GwState) (k : String),
    KeyIsArr item k →
    KeyIsArr (runJoinRecords env inb spec rm field relKey jrs item st).2.1 k := by
  intro jrs
  induction jrs with
  | nil => intro item st k h; exact h
  | cons jr rest ih =>
    intro item st k h
    have hstep := joinRecordStep_item env inb spec rm field relKey item jr st
    have h1 : KeyIsArr (joinRecordStep env inb spec rm field relKey item jr st).2.1 k := by
      rcases hstep with hh | ⟨fs, hh⟩
      · rw [hh]; exact h
      · rw [hh]; exact KeyIsArr_arrAppend item k relKey _ h
    rw [show runJoinRecords env inb spec rm field relKey (jr :: rest) item st =
        (match joinRecordStep env inb spec rm field relKey item jr st with
         | (st', item', some e) => (st', item', some e)
         | (st', item', none) =>
             runJoinRecords env inb spec rm field relKey rest item' st') from rfl]
    cases hs : joinRecordStep env inb spec rm field relKey item jr st with
    | mk st1 ir =>
      rw [hs] at h1
      obtain ⟨item1, err⟩ := ir
      cases err with
      | some e => exact h1
      | none => exact ih item1 st1 k h1

theorem relationshipStep_KeyIsArr_self (env : Env) (inb : InboundRequest)
    (origin_pk : Value) (item : Obj) (rel : Relationship) (fwd : Bool)
    (st : GwState) :
    KeyIsArr (relationshipStep env inb origin_pk item rel fwd st).2.1 rel.key := by
  unfold relationshipStep
  dsimp only
  have h0 : KeyIsArr (assocSet item rel.key (.vArr [])) rel.key :=
    KeyIsArr_assocSet_arr item rel.key []
  cases hjr : env.join_records origin_pk rel fwd with
  | nil => exact h0
  | cons jr0 rest =>
    dsimp only
    cases hpl : prepare_lookup_kwargs fwd rel jr0 with
    | mk rm field =>
      dsimp only
      cases hsp : _get_swagger_spec env rm.logic_module_endpoint_name st with
      | mk st1 r =>
        cases r with
        | error e => exact h0
        | ok spec =>
          exact runJoinRecords_KeyIsArr env inb spec rm field rel.key
            (jr0 :: rest) _ st1 rel.key h0

theorem relationshipStep_KeyIsArr_mono (env : Env) (inb : InboundRequest)
    (origin_pk : Value) (item : Obj) (rel : Relationship) (fwd : Bool)
    (st : GwState) (k : String) (h : KeyIsArr item k) :
    KeyIsArr (relationshipStep env inb origin_pk item rel fwd st).2.1 k := by
  unfold relationshipStep
  dsimp only
  have h0 : KeyIsArr (assocSet item rel.key (.vArr [])) k :=
    KeyIsArr_assocSet_of item k rel.key [] h
  cases hjr : env.join_records origin_pk rel fwd with
  | nil => exact h0
  | cons jr0 rest =>
    dsimp only
    cases hpl : prepare_lookup_kwargs fwd rel jr0 with
    | mk rm field =>
      dsimp only
      cases hsp : _get_swagger_spec env rm.logic_module_endpoint_name st with
      | mk st1 r =>
        cases r with
        | error e => exact h0
        | ok spec =>
          exact runJoinRecords_KeyIsArr env inb spec rm field rel.key
            (jr0 :: rest) _ st1 k h0

theorem runRelationships_KeyIsArr_mono (env : Env) (inb : InboundRequest)
    (origin_pk : Value) :
    ∀ (rels : List (Relationship × Bool)) (item : Obj) (st : GwState) (k : String),
    KeyIsArr item k →
    KeyIsArr (runRelationships env inb origin_pk rels item st).2.1 k := by
  intro rels
  induction rels with
  | nil => intro item st k h; exact h
  | cons rf rest ih =>
    intro item st k h
    obtain ⟨rel, fwd⟩ := rf
    have h1 := relationshipStep_KeyIsArr_mono env inb origin_pk item rel fwd st k h
    rw [show runRelationships env inb origin_pk ((rel, fwd) :: rest) item st =
        (match relationshipStep env inb origin_pk item rel fwd st with
         | (st', item', some e) => (st', item', some e)
         | (st', item', none) => runRelationships env inb origin_pk rest item' st')
      from rfl]
    cases hs : relationshipStep env inb origin_pk item rel fwd st with
    | mk st1 ir =>
      rw [hs] at h1
      obtain ⟨item1, err⟩ := ir
      cases err with
      | some e => exact h1
      | none => exact ih item1 st1 k h1

theorem runRelationships_KeyIsArr (env : Env) (inb : InboundRequest)
    (origin_pk : Value) :
    ∀ (rels : List (Relationship × Bool)) (item : Obj) (st : GwState),
    (runRelationships env inb origin_pk rels item st).2.2 = none →
    ∀ rel fwd, (rel, fwd) ∈ rels →
    KeyIsArr (runRelationships env inb origin_pk rels item st).2.1 rel.key := by
  intro rels
  induction rels with
  | nil => intro item st _ rel fwd hmem; cases hmem
  | cons rf rest ih =>
    intro item st hnone rel fwd hmem
    obtain ⟨r0, f0⟩ := rf
    rw [show runRelationships env inb origin_pk ((r0, f0) :: rest) item st =
        (match relationshipStep env inb origin_pk item r0 f0 st with
         | (st', item', some e) => (st', item', some e)
         | (st', item', none) => runRelationships env inb origin_pk rest item' st')
      from rfl] at hnone ⊢
    have hself := relationshipStep_KeyIsArr_self env inb origin_pk item r0 f0 st
    cases hs : relationshipStep env inb origin_pk item r0 f0 st with
    | mk st1 ir =>
      rw [hs] at hnone hself
      obtain ⟨item1, err⟩ := ir
      cases err with
      | some e => exact absurd hnone (by simp)
      | none =>
        rcases List.mem_cons.mp hmem with hh | hh
        · obtain ⟨h1, h2⟩ := Prod.mk.inj hh
          subst h1
          exact runRelationships_KeyIsArr_mono env inb origin_pk rest item1 st1
            rel.key hself
        · exact ih item1 st1 hnone rel fwd hh

theorem addNestedData_keys (env : Env) (inb : InboundRequest) (item : Obj)
    (rels : List (Relationship × Bool)) (f : String) (st st' : GwState)
    (item' : Obj)
    (h : _add_nested_data env inb item rels f st = (st', item', none)) :
    ∀ rel fwd, (rel, fwd) ∈ rels → KeyIsArr item' rel.key := by
  unfold _add_nested_data at h
  dsimp only at h
  by_cases ht : truthyOpt (assocGet item f) = true
  · rw [if_pos ht] at h
    intro rel fwd hmem
    have := runRelationships_KeyIsArr env inb ((assocGet item f).getD .vNull)
      rels item { st with request_GET := [] } (by rw [h]) rel fwd hmem
    rw [h] at this
    exact this
  · rw [if_neg ht] at h
    exact absurd (congrArg (fun p => p.2.2) h) (by simp)

theorem runItems_keys (env : Env) (inb : InboundRequest)
    (rels : List (Relationship × Bool)) (f : String) :
    ∀ (items : List Value) (st st' : GwState) (items' : List Value),
    runItems env inb rels f items st = (st', items', none) →
    ∀ v ∈ items', ∀ rel fwd, (rel, fwd) ∈ rels →
      ∃ fs, v = .vObj fs ∧ KeyIsArr fs rel.key := by
  intro items
  induction items with
  | nil =>
    intro st st' items' h v hv
    have h' : ((st, [], none) : GwState × List Value × Option GwError) =
        (st', items', none) := h
    rw [show items' = [] from ((Prod.mk.inj (Prod.mk.inj h').2).1).symm] at hv
    cases hv
  | cons item rest ih =>
    intro st st' items' h v hv rel fwd hmem
    cases item with
    | vObj fields =>
      rw [show runItems env inb rels f (.vObj fields :: rest) st =
          (match _add_nested_data env inb fields rels f st with
           | (st', fields', some e) => (st', .vObj fields' :: rest, some e)
           | (st', fields', none) =>
             match runItems env inb rels f rest st' with
             | (st'', rest', err) => (st'', .vObj fields' :: rest', err))
        from rfl] at h
      cases hstep : _add_nested_data env inb fields rels f st with
      | mk st1 ir =>
        rw [hstep] at h
        obtain ⟨fields1, err⟩ := ir
        cases err with
        | some e =>
          dsimp only at h
          exact absurd (congrArg (fun p => p.2.2) h) (by simp)
        | none =>
          dsimp only at h
          cases hrest : runItems env inb rels f rest st1 with
          | mk st2 rr =>
            rw [hrest] at h
            obtain ⟨rest', err2⟩ := rr
            dsimp only at h
            obtain ⟨hst, hitems, herr⟩ :
                st2 = st' ∧ Value.vObj fields1 :: rest' = items' ∧ err2 = none := by
              have h1 := Prod.mk.inj h
              have h2 := Prod.mk.inj h1.2
              exact ⟨h1.1, h2.1, h2.2⟩
            rw [← hitems] at hv
            rcases List.mem_cons.mp hv with hh | hh
            · subst hh
              exact ⟨fields1, rfl,
                addNestedData_keys env inb fields rels f st st1 fields1 hstep
                  rel fwd hmem⟩
            · subst herr
              exact ih st1 st2 rest' hrest v hh rel fwd hmem
    | vNull =>
      have h' : ((st, Value.vNull :: rest,
          some (GwError.pyError "data_item has no attribute get")) :
          GwState × List Value × Option GwError) = (st', items', none) := h
      exact absurd (congrArg (fun p => p.2.2) h') (by simp)
    | vBool b =>
      have h' : ((st, Value.vBool b :: rest,
          some (GwError.pyError "data_item has no attribute get")) :
          GwState × List Value × Option GwError) = (st', items', none) := h
      exact absurd (congrArg (fun p => p.2.2) h') (by simp)
    | vNum n =>
      have h' : ((st, Value.vNum n :: rest,
          some (GwError.pyError "data_item has no attribute get")) :
          GwState × List Value × Option GwError) = (st', items', none) := h
      exact absurd (congrArg (fun p => p.2.2) h') (by simp)
    | vStr s2 =>
      have h' : ((st, Value.vStr s2 :: rest,
          some (GwError.pyError "data_item has no attribute get")) :
          GwState × List Value × Option GwError) = (st', items', none) := h
      exact absurd (congrArg (fun p => p.2.2) h') (by simp)
    | vArr xs =>
      have h' : ((st, Value.vArr xs :: rest,
          some (GwError.pyError "data_item has no attribute get")) :
          GwState × List Value × Option GwError) = (st', items', none) := h
      exact absurd (congrArg (fun p => p.2.2) h') (by simp)

/-! ## Warm-up bookkeeping (concurrent engine) -/

theorem warmupUrls_frame (env : Env) :
    ∀ (rels : List (Relationship × Bool)) (st : GwState),
    (warmupUrls env rels st).1.specs_cache = st.specs_cache ∧
    (warmupUrls env rels st).1.spec_fetches = st.spec_fetches := by
  intro rels
  induction rels with
  | nil => intro st; exact ⟨rfl, rfl⟩
  | cons rf rest ih =>
    intro st
    obtain ⟨rel, fwd⟩ := rf
    unfold warmupUrls
    cases hlm : _get_logic_module env rel.related_model.logic_module_endpoint_name st with
    | mk st1 r =>
      have hf := getLogicModule_frame env rel.related_model.logic_module_endpoint_name st
      rw [hlm] at hf
      cases r with
      | error e => exact ⟨hf.2.1, hf.2.2.1⟩
      | ok lm =>
        dsimp only
        cases hrest : warmupUrls env rest st1 with
        | mk st2 r2 =>
          have h2 := ih st1
          rw [hrest] at h2
          cases r2 with
          | error e => exact ⟨h2.1.trans hf.2.1, h2.2.trans hf.2.2.1⟩
          | ok us => exact ⟨h2.1.trans hf.2.1, h2.2.trans hf.2.2.1⟩

theorem warmupWrite_fetches (env : Env) :
    ∀ (us : List String) (st : GwState),
    (warmupWrite env us st).1.spec_fetches = st.spec_fetches := by
  intro us
  induction us with
  | nil => intro st; rfl
  | cons u rest ih =>
    intro st
    unfold warmupWrite
    repeat' (first | split | dsimp only)
    all_goals simp_all

/-- The fetch log produced by the warm-up phase: one fetch per task whose
`schema_url` was uncached at warm-up entry, duplicates included. -/
theorem asyncWarmup_fetches (env : Env) (rels : List (Relationship × Bool))
    (st st1 : GwState) (us : List String)
    (hu : warmupUrls env rels st = (st1, .ok us)) :
    (asyncWarmup env rels st).1.spec_fetches =
      st.spec_fetches ++ us.filter (fun u => !(assocHas st.specs_cache u)) := by
  have hf := warmupUrls_frame env rels st
  rw [hu] at hf
  unfold asyncWarmup
  rw [hu]
  dsimp only
  rw [warmupWrite_fetches]
  dsimp only
  rw [hf.1, hf.2]

/-! ## Join error propagation through `_get_data` -/

/-- A join-record step whose sub-request succeeds with a body that is not a
JSON object logs the drop and continues: the record is unchanged and no
exception is raised. -/
theorem joinRecordStep_nonObject (env : Env) (inb : InboundRequest)
    (spec : SwSpec) (rm : LogicModuleModel) (field : JRField) (relKey : String)
    (item : Obj) (jr : JoinRecord) (st st1 : GwState) (content : BodyContent)
    (status : Nat) (headers : List (String × String))
    (hreq : _data_request env inb spec
        { model := stripSlash rm.endpoint, pk := some (jrGetStr jr field) } st =
      (st1, .ok (content, status, headers)))
    (hno : ∀ fs, content ≠ .json (.vObj fs)) :
    joinRecordStep env inb spec rm field relKey item jr st =
      ({ st1 with error_log := st1.error_log ++ [noResponseDataMsg] }, item, none) := by
  unfold joinRecordStep
  dsimp only
  rw [hreq]
  dsimp only
  cases content with
  | raw s => rfl
  | json v =>
    cases v with
    | vObj fs => exact absurd rfl (hno fs)
    | vNull => rfl
    | vBool b => rfl
    | vNum n => rfl
    | vStr s => rfl
    | vArr xs => rfl

/-- A sub-request that answers with a JSON object body is embedded under the
relationship key whatever its status code: `_add_nested_data` never reads the
sub-response status (request.py lines 310-320). -/
theorem joinRecordStep_object (env : Env) (inb : InboundRequest)
    (spec : SwSpec) (rm : LogicModuleModel) (field : JRField) (relKey : String)
    (item : Obj) (jr : JoinRecord) (st st1 : GwState) (fields : Obj)
    (status : Nat) (headers : List (String × String))
    (hreq : _data_request env inb spec
        { model := stripSlash rm.endpoint, pk := some (jrGetStr jr field) } st =
      (st1, .ok (.json (.vObj fields), status, headers))) :
    joinRecordStep env inb spec rm field relKey item jr st =
      (st1, arrAppend item relKey (.vObj fields), none) := by
  unfold joinRecordStep
  dsimp only
  rw [hreq]

/-- A `ServiceDoesNotExist` raised while joining is caught by `_get_data`:
the error is logged and the response still carries the primary payload (as
mutated so far), status and headers. -/
theorem getData_joinSDN (env : Env) (inb : InboundRequest) (kwargs : UrlKwargs)
    (spec : SwSpec) (st st1 : GwState) (v : Value)
    (headers : List (String × String)) (st2 : GwState) (v' : Value) (m : String)
    (hreq : _data_request env inb spec { model := kwargs.model, pk := kwargs.pk } st =
      (st1, .ok (.json v, 200, headers)))
    (hjoin : assocHas st1.request_GET "join" = true)
    (hcont : isJsonContainer (.json v) = true)
    (hj : _join_response_data env inb kwargs.service v st1 =
      (st2, v', some (.serviceDoesNotExist m))) :
    _get_data env inb kwargs spec st =
      ({ st2 with error_log := st2.error_log ++ [m] },
       .ok { content := .json v', status_code := 200, headers := headers }) := by
  unfold _get_data
  rw [hreq]
  dsimp only
  rw [if_pos (by simp [hjoin, hcont])]
  rw [hj]
  rfl

/-- Any other exception raised while joining (`GatewayError` from a transport
failure, `EndpointNotFound`, `DataMeshError`, ...) is not caught by
`_get_data` and fails the whole request. -/
theorem getData_joinErr (env : Env) (inb : InboundRequest) (kwargs : UrlKwargs)
    (spec : SwSpec) (st st1 : GwState) (v : Value)
    (headers : List (String × String)) (st2 : GwState) (v' : Value) (e : GwError)
    (hreq : _data_request env inb spec { model := kwargs.model, pk := kwargs.pk } st =
      (st1, .ok (.json v, 200, headers)))
    (hjoin : assocHas st1.request_GET "join" = true)
    (hcont : isJsonContainer (.json v) = true)
    (hj : _join_response_data env inb kwargs.service v st1 = (st2, v', some e))
    (hnot : ∀ m, e ≠ .serviceDoesNotExist m) :
    _get_data env inb kwargs spec st = (st2, .error e) := by
  unfold _get_data
  rw [hreq]
  dsimp only
  rw [if_pos (by simp [hjoin, hcont])]
  rw [hj]
  cases e with
  | serviceDoesNotExist m => exact absurd rfl (hnot m)
  | endpointNotFound m => rfl
  | gatewayError m => rfl
  | dataMeshError m => rfl
  | pyError m => rfl

/-- When the spec step succeeds, `perform` is `_get_data`. -/
theorem performSync_step (env : Env) (inb : InboundRequest) (kwargs : UrlKwargs)
    (st st1 : GwState) (spec : SwSpec)
    (hsp : _get_swagger_spec env kwargs.service st = (st1, .ok spec)) :
    performSync env inb kwargs st = _get_data env inb kwargs spec st1 := by
  unfold performSync
  rw [hsp]

/-- A missing or falsy origin lookup value raises `DataMeshError` (the check
is truthiness, not key presence), after clearing the live query parameters. -/
theorem addNestedData_falsy (env : Env) (inb : InboundRequest) (item : Obj)
    (rels : List (Relationship × Bool)) (f : String) (st : GwState)
    (h : truthyOpt (assocGet item f) = false) :
    _add_nested_data env inb item rels f st =
      ({ st with request_GET := [] }, item,
       some (.dataMeshError (dataMeshErrorMsg f))) := by
  unfold _add_nested_data
  dsimp only
  rw [if_neg (by simp [h])]

/-- The asynchronous planner raises the same `DataMeshError` on a missing or
falsy origin lookup value. -/
theorem asyncPlanItem_falsy (env : Env) (inb : InboundRequest) (idx : Nat)
    (fields : Obj) (rels : List (Relationship × Bool)) (f : String)
    (st : GwState) (h : truthyOpt (assocGet fields f) = false) :
    asyncPlanItem env inb idx fields rels f st =
      ({ st with request_GET := [] }, fields, [], [],
       some (.dataMeshError (dataMeshErrorMsg f))) := by
  unfold asyncPlanItem
  dsimp only
  rw [if_neg (by simp [h])]

/-- Splitting the list-view loop at an append: the prefix runs first and,
when it raises, the suffix is left untouched. -/
theorem runItems_append (env : Env) (inb : InboundRequest)
    (rels : List (Relationship × Bool)) (f : String) :
    ∀ (pre post : List Value) (st : GwState),
    runItems env inb rels f (pre ++ post) st =
      (match runItems env inb rels f pre st with
       | (st1, pre', some e) => (st1, pre' ++ post, some e)
       | (st1, pre', none) =>
         match runItems env inb rels f post st1 with
         | (st2, post', err) => (st2, pre' ++ post', err)) := by
  intro pre
  induction pre with
  | nil =>
    intro post st
    show runItems env inb rels f post st =
      (match runItems env inb rels f [] st with
       | (st1, pre', some e) => (st1, pre' ++ post, some e)
       | (st1, pre', none) =>
         match runItems env inb rels f post st1 with
         | (st2, post', err) => (st2, pre' ++ post', err))
    rw [show runItems env inb rels f [] st =
      ((st, [], none) : GwState × List Value × Option GwError) from rfl]
    dsimp only
    cases h : runItems env inb rels f post st with
    | mk st2 rr =>
      obtain ⟨post', err⟩ := rr
      rfl
  | cons item pre' ih =>
    intro post st
    cases item with
    | vObj fields =>
      rw [show (Value.vObj fields :: pre') ++ post =
          Value.vObj fields :: (pre' ++ post) from rfl]
      rw [show runItems env inb rels f (.vObj fields :: (pre' ++ post)) st =
          (match _add_nested_data env inb fields rels f st with
           | (st', fields', some e) => (st', .vObj fields' :: (pre' ++ post), some e)
           | (st', fields', none) =>
             match runItems env inb rels f (pre' ++ post) st' with
             | (st'', rest', err) => (st'', .vObj fields' :: rest', err))
        from rfl]
      rw [show runItems env inb rels f (.vObj fields :: pre') st =
          (match _add_nested_data env inb fields rels f st with
           | (st', fields', some e) => (st', .vObj fields' :: pre', some e)
           | (st', fields', none) =>
             match runItems env inb rels f pre' st' with
             | (st'', rest', err) => (st'', .vObj fields' :: rest', err))
        from rfl]
      cases hstep : _add_nested_data env inb fields rels f st with
      | mk stA ir =>
        obtain ⟨fieldsA, errA⟩ := ir
        cases errA with
        | some e => rfl
        | none =>
          dsimp only
          rw [ih post stA]
          cases hpre : runItems env inb rels f pre' stA with
          | mk stB rb =>
            obtain ⟨preB, errB⟩ := rb
            cases errB with
            | some e => rfl
            | none =>
              dsimp only
              cases hpost : runItems env inb rels f post stB with
              | mk stC rc =>
                obtain ⟨postC, errC⟩ := rc
                rfl
    | vNull => rfl
    | vBool b => rfl
    | vNum n => rfl
    | vStr s => rfl
    | vArr xs => rfl

/-- On a list payload the join is exactly the list-view loop, re-wrapped. -/
theorem joinResponseData_arr (env : Env) (inb : InboundRequest) (service : String)
    (items : List Value) (st st1 : GwState) (rels : List (Relationship × Bool))
    (f : String)
    (hrels : get_datamesh_relationships env inb service st = (st1, .ok (rels, f))) :
    _join_response_data env inb service (.vArr items) st =
      (match runItems env inb rels f items st1 with
       | (st2, items', err) => (st2, .vArr items', err)) := by
  unfold _join_response_data
  dsimp only
  rw [hrels]
  dsimp only
  cases h : runItems env inb rels f items st1 with
  | mk st2 rr =>
    obtain ⟨items', err⟩ := rr
    rfl

/-- When the spec step succeeds, the async `perform` is `async_get_data`. -/
theorem performAsync_step (env : Env) (inb : InboundRequest) (kwargs : UrlKwargs)
    (σ : List Nat) (st st1 : GwState) (spec : SwSpec)
    (hsp : async_get_swagger_spec env kwargs.service st = (st1, .ok spec)) :
    performAsync env inb kwargs σ st = async_get_data env inb kwargs σ spec st1 := by
  unfold performAsync
  rw [hsp]

/-- On a list payload whose planning raises, the async join propagates the
planner's exception before any task runs. -/
theorem asyncJoin_arr_planErr (env : Env) (inb : InboundRequest) (service : String)
    (σ : List Nat) (items : List Value) (st st1 : GwState)
    (rels : List (Relationship × Bool)) (f : String) (stW stP : GwState)
    (pitems : List (Value × List (Nat × String))) (tasks : List ATask) (e : GwError)
    (hrels : get_datamesh_relationships env inb service st = (st1, .ok (rels, f)))
    (hwu : asyncWarmup env rels st1 = (stW, none))
    (hplan : asyncPlanItems env inb rels f items 0 stW = (stP, pitems, tasks, some e)) :
    async_join_response_data env inb service σ (.vArr items) st =
      (stP, .vArr (pitems.map (fun p => p.1)), some e) := by
  unfold async_join_response_data
  dsimp only
  rw [hrels]
  dsimp only
  rw [hwu]
  dsimp only
  rw [hplan]
  rfl

/-- As `_get_data`, the async variant does not catch exceptions other than
`ServiceDoesNotExist` from the join. -/
theorem asyncGetData_joinErr (env : Env) (inb : InboundRequest)
    (kwargs : UrlKwargs) (σ : List Nat) (spec : SwSpec) (st st1 : GwState)
    (v : Value) (headers : List (String × String)) (st2 : GwState) (v' : Value)
    (e : GwError)
    (hreq : async_data_request env inb spec
        { model := kwargs.model, pk := kwargs.pk } st =
      (st1, .ok (.json v, 200, headers)))
    (hjoin : assocHas st1.request_GET "join" = true)
    (hcont : isJsonContainer (.json v) = true)
    (hj : async_join_response_data env inb kwargs.service σ v st1 = (st2, v', some e))
    (hnot : ∀ m, e ≠ .serviceDoesNotExist m) :
    async_get_data env inb kwargs σ spec st = (st2, .error e) := by
  unfold async_get_data
  rw [hreq]
  dsimp only
  rw [if_pos (by simp [hjoin, hcont])]
  rw [hj]
  cases e with
  | serviceDoesNotExist m => exact absurd rfl (hnot m)
  | endpointNotFound m => rfl
  | gatewayError m => rfl
  | dataMeshError m => rfl
  | pyError m => rfl

/-- On an unpaginated detail payload whose planning raises, the async join
propagates the planner's exception before any task runs. -/
theorem asyncJoin_obj_planErr (env : Env) (inb : InboundRequest) (service : String)
    (σ : List Nat) (fields : Obj) (st st1 : GwState)
    (rels : List (Relationship × Bool)) (f : String) (stW stP : GwState)
    (fields' : Obj) (slots : List (Nat × String)) (tasks : List ATask) (e : GwError)
    (hres : assocGet fields "results" = none)
    (hrels : get_datamesh_relationships env inb service st = (st1, .ok (rels, f)))
    (hwu : asyncWarmup env rels st1 = (stW, none))
    (hplan : asyncPlanItem env inb 0 fields rels f stW =
      (stP, fields', slots, tasks, some e)) :
    async_join_response_data env inb service σ (.vObj fields) st =
      (stP, .vObj fields', some e) := by
  unfold async_join_response_data
  dsimp only
  rw [hres]
  dsimp only
  rw [hrels]
  dsimp only
  rw [hwu]
  dsimp only
  rw [hplan]
  rfl

/-- Cache-eligibility only reads the method and the live query parameters. -/
theorem isValidForCache_congr (inb : InboundRequest) (st st' : GwState)
    (h : st'.request_GET = st.request_GET) :
    is_valid_for_cache inb st' = is_valid_for_cache inb st := by
  simp [is_valid_for_cache, h]

/-- A cache-eligible call that succeeded leaves the response under its URL in
the per-request cache: any later call resolving to the same URL is answered
from it with the identical triple and without touching the state (in
particular, no upstream call is appended). -/
theorem dataRequest_second_cached (env : Env) (inb : InboundRequest)
    (spec1 spec2 : SwSpec) (kw1 kw2 : SubKwargs) (st st1 : GwState)
    (r : BodyContent × Nat × List (String × String)) (m1 m2 url : String)
    (hv : is_valid_for_cache inb st = true)
    (hres1 : prepare_data spec1 inb.method kw1 = .ok (m1, url))
    (hres2 : prepare_data spec2 inb.method kw2 = .ok (m2, url))
    (hreq1 : _data_request env inb spec1 kw1 st = (st1, .ok r)) :
    _data_request env inb spec2 kw2 st1 = (st1, .ok r) := by
  unfold _data_request at hreq1 ⊢
  rw [hres1] at hreq1
  rw [hres2]
  dsimp only at hreq1 ⊢
  rw [if_pos hv] at hreq1
  cases hget : assocGet st.data_cache url with
  | some r0 =>
    rw [hget] at hreq1
    dsimp only at hreq1
    have h1 : st = st1 := congrArg Prod.fst hreq1
    have h2 : r0 = r := Except.ok.inj (congrArg Prod.snd hreq1)
    subst h1
    rw [if_pos hv, hget, h2]
  | none =>
    rw [hget] at hreq1
    dsimp only at hreq1
    cases hhttp : env.http
        { method := m1, url := url, params := st.request_GET,
          headers := get_headers inb, data := get_request_data inb st } with
    | transportError m =>
      rw [hhttp] at hreq1
      exact absurd (congrArg Prod.snd hreq1) (by simp)
    | ok body status headers =>
      rw [hhttp] at hreq1
      dsimp only at hreq1
      have hvA : is_valid_for_cache inb
          { st with upstream_calls := st.upstream_calls ++
            [{ method := m1, url := url, params := st.request_GET,
               headers := get_headers inb, data := get_request_data inb st }] } = true :=
        (isValidForCache_congr inb st _ rfl).trans hv
      rw [if_pos hvA] at hreq1
      have hst : ({ st with
          upstream_calls := st.upstream_calls ++
            [{ method := m1, url := url, params := st.request_GET,
               headers := get_headers inb, data := get_request_data inb st }],
          data_cache := assocSet st.data_cache url (body, status, headers) }
            : GwState) = st1 :=
        congrArg Prod.fst hreq1
      have hr : (body, status, headers) = r := Except.ok.inj (congrArg Prod.snd hreq1)
      have hv1 : is_valid_for_cache inb st1 = true := by
        rw [← hst]
        exact ((isValidForCache_congr inb st _ rfl)).trans hv
      have hget1 : assocGet st1.data_cache url = some r := by
        rw [← hst, ← hr]
        exact assocGet_assocSet_self st.data_cache url (body, status, headers)
      rw [if_pos hv1, hget1]

/-- The async analog of `dataRequest_second_cached`: the concurrent engine's
`_data_request` uses the same per-request cache discipline. -/
theorem asyncDataRequest_second_cached (env : Env) (inb : InboundRequest)
    (spec1 spec2 : SwSpec) (kw1 kw2 : SubKwargs) (st st1 : GwState)
    (r : BodyContent × Nat × List (String × String)) (m1 m2 url : String)
    (hv : is_valid_for_cache inb st = true)
    (hres1 : prepare_data spec1 inb.method kw1 = .ok (m1, url))
    (hres2 : prepare_data spec2 inb.method kw2 = .ok (m2, url))
    (hreq1 : async_data_request env inb spec1 kw1 st = (st1, .ok r)) :
    async_data_request env inb spec2 kw2 st1 = (st1, .ok r) := by
  unfold async_data_request at hreq1 ⊢
  rw [hres1] at hreq1
  rw [hres2]
  dsimp only at hreq1 ⊢
  rw [if_pos hv] at hreq1
  cases hget : assocGet st.data_cache url with
  | some r0 =>
    rw [hget] at hreq1
    dsimp only at hreq1
    have h1 : st = st1 := congrArg Prod.fst hreq1
    have h2 : r0 = r := Except.ok.inj (congrArg Prod.snd hreq1)
    subst h1
    rw [if_pos hv, hget, h2]
  | none =>
    rw [hget] at hreq1
    dsimp only at hreq1
    cases hhttp : env.http
        { method := m1, url := url, params := [],
          headers := get_headers inb, data := get_request_data inb st } with
    | transportError m =>
      rw [hhttp] at hreq1
      exact absurd (congrArg Prod.snd hreq1) (by simp)
    | ok body status headers =>
      rw [hhttp] at hreq1
      dsimp only at hreq1
      have hvA : is_valid_for_cache inb
          { st with upstream_calls := st.upstream_calls ++
            [{ method := m1, url := url, params := [],
               headers := get_headers inb, data := get_request_data inb st }] } = true :=
        (isValidForCache_congr inb st _ rfl).trans hv
      rw [if_pos hvA] at hreq1
      have hst : ({ st with
          upstream_calls := st.upstream_calls ++
            [{ method := m1, url := url, params := [],
               headers := get_headers inb, data := get_request_data inb st }],
          data_cache := assocSet st.data_cache url (body, status, headers) }
            : GwState) = st1 :=
        congrArg Prod.fst hreq1
      have hr : (body, status, headers) = r := Except.ok.inj (congrArg Prod.snd hreq1)
      have hv1 : is_valid_for_cache inb st1 = true := by
        rw [← hst]
        exact ((isValidForCache_congr inb st _ rfl)).trans hv
      have hget1 : assocGet st1.data_cache url = some r := by
        rw [← hst, ← hr]
        exact assocGet_assocSet_self st.data_cache url (body, status, headers)
      rw [if_pos hv1, hget1]

/-! ## Claim theorems -/

/-- C1, counterexample: the claim says a sub-request transport failure is
logged and only that entry omitted, never failing the outer response.  In the
world `envSubTransportFail` the primary call succeeds (status 200) and the
join's second sub-request fails at the transport layer; the engine turns it
into a `GatewayError` that `_get_data` does not catch, so the whole request
fails instead of returning the primary payload. -/
theorem C1_counterexample :
    (performSync Ex.envSubTransportFail Ex.inbJoin Ex.kwargsOrders
        (initState Ex.inbJoin)).2 =
      .error (.gatewayError (transportErrorMsg "conn refused")) := by
  rfl

/-- C2, counterexample: the claim says that after the engine finishes, every
record containing the lookup field has every relationship key set to a list,
even when a related-service lookup fails partway.  In `envJoinUnknownService`
the engine finishes normally (the mid-join `ServiceDoesNotExist` is caught
and logged), yet the second record — which contains the lookup field `id` —
never received the `items` key of the relationship `(relItems, true)`,
because the abort happened while processing its earlier `ghosts`
relationship. -/
theorem C2_counterexample :
    (performSync Ex.envJoinUnknownService Ex.inbJoin Ex.kwargsOrders
        (initState Ex.inbJoin)).2 =
      .ok { content := .json (.vArr
              [ .vObj [("id", .vNum 8), ("ghosts", .vArr []), ("items", .vArr [])],
                .vObj [("id", .vNum 7), ("ghosts", .vArr [])] ]),
            status_code := 200, headers := [("H", "pri")] } ∧
    assocHas Ex.inbJoin.query_params "join" = true ∧
    (Ex.relItems, true) ∈ Ex.envJoinUnknownService.relationships "orders" "/orders/" ∧
    assocGet [("id", Value.vNum 7), ("ghosts", Value.vArr [])] "id" =
      some (.vNum 7) ∧
    assocGet [("id", Value.vNum 7), ("ghosts", Value.vArr [])] Ex.relItems.key =
      none := by
  refine ⟨rfl, rfl, ?_, rfl, rfl⟩
  decide

/-- C3, counterexample: the claim says `aggregate` and `join` are stripped
from every outbound upstream call.  On the happy-path joined request the
synchronous primary call forwards the full inbound query-parameter collection
— `join` included — through the `params=` argument (request.py line 238);
only the two join sub-requests are parameter-free. -/
theorem C3_counterexample :
    ((performSync Ex.baseEnv Ex.inbJoin Ex.kwargsOrders
        (initState Ex.inbJoin)).1.upstream_calls.map
          (fun c => (c.url, c.params))) =
      [ ("http://orders.service/orders/", [("join", "")]),
        ("http://products.service/products/10/", []),
        ("http://products.service/products/11/", []) ] := by
  rfl

/-- C4, counterexample: the claim says each distinct `schema_url` is fetched
at most once per inbound request, even under concurrent warm-up.  In
`envSharedRelatedService` the two planned relationships point at models of
the same `products` service; both warm-up tasks check the spec cache before
either fetch completes, so `http://products/docs` is fetched twice. -/
theorem C4_counterexample :
    (performAsync Ex.envSharedRelatedService Ex.inbJoin Ex.kwargsOrders []
        (initState Ex.inbJoin)).1.spec_fetches =
      ["http://orders/docs", "http://products/docs", "http://products/docs"] ∧
    ¬ (performAsync Ex.envSharedRelatedService Ex.inbJoin Ex.kwargsOrders []
        (initState Ex.inbJoin)).1.spec_fetches.Nodup := by
  exact ⟨rfl, by decide⟩

/-- C1, amended: the partial-failure tolerance of the join is narrower than
claimed.  (i) A sub-request that *answers* with a body that is not a JSON
object (any status) is logged and only that entry is dropped, without raising;
(ii) a `ServiceDoesNotExist` raised while joining is caught by `_get_data`,
logged, and the outer response still returns the primary payload with its
status and headers (though the rest of the join was abandoned); but (iii) a
transport failure in a sub-request raises a `GatewayError` that `_get_data`
does not catch, failing the outer response; and (iv) the sub-response status
code is never consulted: a JSON object body is embedded under the
relationship key whatever the status — a non-2xx dict body is embedded
rather than omitted. -/
theorem C1_amended :
    (∀ (env : Env) (inb : InboundRequest) (spec : SwSpec)
        (rm : LogicModuleModel) (field : JRField) (relKey : String) (item : Obj)
        (jr : JoinRecord) (st st1 : GwState) (content : BodyContent)
        (status : Nat) (headers : List (String × String)),
      _data_request env inb spec
          { model := stripSlash rm.endpoint, pk := some (jrGetStr jr field) } st =
        (st1, .ok (content, status, headers)) →
      (∀ fs, content ≠ .json (.vObj fs)) →
      joinRecordStep env inb spec rm field relKey item jr st =
        ({ st1 with error_log := st1.error_log ++ [noResponseDataMsg] },
         item, none)) ∧
    (∀ (env : Env) (inb : InboundRequest) (kwargs : UrlKwargs) (spec : SwSpec)
        (st st1 : GwState) (v : Value) (headers : List (String × String))
        (st2 : GwState) (v' : Value) (m : String),
      _data_request env inb spec { model := kwargs.model, pk := kwargs.pk } st =
        (st1, .ok (.json v, 200, headers)) →
      assocHas st1.request_GET "join" = true →
      isJsonContainer (.json v) = true →
      _join_response_data env inb kwargs.service v st1 =
        (st2, v', some (.serviceDoesNotExist m)) →
      _get_data env inb kwargs spec st =
        ({ st2 with error_log := st2.error_log ++ [m] },
         .ok { content := .json v', status_code := 200, headers := headers })) ∧
    (∀ (env : Env) (inb : InboundRequest) (kwargs : UrlKwargs) (spec : SwSpec)
        (st st1 : GwState) (v : Value) (headers : List (String × String))
        (st2 : GwState) (v' : Value) (m : String),
      _data_request env inb spec { model := kwargs.model, pk := kwargs.pk } st =
        (st1, .ok (.json v, 200, headers)) →
      assocHas st1.request_GET "join" = true →
      isJsonContainer (.json v) = true →
      _join_response_data env inb kwargs.service v st1 =
        (st2, v', some (.gatewayError m)) →
      _get_data env inb kwargs spec st = (st2, .error (.gatewayError m))) ∧
    (∀ (env : Env) (inb : InboundRequest) (spec : SwSpec)
        (rm : LogicModuleModel) (field : JRField) (relKey : String) (item : Obj)
        (jr : JoinRecord) (st st1 : GwState) (fields : Obj) (status : Nat)
        (headers : List (String × String)),
      _data_request env inb spec
          { model := stripSlash rm.endpoint, pk := some (jrGetStr jr field) } st =
        (st1, .ok (.json (.vObj fields), status, headers)) →
      joinRecordStep env inb spec rm field relKey item jr st =
        (st1, arrAppend item relKey (.vObj fields), none)) := by
  refine ⟨joinRecordStep_nonObject, getData_joinSDN, ?_, joinRecordStep_object⟩
  intro env inb kwargs spec st st1 v headers st2 v' m hreq hjoin hcont hj
  exact getData_joinErr env inb kwargs spec st st1 v headers st2 v'
    (.gatewayError m) hreq hjoin hcont hj (fun m' h => GwError.noConfusion h)

/-- C1 witness: the four behaviors at concrete worlds — a raw sub-response
is dropped with a log and no exception; the unknown-service join returns the
primary 200 response with the error logged; the transport-failing join fails
the whole request; and a 404 sub-response with a JSON object body is embedded
under the relationship key rather than omitted, end to end. -/
theorem C1_witness :
    joinRecordStep Ex.envSubRawBody Ex.inbJoin Ex.productsSpec Ex.productsLMM
        .relatedRecordId "items" [("id", Value.vNum 7)]
        { related_record_id := some 11, related_record_uuid := none }
        (initState Ex.inbJoin) =
      ({ (_data_request Ex.envSubRawBody Ex.inbJoin Ex.productsSpec
            { model := "products", pk := some "11" } (initState Ex.inbJoin)).1 with
          error_log := (_data_request Ex.envSubRawBody Ex.inbJoin Ex.productsSpec
            { model := "products", pk := some "11" } (initState Ex.inbJoin)).1.error_log
            ++ [noResponseDataMsg] },
       [("id", Value.vNum 7)], none) ∧
    _get_data Ex.envJoinUnknownService Ex.inbJoin Ex.kwargsOrders Ex.ordersSpec
        (initState Ex.inbJoin) =
      ({ (_join_response_data Ex.envJoinUnknownService Ex.inbJoin "orders"
            (.vArr [ .vObj [("id", .vNum 8)], .vObj [("id", .vNum 7)] ])
            (_data_request Ex.envJoinUnknownService Ex.inbJoin Ex.ordersSpec
              { model := "orders", pk := none } (initState Ex.inbJoin)).1).1 with
          error_log := (_join_response_data Ex.envJoinUnknownService Ex.inbJoin
            "orders" (.vArr [ .vObj [("id", .vNum 8)], .vObj [("id", .vNum 7)] ])
            (_data_request Ex.envJoinUnknownService Ex.inbJoin Ex.ordersSpec
              { model := "orders", pk := none }
              (initState Ex.inbJoin)).1).1.error_log
            ++ ["Service \"ghost\" not found."] },
       .ok { content := .json (.vArr
              [ .vObj [("id", .vNum 8), ("ghosts", .vArr []), ("items", .vArr [])],
                .vObj [("id", .vNum 7), ("ghosts", .vArr [])] ]),
             status_code := 200, headers := [("H", "pri")] }) ∧
    _get_data Ex.envSubTransportFail Ex.inbJoin Ex.kwargsOrders Ex.ordersSpec
        (initState Ex.inbJoin) =
      ((_join_response_data Ex.envSubTransportFail Ex.inbJoin "orders"
          Ex.primaryPayload
          (_data_request Ex.envSubTransportFail Ex.inbJoin Ex.ordersSpec
            { model := "orders", pk := none } (initState Ex.inbJoin)).1).1,
       .error (.gatewayError (transportErrorMsg "conn refused"))) ∧
    joinRecordStep Ex.envSub404Json Ex.inbJoin Ex.productsSpec Ex.productsLMM
        .relatedRecordId "items" [("id", Value.vNum 7), ("items", Value.vArr [])]
        { related_record_id := some 11, related_record_uuid := none }
        (initState Ex.inbJoin) =
      ((_data_request Ex.envSub404Json Ex.inbJoin Ex.productsSpec
          { model := "products", pk := some "11" } (initState Ex.inbJoin)).1,
       arrAppend [("id", Value.vNum 7), ("items", Value.vArr [])] "items"
         (.vObj [("detail", Value.vStr "Not found.")]), none) ∧
    (performSync Ex.envSub404Json Ex.inbJoin Ex.kwargsOrders
        (initState Ex.inbJoin)).2 =
      .ok { content := .json (.vArr
              [ .vObj [("id", .vNum 7), ("name", .vStr "o7"),
                       ("items", .vArr
                         [ Ex.product10,
                           .vObj [("detail", .vStr "Not found.")] ])] ]),
            status_code := 200, headers := [("H", "pri")] } := by
  refine ⟨?_, ?_, ?_, ?_, rfl⟩
  · exact C1_amended.1 Ex.envSubRawBody Ex.inbJoin Ex.productsSpec Ex.productsLMM
      .relatedRecordId "items" [("id", Value.vNum 7)]
      { related_record_id := some 11, related_record_uuid := none }
      (initState Ex.inbJoin) _ (.raw "oops") 500 [] rfl
      (fun fs h => BodyContent.noConfusion h)
  · exact C1_amended.2.1 Ex.envJoinUnknownService Ex.inbJoin Ex.kwargsOrders
      Ex.ordersSpec (initState Ex.inbJoin) _
      (.vArr [ .vObj [("id", .vNum 8)], .vObj [("id", .vNum 7)] ]) [("H", "pri")]
      _ (.vArr [ .vObj [("id", .vNum 8), ("ghosts", .vArr []), ("items", .vArr [])],
                 .vObj [("id", .vNum 7), ("ghosts", .vArr [])] ])
      "Service \"ghost\" not found." rfl rfl rfl rfl
  · exact C1_amended.2.2.1 Ex.envSubTransportFail Ex.inbJoin Ex.kwargsOrders
      Ex.ordersSpec (initState Ex.inbJoin) _ Ex.primaryPayload [("H", "pri")]
      _ (.vArr [ .vObj [("id", .vNum 7), ("name", .vStr "o7"),
                        ("items", .vArr [.vObj [("id", .vNum 10)]])] ])
      (transportErrorMsg "conn refused") rfl rfl rfl rfl
  · exact C1_amended.2.2.2 Ex.envSub404Json Ex.inbJoin Ex.productsSpec
      Ex.productsLMM .relatedRecordId "items"
      [("id", Value.vNum 7), ("items", Value.vArr [])]
      { related_record_id := some 11, related_record_uuid := none }
      (initState Ex.inbJoin) _ [("detail", Value.vStr "Not found.")] 404 [] rfl

/-- C2, amended: as long as the join of a record runs to completion without a
raised exception (dropped entries with non-object bodies are not exceptions),
every relationship key of the primary model is set on it to a (possibly
empty) list; the same holds for every record of a list view whose processing
loop finishes without a raised exception.  (When a sub-request raises — e.g.
`ServiceDoesNotExist` — the join stops and later records or relationships may
lack their keys, as the counterexample shows.) -/
theorem C2_amended :
    (∀ (env : Env) (inb : InboundRequest) (item : Obj)
        (rels : List (Relationship × Bool)) (f : String) (st st' : GwState)
        (item' : Obj),
      _add_nested_data env inb item rels f st = (st', item', none) →
      ∀ rel fwd, (rel, fwd) ∈ rels →
        ∃ xs, assocGet item' rel.key = some (.vArr xs)) ∧
    (∀ (env : Env) (inb : InboundRequest) (rels : List (Relationship × Bool))
        (f : String) (items : List Value) (st st' : GwState)
        (items' : List Value),
      runItems env inb rels f items st = (st', items', none) →
      ∀ v ∈ items', ∀ rel fwd, (rel, fwd) ∈ rels →
        ∃ fs xs, v = .vObj fs ∧ assocGet fs rel.key = some (.vArr xs)) := by
  constructor
  · intro env inb item rels f st st' item' h rel fwd hmem
    exact addNestedData_keys env inb item rels f st st' item' h rel fwd hmem
  · intro env inb rels f items st st' items' h v hv rel fwd hmem
    obtain ⟨fs, hfs, xs, hxs⟩ :=
      runItems_keys env inb rels f items st st' items' h v hv rel fwd hmem
    exact ⟨fs, xs, hfs, hxs⟩

/-- C2 witness: nesting the happy-path record sets the `items` relationship
key to the embedded product list. -/
theorem C2_witness :
    ∃ xs, assocGet
      [("id", Value.vNum 7), ("name", Value.vStr "o7"),
       ("items", Value.vArr [Ex.product10, Ex.product11])] Ex.relItems.key =
      some (.vArr xs) := by
  exact C2_amended.1 Ex.baseEnv Ex.inbJoin
    [("id", .vNum 7), ("name", .vStr "o7")] [(Ex.relItems, true)] "id"
    (initState Ex.inbJoin)
    (_add_nested_data Ex.baseEnv Ex.inbJoin
      [("id", .vNum 7), ("name", .vStr "o7")] [(Ex.relItems, true)] "id"
      (initState Ex.inbJoin)).1
    [("id", .vNum 7), ("name", .vStr "o7"),
     ("items", .vArr [Ex.product10, Ex.product11])]
    (by rfl) Ex.relItems true (by decide)

/-- C3, amended: the gateway-private keys `aggregate` and `join` are stripped
from the form payload built by `get_request_data` (provided the inbound form
body does not itself carry them), and join sub-requests are issued with the
query parameters cleared; but the synchronous engine forwards the *entire
live query-parameter collection* — `aggregate` and `join` included — as the
query string of every call it issues (`params=self.request.query_params`), so
the primary call does forward them whenever they were inbound. -/
theorem C3_amended :
    (∀ (inb : InboundRequest) (st : GwState) (d : List (String × String)),
      (∀ p ∈ inb.form_body, p.1 ≠ "aggregate" ∧ p.1 ≠ "join") →
      get_request_data inb st = .formData d →
      assocHas d "aggregate" = false ∧ assocHas d "join" = false) ∧
    (∀ (env : Env) (inb : InboundRequest) (spec : SwSpec) (kw : SubKwargs)
        (st : GwState), ∀ c ∈ (_data_request env inb spec kw st).1.upstream_calls,
      c ∈ st.upstream_calls ∨ c.params = st.request_GET) ∧
    (∀ (env : Env) (inb : InboundRequest) (item : Obj)
        (rels : List (Relationship × Bool)) (f : String) (st : GwState),
      ∀ c ∈ (_add_nested_data env inb item rels f st).1.upstream_calls,
        c ∈ st.upstream_calls ∨ c.params = []) := by
  refine ⟨?_, dataRequest_calls_params, addNestedData_calls_params⟩
  intro inb st d hbody hform
  unfold get_request_data at hform
  by_cases hct : inb.content_type = "application/json"
  · rw [if_pos hct] at hform
    exact absurd hform (by simp)
  · rw [if_neg hct] at hform
    dsimp only at hform
    have hbaseA : assocHas (assocRemove (assocRemove
        (dictOfQuery st.request_GET) "aggregate") "join") "aggregate" = false := by
      rw [assocHas_assocRemove, assocHas_assocRemove]
      simp
    have hbaseJ : assocHas (assocRemove (assocRemove
        (dictOfQuery st.request_GET) "aggregate") "join") "join" = false := by
      rw [assocHas_assocRemove]
      simp
    by_cases hm : strToLower inb.method = "post" ∨ strToLower inb.method = "put" ∨
        strToLower inb.method = "patch"
    · rw [if_pos hm] at hform
      have hd := RequestData.formData.inj hform
      subst hd
      constructor
      · rw [assocHas_foldl_assocSet _ _ _ (fun p hp => (hbody p hp).1)]
        exact hbaseA
      · rw [assocHas_foldl_assocSet _ _ _ (fun p hp => (hbody p hp).2)]
        exact hbaseJ
    · rw [if_neg hm] at hform
      have hd := RequestData.formData.inj hform
      subst hd
      exact ⟨hbaseA, hbaseJ⟩

/-- C3 witness: the stripping conjunct at a concrete request with an inert
parameter, and the call-parameter conjuncts at concrete calls of the
happy-path run — the primary call carries the inbound parameters, a join
sub-request none. -/
theorem C3_witness :
    (assocHas [("x", "1")] "aggregate" = false ∧
     assocHas [("x", "1")] "join" = false) ∧
    (({ method := "get", url := "http://orders.service/orders/",
        params := [("join", "")], headers := [("Authorization", "tok")],
        data := .formData [] : UpstreamCall } ∈
          (initState Ex.inbJoin).upstream_calls) ∨
     ({ method := "get", url := "http://orders.service/orders/",
        params := [("join", "")], headers := [("Authorization", "tok")],
        data := .formData [] : UpstreamCall }).params =
          (initState Ex.inbJoin).request_GET) ∧
    (({ method := "get", url := "http://products.service/products/10/",
        params := [], headers := [("Authorization", "tok")],
        data := .formData [] : UpstreamCall } ∈
          (initState Ex.inbJoin).upstream_calls) ∨
     ({ method := "get", url := "http://products.service/products/10/",
        params := [], headers := [("Authorization", "tok")],
        data := .formData [] : UpstreamCall }).params = []) := by
  refine ⟨?_, ?_, ?_⟩
  · exact C3_amended.1 { Ex.inbJoin with query_params := [("x", "1")] }
      { initState Ex.inbJoin with request_GET := [("x", "1")] } [("x", "1")]
      (by intro p hp; cases hp) rfl
  · exact C3_amended.2.1 Ex.baseEnv Ex.inbJoin Ex.ordersSpec
      { model := "orders", pk := none } (initState Ex.inbJoin) _ (by decide)
  · exact C3_amended.2.2 Ex.baseEnv Ex.inbJoin [("id", Value.vNum 7)]
      [(Ex.relItems, true)] "id" (initState Ex.inbJoin) _ (by decide)

/-- C4, amended: in the sequential engine each distinct `schema_url` is
fetched from upstream at most once per inbound request (the fetch log stays
duplicate-free); the concurrent engine's spec warm-up does not coalesce
concurrent misses — every warm-up task whose `schema_url` is uncached at
warm-up entry performs its own fetch, so relationships resolving to the same
uncached `schema_url` fetch it once each (twice or more in total). -/
theorem C4_amended :
    (∀ (env : Env) (inb : InboundRequest) (kwargs : UrlKwargs),
      (performSync env inb kwargs (initState inb)).1.spec_fetches.Nodup) ∧
    (∀ (env : Env) (rels : List (Relationship × Bool)) (st st1 : GwState)
        (us : List String) (u : String),
      warmupUrls env rels st = (st1, .ok us) →
      assocHas st.specs_cache u = false →
      2 ≤ us.count u →
      2 ≤ ((asyncWarmup env rels st).1.spec_fetches.count u)) := by
  constructor
  · exact performSync_Nodup
  · intro env rels st st1 us u hu hnc hcount
    rw [asyncWarmup_fetches env rels st st1 us hu, List.count_append]
    have hfc : (us.filter (fun u' => !(assocHas st.specs_cache u'))).count u =
        us.count u := by
      apply List.count_filter
      simp [hnc]
    omega

/-- C4 witness: the sequential happy-path run has a duplicate-free fetch log,
and the concurrent warm-up over two relationships backed by the same
(uncached) `products` service fetches its schema twice. -/
theorem C4_witness :
    (performSync Ex.baseEnv Ex.inbJoin Ex.kwargsOrders
        (initState Ex.inbJoin)).1.spec_fetches.Nodup ∧
    2 ≤ ((asyncWarmup Ex.envSharedRelatedService
          [(Ex.relItems, true), (Ex.relCrates, true)]
          (initState Ex.inbJoin)).1.spec_fetches.count "http://products/docs") := by
  constructor
  · exact C4_amended.1 Ex.baseEnv Ex.inbJoin Ex.kwargsOrders
  · exact C4_amended.2 Ex.envSharedRelatedService
      [(Ex.relItems, true), (Ex.relCrates, true)] (initState Ex.inbJoin)
      (warmupUrls Ex.envSharedRelatedService
        [(Ex.relItems, true), (Ex.relCrates, true)] (initState Ex.inbJoin)).1
      ["http://products/docs", "http://products/docs"] "http://products/docs"
      (by rfl) (by rfl) (by decide)

/-- C7, counterexample: the claim says both executors produce structurally
equal responses whose embed lists follow the planner's emission order.  With
the same inputs (registry emits the join records for products 10 then 11) the
sequential executor embeds `[product10, product11]`, but the concurrent
executor under the completion order `[1, 0]` — a permutation of the two
planned tasks — appends in completion order and embeds
`[product11, product10]`: the embed order does not match the emission order
and the responses differ. -/
theorem C7_counterexample :
    ([1, 0] : List Nat).Perm (List.range 2) ∧
    (performSync Ex.baseEnv Ex.inbJoin Ex.kwargsOrders (initState Ex.inbJoin)).2 =
      .ok { content := .json (.vArr
              [ .vObj [("id", .vNum 7), ("name", .vStr "o7"),
                       ("items", .vArr [Ex.product10, Ex.product11])] ]),
            status_code := 200, headers := [("H", "pri")] } ∧
    (performAsync Ex.baseEnv Ex.inbJoin Ex.kwargsOrders [1, 0]
        (initState Ex.inbJoin)).2 =
      .ok { content := .json (.vArr
              [ .vObj [("id", .vNum 7), ("name", .vStr "o7"),
                       ("items", .vArr [Ex.product11, Ex.product10])] ]),
            status_code := 200, headers := [("H", "pri")] } ∧
    Ex.baseEnv.join_records (.vNum 7) Ex.relItems true =
      [ { related_record_id := some 10, related_record_uuid := none },
        { related_record_id := some 11, related_record_uuid := none } ] ∧
    (performAsync Ex.baseEnv Ex.inbJoin Ex.kwargsOrders [1, 0]
        (initState Ex.inbJoin)).2 ≠
      (performSync Ex.baseEnv Ex.inbJoin Ex.kwargsOrders (initState Ex.inbJoin)).2 := by
  exact ⟨by decide, rfl, rfl, rfl, by decide⟩

/-! ## Non-relationship fields of a record are untouched by the join -/

theorem joinRecordStep_filter (env : Env) (inb : InboundRequest) (spec : SwSpec)
    (rm : LogicModuleModel) (field : JRField) (relKey : String) (item : Obj)
    (jr : JoinRecord) (st : GwState) (q : String → Bool)
    (hq : q relKey = false) :
    ((joinRecordStep env inb spec rm field relKey item jr st).2.1).filter
        (fun p => q p.1) =
      item.filter (fun p => q p.1) := by
  unfold joinRecordStep
  repeat' (first | split | dsimp only)
  all_goals first
    | rfl
    | exact filter_arrAppend_of_not item relKey _ q hq

theorem runJoinRecords_filter (env : Env) (inb : InboundRequest) (spec : SwSpec)
    (rm : LogicModuleModel) (field : JRField) (relKey : String)
    (q : String → Bool) (hq : q relKey = false) :
    ∀ (jrs : List JoinRecord) (item : Obj) (st : GwState),
    ((runJoinRecords env inb spec rm field relKey jrs item st).2.1).filter
        (fun p => q p.1) =
      item.filter (fun p => q p.1) := by
  intro jrs
  induction jrs with
  | nil => intro item st; rfl
  | cons jr rest ih =>
    intro item st
    unfold runJoinRecords
    cases hstep : joinRecordStep env inb spec rm field relKey item jr st with
    | mk st1 ir =>
      obtain ⟨item1, err⟩ := ir
      have hs := joinRecordStep_filter env inb spec rm field relKey item jr st q hq
      rw [hstep] at hs
      cases err with
      | some e => simpa using hs
      | none =>
        dsimp only
        exact (ih item1 st1).trans hs

theorem relationshipStep_filter (env : Env) (inb : InboundRequest)
    (origin_pk : Value) (item : Obj) (rel : Relationship) (fwd : Bool)
    (st : GwState) (q : String → Bool) (hq : q rel.key = false) :
    ((relationshipStep env inb origin_pk item rel fwd st).2.1).filter
        (fun p => q p.1) =
      item.filter (fun p => q p.1) := by
  unfold relationshipStep
  dsimp only
  have hset := filter_assocSet_of_not item rel.key (.vArr []) q hq
  cases hjr : env.join_records origin_pk rel fwd with
  | nil => simpa using hset
  | cons jr0 rest =>
    dsimp only
    cases hpl : prepare_lookup_kwargs fwd rel jr0 with
    | mk rm field =>
      dsimp only
      cases hsp : _get_swagger_spec env rm.logic_module_endpoint_name st with
      | mk st1 r =>
        cases r with
        | error e => simpa using hset
        | ok spec =>
          dsimp only
          exact (runJoinRecords_filter env inb spec rm field rel.key q hq
            (jr0 :: rest) (assocSet item rel.key (.vArr [])) st1).trans hset

theorem runRelationships_filter (env : Env) (inb : InboundRequest)
    (origin_pk : Value) (q : String → Bool) :
    ∀ (rels : List (Relationship × Bool)) (item : Obj) (st : GwState),
    (∀ rel fwd, (rel, fwd) ∈ rels → q rel.key = false) →
    ((runRelationships env inb origin_pk rels item st).2.1).filter
        (fun p => q p.1) =
      item.filter (fun p => q p.1) := by
  intro rels
  induction rels with
  | nil => intro item st _; rfl
  | cons rf rest ih =>
    intro item st hq
    obtain ⟨rel, fwd⟩ := rf
    unfold runRelationships
    cases hstep : relationshipStep env inb origin_pk item rel fwd st with
    | mk st1 ir =>
      obtain ⟨item1, err⟩ := ir
      have hs := relationshipStep_filter env inb origin_pk item rel fwd st q
        (hq rel fwd (List.mem_cons_self _ _))
      rw [hstep] at hs
      cases err with
      | some e => simpa using hs
      | none =>
        dsimp only
        exact (ih item1 st1 (fun r fw hm => hq r fw (List.mem_cons_of_mem _ hm))).trans hs

theorem addNestedData_filter (env : Env) (inb : InboundRequest) (item : Obj)
    (rels : List (Relationship × Bool)) (f : String) (st : GwState)
    (q : String → Bool)
    (hq : ∀ rel fwd, (rel, fwd) ∈ rels → q rel.key = false) :
    ((_add_nested_data env inb item rels f st).2.1).filter (fun p => q p.1) =
      item.filter (fun p => q p.1) := by
  unfold _add_nested_data
  dsimp only
  split
  · exact runRelationships_filter env inb _ q rels item _ hq
  · rfl

theorem asyncPlanRels_filter (env : Env) (inb : InboundRequest) (itemIdx : Nat)
    (origin_pk : Value) (q : String → Bool) :
    ∀ (rels : List (Relationship × Bool)) (slotIdx : Nat) (item : Obj)
      (st : GwState),
    (∀ rel fwd, (rel, fwd) ∈ rels → q rel.key = false) →
    ((asyncPlanRels env inb itemIdx origin_pk rels slotIdx item st).2.1).filter
        (fun p => q p.1) =
      item.filter (fun p => q p.1) := by
  intro rels
  induction rels with
  | nil => intro slotIdx item st _; rfl
  | cons rf rest ih =>
    intro slotIdx item st hq
    obtain ⟨rel, fwd⟩ := rf
    have hset := filter_assocSet_of_not item rel.key (.vArr []) q
      (hq rel fwd (List.mem_cons_self _ _))
    have hqrest : ∀ r fw, (r, fw) ∈ rest → q r.key = false :=
      fun r fw hm => hq r fw (List.mem_cons_of_mem _ hm)
    unfold asyncPlanRels
    dsimp only
    cases hjr : env.join_records origin_pk rel fwd with
    | nil =>
      dsimp only
      cases hrec : asyncPlanRels env inb itemIdx origin_pk rest (slotIdx + 1)
          (assocSet item rel.key (.vArr [])) st with
      | mk st1 r =>
        obtain ⟨item1, slots1, tasks1, err1⟩ := r
        have h := ih (slotIdx + 1) (assocSet item rel.key (.vArr [])) st hqrest
        rw [hrec] at h
        simpa using h.trans hset
    | cons jr0 rest_jr =>
      dsimp only
      cases hsp : async_get_swagger_spec env
          (prepare_lookup_kwargs fwd rel jr0).1.logic_module_endpoint_name st with
      | mk st1 r =>
        cases r with
        | error e => simpa using hset
        | ok spec =>
          dsimp only
          cases hrec : asyncPlanRels env inb itemIdx origin_pk rest (slotIdx + 1)
              (assocSet item rel.key (.vArr [])) st1 with
          | mk st2 r2 =>
            obtain ⟨item2, slots2, tasks2, err2⟩ := r2
            have h := ih (slotIdx + 1) (assocSet item rel.key (.vArr [])) st1 hqrest
            rw [hrec] at h
            simpa using h.trans hset

theorem asyncPlanItem_filter (env : Env) (inb : InboundRequest) (idx : Nat)
    (fields : Obj) (rels : List (Relationship × Bool)) (f : String)
    (st : GwState) (q : String → Bool)
    (hq : ∀ rel fwd, (rel, fwd) ∈ rels → q rel.key = false) :
    ((asyncPlanItem env inb idx fields rels f st).2.1).filter (fun p => q p.1) =
      fields.filter (fun p => q p.1) := by
  unfold asyncPlanItem
  dsimp only
  split
  · exact asyncPlanRels_filter env inb idx _ q rels 0 fields _ hq
  · rfl

theorem asyncMaterializeItem_filter (executed : List (ATask × Option Value))
    (itemIdx : Nat) (q : String → Bool) :
    ∀ (slots : List (Nat × String)) (item : Obj),
    (∀ s ∈ slots, q s.2 = false) →
    (asyncMaterializeItem executed itemIdx item slots).filter (fun p => q p.1) =
      item.filter (fun p => q p.1) := by
  intro slots
  induction slots with
  | nil => intro item _; rfl
  | cons slot rest ih =>
    intro item hq
    unfold asyncMaterializeItem
    rw [List.foldl_cons]
    have h1 := ih (assocSet item slot.2
      (.vArr ((executed.filter (fun p =>
        p.1.itemIdx == itemIdx && p.1.slotIdx == slot.1)).filterMap (fun p => p.2))))
      (fun s hm => hq s (List.mem_cons_of_mem _ hm))
    unfold asyncMaterializeItem at h1
    exact h1.trans
      (filter_assocSet_of_not item slot.2 _ q (hq slot (List.mem_cons_self _ _)))

/-! ## Embed order: emission order in the sequential engine, completion
order in the concurrent one -/

theorem arrAppend_get (item : Obj) (k : String) (v : Value) (xs : List Value)
    (h : assocGet item k = some (.vArr xs)) :
    assocGet (arrAppend item k v) k = some (.vArr (xs ++ [v])) := by
  unfold arrAppend
  rw [h]
  exact assocGet_assocSet_self item k _

/-- The join-record loop appends embeds under the relationship key in
join-record order: the final list extends `acc` by one optional entry per
join record, in emission order (records whose body is not a JSON object are
dropped in place). -/
theorem runJoinRecords_emission (env : Env) (inb : InboundRequest) (spec : SwSpec)
    (rm : LogicModuleModel) (field : JRField) (relKey : String) :
    ∀ (jrs : List JoinRecord) (item : Obj) (st : GwState) (acc : List Value),
    assocGet item relKey = some (.vArr acc) →
    ∃ embeds : List (Option Value),
      embeds.length = jrs.length ∧
      ((runJoinRecords env inb spec rm field relKey jrs item st).2.2 = none →
       assocGet (runJoinRecords env inb spec rm field relKey jrs item st).2.1
           relKey =
         some (.vArr (acc ++ embeds.reduceOption))) := by
  intro jrs
  induction jrs with
  | nil =>
    intro item st acc hacc
    exact ⟨[], rfl, fun _ => by simpa using hacc⟩
  | cons jr rest ih =>
    intro item st acc hacc
    rw [show runJoinRecords env inb spec rm field relKey (jr :: rest) item st =
        (match joinRecordStep env inb spec rm field relKey item jr st with
         | (st, item, some e) => (st, item, some e)
         | (st, item, none) =>
           runJoinRecords env inb spec rm field relKey rest item st) from rfl]
    unfold joinRecordStep
    dsimp only
    cases hreq : _data_request env inb spec
        { model := stripSlash rm.endpoint, pk := some (jrGetStr jr field) } st with
    | mk st1 r =>
      cases r with
      | error e =>
        exact ⟨none :: List.replicate rest.length none, by simp,
          fun h => absurd h (by simp)⟩
      | ok ret =>
        obtain ⟨content, status, hdrs⟩ := ret
        cases content with
        | json v =>
          cases v with
          | vObj fields =>
            dsimp only
            obtain ⟨embeds, hlen, himp⟩ := ih (arrAppend item relKey (.vObj fields))
              st1 (acc ++ [.vObj fields])
              (arrAppend_get item relKey (.vObj fields) acc hacc)
            refine ⟨some (.vObj fields) :: embeds, by simp [hlen], fun h => ?_⟩
            have h2 := himp h
            simpa [List.reduceOption, List.append_assoc] using h2
          | vNull =>
            dsimp only
            obtain ⟨embeds, hlen, himp⟩ := ih item
              { st1 with error_log := st1.error_log ++ [noResponseDataMsg] } acc hacc
            exact ⟨none :: embeds, by simp [hlen],
              fun h => by simpa [List.reduceOption] using himp h⟩
          | vBool b =>
            dsimp only
            obtain ⟨embeds, hlen, himp⟩ := ih item
              { st1 with error_log := st1.error_log ++ [noResponseDataMsg] } acc hacc
            exact ⟨none :: embeds, by simp [hlen],
              fun h => by simpa [List.reduceOption] using himp h⟩
          | vNum n =>
            dsimp only
            obtain ⟨embeds, hlen, himp⟩ := ih item
              { st1 with error_log := st1.error_log ++ [noResponseDataMsg] } acc hacc
            exact ⟨none :: embeds, by simp [hlen],
              fun h => by simpa [List.reduceOption] using himp h⟩
          | vStr s =>
            dsimp only
            obtain ⟨embeds, hlen, himp⟩ := ih item
              { st1 with error_log := st1.error_log ++ [noResponseDataMsg] } acc hacc
            exact ⟨none :: embeds, by simp [hlen],
              fun h => by simpa [List.reduceOption] using himp h⟩
          | vArr xs =>
            dsimp only
            obtain ⟨embeds, hlen, himp⟩ := ih item
              { st1 with error_log := st1.error_log ++ [noResponseDataMsg] } acc hacc
            exact ⟨none :: embeds, by simp [hlen],
              fun h => by simpa [List.reduceOption] using himp h⟩
        | raw s =>
          dsimp only
          obtain ⟨embeds, hlen, himp⟩ := ih item
            { st1 with error_log := st1.error_log ++ [noResponseDataMsg] } acc hacc
          exact ⟨none :: embeds, by simp [hlen],
            fun h => by simpa [List.reduceOption] using himp h⟩

theorem asyncMaterializeItem_get_ne (executed : List (ATask × Option Value))
    (idx : Nat) :
    ∀ (slots : List (Nat × String)) (item : Obj) (k : String),
    k ∉ slots.map Prod.snd →
    assocGet (asyncMaterializeItem executed idx item slots) k = assocGet item k := by
  intro slots
  induction slots with
  | nil => intro item k _; rfl
  | cons s rest ih =>
    intro item k hk
    unfold asyncMaterializeItem
    rw [List.foldl_cons]
    have hne : ¬k = s.2 := by
      intro he
      exact hk (by simp [he])
    have harg : k ∉ rest.map Prod.snd := by
      intro hm
      exact hk (by rw [List.map_cons]; exact List.mem_cons_of_mem _ hm)
    have h1 := ih (assocSet item s.2
      (.vArr ((executed.filter (fun p =>
        p.1.itemIdx == idx && p.1.slotIdx == s.1)).filterMap (fun p => p.2)))) k harg
    unfold asyncMaterializeItem at h1
    exact h1.trans (assocGet_assocSet_ne item s.2 k _ hne)

/-- After materialization each planned slot's key holds exactly the
successful contents of its tasks in execution (completion) order. -/
theorem asyncMaterializeItem_get (executed : List (ATask × Option Value))
    (idx : Nat) :
    ∀ (slots : List (Nat × String)) (item : Obj) (sl : Nat × String),
    sl ∈ slots → (slots.map Prod.snd).Nodup →
    assocGet (asyncMaterializeItem executed idx item slots) sl.2 =
      some (.vArr ((executed.filter (fun p =>
        p.1.itemIdx == idx && p.1.slotIdx == sl.1)).filterMap (fun p => p.2))) := by
  intro slots
  induction slots with
  | nil => intro item sl hm _; cases hm
  | cons s rest ih =>
    intro item sl hm hnd
    rcases List.mem_cons.mp hm with heq | hmem
    · subst heq
      unfold asyncMaterializeItem
      rw [List.foldl_cons]
      have hk : sl.2 ∉ rest.map Prod.snd := by
        have h := hnd
        rw [List.map_cons, List.nodup_cons] at h
        exact h.1
      have h1 := asyncMaterializeItem_get_ne executed idx rest
        (assocSet item sl.2
          (.vArr ((executed.filter (fun p =>
            p.1.itemIdx == idx && p.1.slotIdx == sl.1)).filterMap (fun p => p.2))))
        sl.2 hk
      unfold asyncMaterializeItem at h1
      exact h1.trans (assocGet_assocSet_self item sl.2 _)
    · have hnd2 : (rest.map Prod.snd).Nodup := by
        rw [List.map_cons, List.nodup_cons] at hnd
        exact hnd.2
      unfold asyncMaterializeItem
      rw [List.foldl_cons]
      have h1 := ih (assocSet item s.2
        (.vArr ((executed.filter (fun p =>
          p.1.itemIdx == idx && p.1.slotIdx == s.1)).filterMap (fun p => p.2))))
        sl hmem hnd2
      unfold asyncMaterializeItem at h1
      exact h1

/-- When no fan-out task raises, the executed list is exactly the task list
in execution order. -/
theorem asyncRunTasks_order (env : Env) (inb : InboundRequest) :
    ∀ (tasks : List ATask) (st : GwState),
    (asyncRunTasks env inb tasks st).2.2 = none →
    ((asyncRunTasks env inb tasks st).2.1).map Prod.fst = tasks := by
  intro tasks
  induction tasks with
  | nil => intro st _; rfl
  | cons t rest ih =>
    intro st herr
    unfold asyncRunTasks at herr ⊢
    cases hreq : async_data_request env inb t.spec
        { model := t.model, pk := some t.pk } st with
    | mk st1 r =>
      rw [hreq] at herr
      cases r with
      | error e => exact absurd herr (by simp)
      | ok ret =>
        obtain ⟨content, status, hdrs⟩ := ret
        cases content with
        | json v =>
          cases v with
          | vObj fields =>
            dsimp only at herr ⊢
            cases hrec : asyncRunTasks env inb rest st1 with
            | mk st2 r2 =>
              obtain ⟨out2, err2⟩ := r2
              rw [hrec] at herr
              dsimp only at herr ⊢
              have h := ih st1
              rw [hrec] at h
              simpa using h herr
          | vNull =>
            dsimp only at herr ⊢
            cases hrec : asyncRunTasks env inb rest
                { st1 with error_log := st1.error_log ++ [noResponseDataMsg] } with
            | mk st2 r2 =>
              obtain ⟨out2, err2⟩ := r2
              rw [hrec] at herr
              dsimp only at herr ⊢
              have h := ih { st1 with error_log := st1.error_log ++ [noResponseDataMsg] }
              rw [hrec] at h
              simpa using h herr
          | vBool b =>
            dsimp only at herr ⊢
            cases hrec : asyncRunTasks env inb rest
                { st1 with error_log := st1.error_log ++ [noResponseDataMsg] } with
            | mk st2 r2 =>
              obtain ⟨out2, err2⟩ := r2
              rw [hrec] at herr
              dsimp only at herr ⊢
              have h := ih { st1 with error_log := st1.error_log ++ [noResponseDataMsg] }
              rw [hrec] at h
              simpa using h herr
          | vNum n =>
            dsimp only at herr ⊢
            cases hrec : asyncRunTasks env inb rest
                { st1 with error_log := st1.error_log ++ [noResponseDataMsg] } with
            | mk st2 r2 =>
              obtain ⟨out2, err2⟩ := r2
              rw [hrec] at herr
              dsimp only at herr ⊢
              have h := ih { st1 with error_log := st1.error_log ++ [noResponseDataMsg] }
              rw [hrec] at h
              simpa using h herr
          | vStr s =>
            dsimp only at herr ⊢
            cases hrec : asyncRunTasks env inb rest
                { st1 with error_log := st1.error_log ++ [noResponseDataMsg] } with
            | mk st2 r2 =>
              obtain ⟨out2, err2⟩ := r2
              rw [hrec] at herr
              dsimp only at herr ⊢
              have h := ih { st1 with error_log := st1.error_log ++ [noResponseDataMsg] }
              rw [hrec] at h
              simpa using h herr
          | vArr xs =>
            dsimp only at herr ⊢
            cases hrec : asyncRunTasks env inb rest
                { st1 with error_log := st1.error_log ++ [noResponseDataMsg] } with
            | mk st2 r2 =>
              obtain ⟨out2, err2⟩ := r2
              rw [hrec] at herr
              dsimp only at herr ⊢
              have h := ih { st1 with error_log := st1.error_log ++ [noResponseDataMsg] }
              rw [hrec] at h
              simpa using h herr
        | raw s =>
          dsimp only at herr ⊢
          cases hrec : asyncRunTasks env inb rest
              { st1 with error_log := st1.error_log ++ [noResponseDataMsg] } with
          | mk st2 r2 =>
            obtain ⟨out2, err2⟩ := r2
            rw [hrec] at herr
            dsimp only at herr ⊢
            have h := ih { st1 with error_log := st1.error_log ++ [noResponseDataMsg] }
            rw [hrec] at h
            simpa using h herr

/-- The identity completion order runs the gathered tasks exactly in emission
order. -/
theorem permuteTasks_range :
    ∀ (tasks : List ATask),
    permuteTasks (List.range tasks.length) tasks = tasks := by
  intro tasks
  unfold permuteTasks
  induction tasks with
  | nil => rfl
  | cons t rest ih =>
    rw [show (t :: rest).length = rest.length + 1 from rfl,
        List.range_succ_eq_map, List.filterMap_cons, List.filterMap_map]
    have hmap : List.filterMap ((fun i => (t :: rest).get? i) ∘ Nat.succ)
        (List.range rest.length) =
        List.filterMap (fun i => rest.get? i) (List.range rest.length) :=
      congrArg (fun f => List.filterMap f (List.range rest.length))
        (funext (fun i => rfl))
    rw [hmap, ih]
    rfl

/-- Whatever the join does, a response returned by `_get_data` carries the
primary call's status code and headers. -/
theorem getData_status_headers (env : Env) (inb : InboundRequest)
    (kwargs : UrlKwargs) (spec : SwSpec) (st st1 : GwState)
    (content : BodyContent) (status : Nat) (headers : List (String × String))
    (st2 : GwState) (resp : GatewayResponse)
    (hreq : _data_request env inb spec { model := kwargs.model, pk := kwargs.pk } st =
      (st1, .ok (content, status, headers)))
    (hok : _get_data env inb kwargs spec st = (st2, .ok resp)) :
    resp.status_code = status ∧ resp.headers = headers := by
  unfold _get_data at hok
  rw [hreq] at hok
  dsimp only at hok
  split at hok
  · split at hok
    · split at hok
      all_goals (try (unfold finishData at hok))
      all_goals first
        | · have h := Except.ok.inj (congrArg Prod.snd hok)
            exact ⟨by rw [← h], by rw [← h]⟩
        | exact absurd (congrArg Prod.snd hok)
            (by intro h; exact Except.noConfusion h)
    · unfold finishData at hok
      have h := Except.ok.inj (congrArg Prod.snd hok)
      exact ⟨by rw [← h], by rw [← h]⟩
  · unfold finishData at hok
    have h := Except.ok.inj (congrArg Prod.snd hok)
    exact ⟨by rw [← h], by rw [← h]⟩

/-- The async analog of `getData_status_headers`. -/
theorem asyncGetData_status_headers (env : Env) (inb : InboundRequest)
    (kwargs : UrlKwargs) (σ : List Nat) (spec : SwSpec) (st st1 : GwState)
    (content : BodyContent) (status : Nat) (headers : List (String × String))
    (st2 : GwState) (resp : GatewayResponse)
    (hreq : async_data_request env inb spec
        { model := kwargs.model, pk := kwargs.pk } st =
      (st1, .ok (content, status, headers)))
    (hok : async_get_data env inb kwargs σ spec st = (st2, .ok resp)) :
    resp.status_code = status ∧ resp.headers = headers := by
  unfold async_get_data at hok
  rw [hreq] at hok
  dsimp only at hok
  split at hok
  · split at hok
    · split at hok
      all_goals first
        | · have h := Except.ok.inj (congrArg Prod.snd hok)
            exact ⟨by rw [← h], by rw [← h]⟩
        | exact absurd (congrArg Prod.snd hok)
            (by intro h; exact Except.noConfusion h)
    · have h := Except.ok.inj (congrArg Prod.snd hok)
      exact ⟨by rw [← h], by rw [← h]⟩
  · have h := Except.ok.inj (congrArg Prod.snd hok)
    exact ⟨by rw [← h], by rw [← h]⟩

/-- C9: In both executors, a processed record whose lookup field value is
absent or falsy raises a `DataMeshError` (the check is truthiness, not key
presence); the engine does not catch it, so the whole request fails — on list
views (synchronous clause, at any position whose preceding records join
cleanly) as well as detail views (asynchronous clause). -/
theorem C9_theorem :
    (∀ (env : Env) (inb : InboundRequest) (item : Obj)
       (rels : List (Relationship × Bool)) (f : String) (st : GwState),
       truthyOpt (assocGet item f) = false →
       (_add_nested_data env inb item rels f st).2.2 =
         some (.dataMeshError (dataMeshErrorMsg f))) ∧
    (∀ (env : Env) (inb : InboundRequest) (idx : Nat) (fields : Obj)
       (rels : List (Relationship × Bool)) (f : String) (st : GwState),
       truthyOpt (assocGet fields f) = false →
       (asyncPlanItem env inb idx fields rels f st).2.2.2.2 =
         some (.dataMeshError (dataMeshErrorMsg f))) ∧
    (∀ (env : Env) (inb : InboundRequest) (kwargs : UrlKwargs) (st1 : GwState)
       (spec : SwSpec) (st2 : GwState) (headers : List (String × String))
       (pre : List Value) (fields : Obj) (rest : List Value) (st3 : GwState)
       (rels : List (Relationship × Bool)) (f : String) (st4 : GwState)
       (pre' : List Value),
       _get_swagger_spec env kwargs.service (initState inb) = (st1, .ok spec) →
       _data_request env inb spec { model := kwargs.model, pk := kwargs.pk } st1 =
         (st2, .ok (.json (.vArr (pre ++ .vObj fields :: rest)), 200, headers)) →
       assocHas st2.request_GET "join" = true →
       get_datamesh_relationships env inb kwargs.service st2 = (st3, .ok (rels, f)) →
       runItems env inb rels f pre st3 = (st4, pre', none) →
       truthyOpt (assocGet fields f) = false →
       ∃ st', performSync env inb kwargs (initState inb) =
         (st', .error (.dataMeshError (dataMeshErrorMsg f)))) ∧
    (∀ (env : Env) (inb : InboundRequest) (kwargs : UrlKwargs) (σ : List Nat)
       (st1 : GwState) (spec : SwSpec) (st2 : GwState)
       (headers : List (String × String)) (fields : Obj) (st3 : GwState)
       (rels : List (Relationship × Bool)) (f : String) (stW : GwState),
       async_get_swagger_spec env kwargs.service (initState inb) = (st1, .ok spec) →
       async_data_request env inb spec { model := kwargs.model, pk := kwargs.pk } st1 =
         (st2, .ok (.json (.vObj fields), 200, headers)) →
       assocGet fields "results" = none →
       assocHas st2.request_GET "join" = true →
       get_datamesh_relationships env inb kwargs.service st2 = (st3, .ok (rels, f)) →
       asyncWarmup env rels st3 = (stW, none) →
       truthyOpt (assocGet fields f) = false →
       ∃ st', performAsync env inb kwargs σ (initState inb) =
         (st', .error (.dataMeshError (dataMeshErrorMsg f)))) := by
  refine ⟨?_, ?_, ?_, ?_⟩
  · intro env inb item rels f st h
    rw [addNestedData_falsy env inb item rels f st h]
  · intro env inb idx fields rels f st h
    rw [asyncPlanItem_falsy env inb idx fields rels f st h]
  · intro env inb kwargs st1 spec st2 headers pre fields rest st3 rels f st4 pre'
      hsp hreq hjoin hrels hpre hfalsy
    have hadd := addNestedData_falsy env inb fields rels f st4 hfalsy
    have hrun1 : runItems env inb rels f (.vObj fields :: rest) st4 =
        ({ st4 with request_GET := [] }, .vObj fields :: rest,
         some (.dataMeshError (dataMeshErrorMsg f))) := by
      rw [show runItems env inb rels f (.vObj fields :: rest) st4 =
          (match _add_nested_data env inb fields rels f st4 with
           | (st', fields', some e) => (st', .vObj fields' :: rest, some e)
           | (st', fields', none) =>
             match runItems env inb rels f rest st' with
             | (st'', rest', err) => (st'', .vObj fields' :: rest', err)) from rfl]
      rw [hadd]
    have hruntot : runItems env inb rels f (pre ++ .vObj fields :: rest) st3 =
        ({ st4 with request_GET := [] }, pre' ++ .vObj fields :: rest,
         some (.dataMeshError (dataMeshErrorMsg f))) := by
      rw [runItems_append env inb rels f pre (.vObj fields :: rest) st3, hpre]
      dsimp only
      rw [hrun1]
    have hjr := joinResponseData_arr env inb kwargs.service
      (pre ++ .vObj fields :: rest) st2 st3 rels f hrels
    rw [hruntot] at hjr
    dsimp only at hjr
    have hget := getData_joinErr env inb kwargs spec st1 st2
      (.vArr (pre ++ .vObj fields :: rest)) headers
      { st4 with request_GET := [] } (.vArr (pre' ++ .vObj fields :: rest))
      (.dataMeshError (dataMeshErrorMsg f)) hreq hjoin rfl hjr
      (fun m h => GwError.noConfusion h)
    exact ⟨_, by rw [performSync_step env inb kwargs (initState inb) st1 spec hsp]
                 exact hget⟩
  · intro env inb kwargs σ st1 spec st2 headers fields st3 rels f stW
      hsp hreq hres hjoin hrels hwu hfalsy
    have hplan := asyncPlanItem_falsy env inb 0 fields rels f stW hfalsy
    have hj := asyncJoin_obj_planErr env inb kwargs.service σ fields st2 st3 rels f
      stW { stW with request_GET := [] } fields [] []
      (.dataMeshError (dataMeshErrorMsg f)) hres hrels hwu hplan
    have hget := asyncGetData_joinErr env inb kwargs σ spec st1 st2
      (.vObj fields) headers { stW with request_GET := [] } (.vObj fields)
      (.dataMeshError (dataMeshErrorMsg f)) hreq hjoin rfl hj
      (fun m h => GwError.noConfusion h)
    exact ⟨_, by rw [performAsync_step env inb kwargs σ (initState inb) st1 spec hsp]
                 exact hget⟩

/-- Concrete instances of C9: a record with `id = 0` raises `DataMeshError`
in both planners, and both executors fail whole concrete requests over it —
the synchronous one on a list view whose second record is falsy, the
asynchronous one on a falsy detail view. -/
theorem C9_witness :
    ((_add_nested_data Ex.baseEnv Ex.inbJoin [("id", Value.vNum 0)] [] "id"
        (initState Ex.inbJoin)).2.2 =
      some (.dataMeshError (dataMeshErrorMsg "id"))) ∧
    ((asyncPlanItem Ex.baseEnv Ex.inbJoin 0 [("id", Value.vNum 0)] [] "id"
        (initState Ex.inbJoin)).2.2.2.2 =
      some (.dataMeshError (dataMeshErrorMsg "id"))) ∧
    (∃ st', performSync Ex.envFalsyLookup Ex.inbJoin Ex.kwargsOrders
        (initState Ex.inbJoin) =
      (st', .error (.dataMeshError (dataMeshErrorMsg "id")))) ∧
    (∃ st', performAsync Ex.envFalsyDetail Ex.inbJoin Ex.kwargsOrders []
        (initState Ex.inbJoin) =
      (st', .error (.dataMeshError (dataMeshErrorMsg "id")))) := by
  refine ⟨C9_theorem.1 _ _ _ _ _ _ (by decide),
          C9_theorem.2.1 _ _ _ _ _ _ _ (by decide), ?_, ?_⟩
  · exact C9_theorem.2.2.1 Ex.envFalsyLookup Ex.inbJoin Ex.kwargsOrders _ _ _ _
      [Value.vObj [("id", Value.vNum 7)]] [("id", Value.vNum 0)] [] _ _ _ _ _
      rfl rfl rfl rfl rfl rfl
  · exact C9_theorem.2.2.2 Ex.envFalsyDetail Ex.inbJoin Ex.kwargsOrders [] _ _ _
      _ [("id", Value.vNum 0)] _ _ _ _ rfl rfl rfl rfl rfl rfl rfl

/-- C10: processing a record clears the live query-parameter collection on
the shared request object in both engines, join sub-requests are issued with
no inbound query parameters (new calls of the record loop carry empty
`params`; the async fan-out always passes none), a GET with the collection
cleared is cache-eligible, and the collection stays cleared through the rest
of the join (the synchronous join's final state, and the async fan-out, keep
it empty). -/
theorem C10_theorem :
    (∀ (env : Env) (inb : InboundRequest) (item : Obj)
       (rels : List (Relationship × Bool)) (f : String) (st : GwState),
       (_add_nested_data env inb item rels f st).1.request_GET = []) ∧
    (∀ (env : Env) (inb : InboundRequest) (idx : Nat) (fields : Obj)
       (rels : List (Relationship × Bool)) (f : String) (st : GwState),
       (asyncPlanItem env inb idx fields rels f st).1.request_GET = []) ∧
    (∀ (env : Env) (inb : InboundRequest) (rels : List (Relationship × Bool))
       (f : String) (items : List Value) (st : GwState),
       ∀ c ∈ (runItems env inb rels f items st).1.upstream_calls,
         c ∈ st.upstream_calls ∨ c.params = []) ∧
    (∀ (env : Env) (inb : InboundRequest) (spec : SwSpec) (kw : SubKwargs)
       (st : GwState),
       ∀ c ∈ (async_data_request env inb spec kw st).1.upstream_calls,
         c ∈ st.upstream_calls ∨ c.params = []) ∧
    (∀ (inb : InboundRequest) (st : GwState),
       st.request_GET = [] → strToLower inb.method = "get" →
       is_valid_for_cache inb st = true) ∧
    (∀ (env : Env) (inb : InboundRequest) (service : String) (resp : Value)
       (st st1 : GwState) (rels : List (Relationship × Bool)) (f : String),
       get_datamesh_relationships env inb service st = (st1, .ok (rels, f)) →
       processesARecord resp →
       (_join_response_data env inb service resp st).1.request_GET = []) ∧
    (∀ (env : Env) (inb : InboundRequest) (tasks : List ATask) (st : GwState),
       (asyncRunTasks env inb tasks st).1.request_GET = st.request_GET) := by
  refine ⟨?_, ?_, ?_, ?_, ?_, ?_, ?_⟩
  · intro env inb item rels f st
    exact addNestedData_GET env inb item rels f st
  · intro env inb idx fields rels f st
    exact asyncPlanItem_GET env inb idx fields rels f st
  · intro env inb rels f items st
    exact runItems_calls_params env inb rels f items st
  · intro env inb spec kw st
    exact asyncDataRequest_calls_params env inb spec kw st
  · intro inb st h1 h2
    simp [is_valid_for_cache, h1, h2]
  · intro env inb service resp st st1 rels f hrels hrec
    exact joinResponseData_GET env inb service resp st st1 rels f hrels hrec
  · intro env inb tasks st
    exact asyncRunTasks_GET env inb tasks st

/-- Concrete instances of C10: on the example world the async planner leaves
the query parameters empty, a plain GET with the collection cleared is
cache-eligible, the synchronous join of a one-record list ends with the
collection empty, and an empty fan-out preserves it. -/
theorem C10_witness :
    ((asyncPlanItem Ex.baseEnv Ex.inbJoin 0 [("id", Value.vNum 7)]
        [(Ex.relItems, true)] "id" (initState Ex.inbJoin)).1.request_GET = []) ∧
    (is_valid_for_cache Ex.inbPlain
      { initState Ex.inbPlain with request_GET := [] } = true) ∧
    ((_join_response_data Ex.baseEnv Ex.inbJoin "orders"
        (.vArr [ .vObj [("id", Value.vNum 7)] ])
        (initState Ex.inbJoin)).1.request_GET = []) ∧
    ((asyncRunTasks Ex.baseEnv Ex.inbJoin []
        (initState Ex.inbJoin)).1.request_GET =
      (initState Ex.inbJoin).request_GET) := by
  refine ⟨C10_theorem.2.1 _ _ _ _ _ _ _, ?_, ?_,
    C10_theorem.2.2.2.2.2.2 _ _ _ _⟩
  · exact C10_theorem.2.2.2.2.1 Ex.inbPlain
      { initState Ex.inbPlain with request_GET := [] } rfl rfl
  · exact C10_theorem.2.2.2.2.2.1 Ex.baseEnv Ex.inbJoin "orders"
      (.vArr [ .vObj [("id", Value.vNum 7)] ]) (initState Ex.inbJoin) _ _ _
      rfl (Or.inr ⟨[("id", Value.vNum 7)], [], rfl⟩)

/-- C6: a request state is cache-eligible iff the inbound method is GET and
the live query-parameter collection is empty; and a repeated cache-eligible
call resolving to the same URL is answered from the per-request response
cache in both engines, returning the identical (payload, status, headers)
triple and leaving the state — in particular the recorded upstream calls —
untouched. -/
theorem C6_theorem :
    (∀ (inb : InboundRequest) (st : GwState),
       is_valid_for_cache inb st = true ↔
         (strToLower inb.method = "get" ∧ st.request_GET = [])) ∧
    (∀ (env : Env) (inb : InboundRequest) (spec1 spec2 : SwSpec)
       (kw1 kw2 : SubKwargs) (st st1 : GwState)
       (r : BodyContent × Nat × List (String × String)) (m1 m2 url : String),
       is_valid_for_cache inb st = true →
       prepare_data spec1 inb.method kw1 = .ok (m1, url) →
       prepare_data spec2 inb.method kw2 = .ok (m2, url) →
       _data_request env inb spec1 kw1 st = (st1, .ok r) →
       _data_request env inb spec2 kw2 st1 = (st1, .ok r)) ∧
    (∀ (env : Env) (inb : InboundRequest) (spec1 spec2 : SwSpec)
       (kw1 kw2 : SubKwargs) (st st1 : GwState)
       (r : BodyContent × Nat × List (String × String)) (m1 m2 url : String),
       is_valid_for_cache inb st = true →
       prepare_data spec1 inb.method kw1 = .ok (m1, url) →
       prepare_data spec2 inb.method kw2 = .ok (m2, url) →
       async_data_request env inb spec1 kw1 st = (st1, .ok r) →
       async_data_request env inb spec2 kw2 st1 = (st1, .ok r)) := by
  refine ⟨?_, ?_, ?_⟩
  · intro inb st
    simp [is_valid_for_cache, List.isEmpty_iff]
  · intro env inb spec1 spec2 kw1 kw2 st st1 r m1 m2 url hv hres1 hres2 hreq1
    exact dataRequest_second_cached env inb spec1 spec2 kw1 kw2 st st1 r
      m1 m2 url hv hres1 hres2 hreq1
  · intro env inb spec1 spec2 kw1 kw2 st st1 r m1 m2 url hv hres1 hres2 hreq1
    exact asyncDataRequest_second_cached env inb spec1 spec2 kw1 kw2 st st1 r
      m1 m2 url hv hres1 hres2 hreq1

/-- Concrete instance of C6: on the example world a repeated plain GET of the
orders list is answered from the response cache with the first call's triple,
in both engines, and the example request is cache-eligible. -/
theorem C6_witness :
    (is_valid_for_cache Ex.inbPlain (initState Ex.inbPlain) = true ↔
      (strToLower Ex.inbPlain.method = "get" ∧
       (initState Ex.inbPlain).request_GET = [])) ∧
    (_data_request Ex.baseEnv Ex.inbPlain Ex.ordersSpec
        { model := "orders", pk := none }
        (_data_request Ex.baseEnv Ex.inbPlain Ex.ordersSpec
          { model := "orders", pk := none } (initState Ex.inbPlain)).1 =
      ((_data_request Ex.baseEnv Ex.inbPlain Ex.ordersSpec
          { model := "orders", pk := none } (initState Ex.inbPlain)).1,
       .ok (.json Ex.primaryPayload, 200, [("H", "pri")]))) ∧
    (async_data_request Ex.baseEnv Ex.inbPlain Ex.ordersSpec
        { model := "orders", pk := none }
        (async_data_request Ex.baseEnv Ex.inbPlain Ex.ordersSpec
          { model := "orders", pk := none } (initState Ex.inbPlain)).1 =
      ((async_data_request Ex.baseEnv Ex.inbPlain Ex.ordersSpec
          { model := "orders", pk := none } (initState Ex.inbPlain)).1,
       .ok (.json Ex.primaryPayload, 200, [("H", "pri")]))) := by
  refine ⟨C6_theorem.1 Ex.inbPlain (initState Ex.inbPlain), ?_, ?_⟩
  · exact C6_theorem.2.1 Ex.baseEnv Ex.inbPlain Ex.ordersSpec Ex.ordersSpec
      { model := "orders", pk := none } { model := "orders", pk := none }
      (initState Ex.inbPlain) _ (.json Ex.primaryPayload, 200, [("H", "pri")])
      "get" "get" "http://orders.service/orders/" rfl rfl rfl rfl
  · exact C6_theorem.2.2 Ex.baseEnv Ex.inbPlain Ex.ordersSpec Ex.ordersSpec
      { model := "orders", pk := none } { model := "orders", pk := none }
      (initState Ex.inbPlain) _ (.json Ex.primaryPayload, 200, [("H", "pri")])
      "get" "get" "http://orders.service/orders/" rfl rfl rfl rfl

/-- C8: the resolver templates `/model/` when the pk is absent and
`/model/\x7bpkName\x7d/` when present, where the placeholder is `uuid`
exactly for a strictly valid canonical UUID and `id` otherwise (so `"42"`
routes through the `id` template); a missing `(method, path)` operation is
`EndpointNotFound`, and a hit returns the spec's lower-cased canonical method
with the URL built from the rstripped base URL, the spec's `path_name`, and
the literal pk substituted for the placeholder. -/
theorem C8_theorem :
    (∀ (spec : SwSpec) (m model path : String),
       path = s!"/{strToLower model}/" →
       prepare_data spec m { model := model, pk := none } =
         (match spec.get_op_for_request m path with
          | none => .error (.endpointNotFound s!"Endpoint not found: {m} {path}")
          | some op => .ok (strToLower op.http_method,
              rstripSlash spec.api_url ++ op.path_name))) ∧
    (∀ (spec : SwSpec) (m model p path : String),
       path = s!"/{strToLower model}/\x7b{pkName p}\x7d/" →
       prepare_data spec m { model := model, pk := some p } =
         (match spec.get_op_for_request m path with
          | none => .error (.endpointNotFound s!"Endpoint not found: {m} {path}")
          | some op => .ok (strToLower op.http_method,
              strReplace (rstripSlash spec.api_url ++ op.path_name)
                s!"\x7b{pkName p}\x7d" p))) ∧
    (∀ p : String, valid_uuid4 p = true → pkName p = "uuid") ∧
    (∀ p : String, valid_uuid4 p = false → pkName p = "id") ∧
    (valid_uuid4 "42" = false) := by
  refine ⟨?_, ?_, ?_, ?_, by decide⟩
  · intro spec m model path hp
    subst hp
    rfl
  · intro spec m model p path hp
    subst hp
    rfl
  · intro p h
    simp [pkName, h]
  · intro p h
    simp [pkName, h]

/-- Concrete instances of C8: list template, `id` template for `"42"`,
`uuid` template for a canonical UUID, and `EndpointNotFound` on a template
the spec lacks. -/
theorem C8_witness :
    (prepare_data Ex.ordersSpec "GET" { model := "orders", pk := none } =
      .ok ("get", "http://orders.service/orders/")) ∧
    (prepare_data Ex.productsSpec "GET" { model := "products", pk := some "42" } =
      .ok ("get", "http://products.service/products/42/")) ∧
    (prepare_data Ex.ordersSpec "GET"
        { model := "orders", pk := some "123e4567-e89b-12d3-a456-426614174000" } =
      .ok ("get",
        "http://orders.service/orders/123e4567-e89b-12d3-a456-426614174000/")) ∧
    (prepare_data Ex.productsSpec "GET" { model := "ghost", pk := none } =
      .error (.endpointNotFound "Endpoint not found: GET /ghost/")) ∧
    (pkName "42" = "id") := by
  refine ⟨(C8_theorem.1 Ex.ordersSpec "GET" "orders" _ rfl).trans rfl,
          (C8_theorem.2.1 Ex.productsSpec "GET" "products" "42" _ rfl).trans rfl,
          (C8_theorem.2.1 Ex.ordersSpec "GET" "orders"
            "123e4567-e89b-12d3-a456-426614174000" _ rfl).trans rfl,
          (C8_theorem.1 Ex.productsSpec "GET" "ghost" _ rfl).trans rfl,
          C8_theorem.2.2.2.1 "42" (by decide)⟩

/-- C5: in both engines a returned response carries exactly the primary
upstream call's status code and headers — sub-request results never change
them — and the join rewrites a record only at its relationship keys: the
sub-list of fields at non-relationship keys (their values and relative
order) is preserved by the synchronous record processing, by the async
planner, and by the async materialization (which writes only planned slot
keys). -/
theorem C5_theorem :
    (∀ (env : Env) (inb : InboundRequest) (kwargs : UrlKwargs) (spec : SwSpec)
       (st st1 : GwState) (content : BodyContent) (status : Nat)
       (headers : List (String × String)) (st2 : GwState) (resp : GatewayResponse),
       _data_request env inb spec { model := kwargs.model, pk := kwargs.pk } st =
         (st1, .ok (content, status, headers)) →
       _get_data env inb kwargs spec st = (st2, .ok resp) →
       resp.status_code = status ∧ resp.headers = headers) ∧
    (∀ (env : Env) (inb : InboundRequest) (kwargs : UrlKwargs) (σ : List Nat)
       (spec : SwSpec) (st st1 : GwState) (content : BodyContent) (status : Nat)
       (headers : List (String × String)) (st2 : GwState) (resp : GatewayResponse),
       async_data_request env inb spec { model := kwargs.model, pk := kwargs.pk } st =
         (st1, .ok (content, status, headers)) →
       async_get_data env inb kwargs σ spec st = (st2, .ok resp) →
       resp.status_code = status ∧ resp.headers = headers) ∧
    (∀ (env : Env) (inb : InboundRequest) (item : Obj)
       (rels : List (Relationship × Bool)) (f : String) (st : GwState),
       ((_add_nested_data env inb item rels f st).2.1).filter
           (fun p => !(rels.any (fun rb => rb.1.key == p.1))) =
         item.filter (fun p => !(rels.any (fun rb => rb.1.key == p.1)))) ∧
    (∀ (env : Env) (inb : InboundRequest) (idx : Nat) (fields : Obj)
       (rels : List (Relationship × Bool)) (f : String) (st : GwState),
       ((asyncPlanItem env inb idx fields rels f st).2.1).filter
           (fun p => !(rels.any (fun rb => rb.1.key == p.1))) =
         fields.filter (fun p => !(rels.any (fun rb => rb.1.key == p.1)))) ∧
    (∀ (executed : List (ATask × Option Value)) (itemIdx : Nat)
       (slots : List (Nat × String)) (item : Obj),
       (asyncMaterializeItem executed itemIdx item slots).filter
           (fun p => !(slots.any (fun s => s.2 == p.1))) =
         item.filter (fun p => !(slots.any (fun s => s.2 == p.1)))) := by
  refine ⟨?_, ?_, ?_, ?_, ?_⟩
  · intro env inb kwargs spec st st1 content status headers st2 resp hreq hok
    exact getData_status_headers env inb kwargs spec st st1 content status
      headers st2 resp hreq hok
  · intro env inb kwargs σ spec st st1 content status headers st2 resp hreq hok
    exact asyncGetData_status_headers env inb kwargs σ spec st st1 content
      status headers st2 resp hreq hok
  · intro env inb item rels f st
    refine addNestedData_filter env inb item rels f st
      (fun k => !(rels.any (fun rb => rb.1.key == k))) ?_
    intro rel fwd hm
    have hany : rels.any (fun rb => rb.1.key == rel.key) = true :=
      List.any_eq_true.mpr ⟨(rel, fwd), hm, by simp⟩
    simp [hany]
  · intro env inb idx fields rels f st
    refine asyncPlanItem_filter env inb idx fields rels f st
      (fun k => !(rels.any (fun rb => rb.1.key == k))) ?_
    intro rel fwd hm
    have hany : rels.any (fun rb => rb.1.key == rel.key) = true :=
      List.any_eq_true.mpr ⟨(rel, fwd), hm, by simp⟩
    simp [hany]
  · intro executed itemIdx slots item
    refine asyncMaterializeItem_filter executed itemIdx
      (fun k => !(slots.any (fun s => s.2 == k))) slots item ?_
    intro s hm
    have hany : slots.any (fun s' => s'.2 == s.2) = true :=
      List.any_eq_true.mpr ⟨s, hm, by simp⟩
    simp [hany]

/-- Concrete instances of C5: on the example world the joined responses of
both engines keep the primary call's status 200 and header list. -/
theorem C5_witness :
    (({ content := .json (.vArr
          [ .vObj [("id", Value.vNum 7), ("name", Value.vStr "o7"),
                   ("items", .vArr [Ex.product10, Ex.product11])] ]),
        status_code := 200, headers := [("H", "pri")] } : GatewayResponse).status_code
        = 200 ∧
     ({ content := .json (.vArr
          [ .vObj [("id", Value.vNum 7), ("name", Value.vStr "o7"),
                   ("items", .vArr [Ex.product10, Ex.product11])] ]),
        status_code := 200, headers := [("H", "pri")] } : GatewayResponse).headers
        = [("H", "pri")]) ∧
    (({ content := .json (.vArr
          [ .vObj [("id", Value.vNum 7), ("name", Value.vStr "o7"),
                   ("items", .vArr [Ex.product11, Ex.product10])] ]),
        status_code := 200, headers := [("H", "pri")] } : GatewayResponse).status_code
        = 200 ∧
     ({ content := .json (.vArr
          [ .vObj [("id", Value.vNum 7), ("name", Value.vStr "o7"),
                   ("items", .vArr [Ex.product11, Ex.product10])] ]),
        status_code := 200, headers := [("H", "pri")] } : GatewayResponse).headers
        = [("H", "pri")]) := by
  refine ⟨?_, ?_⟩
  · exact C5_theorem.1 Ex.baseEnv Ex.inbJoin Ex.kwargsOrders Ex.ordersSpec
      (initState Ex.inbJoin) _ (.json Ex.primaryPayload) 200 [("H", "pri")] _
      { content := .json (.vArr
          [ .vObj [("id", Value.vNum 7), ("name", Value.vStr "o7"),
                   ("items", .vArr [Ex.product10, Ex.product11])] ]),
        status_code := 200, headers := [("H", "pri")] }
      rfl rfl
  · exact C5_theorem.2.1 Ex.baseEnv Ex.inbJoin Ex.kwargsOrders [1, 0] Ex.ordersSpec
      (initState Ex.inbJoin) _ (.json Ex.primaryPayload) 200 [("H", "pri")] _
      { content := .json (.vArr
          [ .vObj [("id", Value.vNum 7), ("name", Value.vStr "o7"),
                   ("items", .vArr [Ex.product11, Ex.product10])] ]),
        status_code := 200, headers := [("H", "pri")] }
      rfl rfl

/-- C7 (amended): the sequential executor inserts embeds under each
relationship key in the emission order of the registry's join records
(per-record drops in place); the concurrent executor instead fills each
planned slot with the successful contents of its tasks in *completion* order
— the executed list is the gathered task list in completion order — and only
the identity completion order coincides with emission order, under which the
fan-out runs the tasks exactly as emitted. -/
theorem C7_amended :
    (∀ (env : Env) (inb : InboundRequest) (spec : SwSpec) (rm : LogicModuleModel)
       (field : JRField) (relKey : String) (jrs : List JoinRecord) (item : Obj)
       (st : GwState) (acc : List Value),
       assocGet item relKey = some (.vArr acc) →
       ∃ embeds : List (Option Value),
         embeds.length = jrs.length ∧
         ((runJoinRecords env inb spec rm field relKey jrs item st).2.2 = none →
          assocGet (runJoinRecords env inb spec rm field relKey jrs item st).2.1
              relKey =
            some (.vArr (acc ++ embeds.reduceOption)))) ∧
    (∀ (executed : List (ATask × Option Value)) (idx : Nat)
       (slots : List (Nat × String)) (item : Obj) (sl : Nat × String),
       sl ∈ slots → (slots.map Prod.snd).Nodup →
       assocGet (asyncMaterializeItem executed idx item slots) sl.2 =
         some (.vArr ((executed.filter (fun p =>
           p.1.itemIdx == idx && p.1.slotIdx == sl.1)).filterMap (fun p => p.2)))) ∧
    (∀ (env : Env) (inb : InboundRequest) (tasks : List ATask) (st : GwState),
       (asyncRunTasks env inb tasks st).2.2 = none →
       ((asyncRunTasks env inb tasks st).2.1).map Prod.fst = tasks) ∧
    (∀ (tasks : List ATask),
       permuteTasks (List.range tasks.length) tasks = tasks) := by
  refine ⟨?_, ?_, ?_, permuteTasks_range⟩
  · intro env inb spec rm field relKey jrs item st acc hacc
    exact runJoinRecords_emission env inb spec rm field relKey jrs item st acc hacc
  · intro executed idx slots item sl hm hnd
    exact asyncMaterializeItem_get executed idx slots item sl hm hnd
  · intro env inb tasks st herr
    exact asyncRunTasks_order env inb tasks st herr

/-- Concrete instances of C7 (amended) on the example world: the sequential
join-record loop over the two product records, a materialized slot, a clean
two-task fan-out, and the identity completion order. -/
theorem C7_witness :
    (∃ embeds : List (Option Value),
       embeds.length = 2 ∧
       ((runJoinRecords Ex.baseEnv Ex.inbJoin Ex.productsSpec Ex.productsLMM
           .relatedRecordId "items"
           [ { related_record_id := some 10, related_record_uuid := none },
             { related_record_id := some 11, related_record_uuid := none } ]
           [("id", Value.vNum 7), ("items", Value.vArr [])]
           (initState Ex.inbJoin)).2.2 = none →
        assocGet (runJoinRecords Ex.baseEnv Ex.inbJoin Ex.productsSpec
            Ex.productsLMM .relatedRecordId "items"
            [ { related_record_id := some 10, related_record_uuid := none },
              { related_record_id := some 11, related_record_uuid := none } ]
            [("id", Value.vNum 7), ("items", Value.vArr [])]
            (initState Ex.inbJoin)).2.1 "items" =
          some (.vArr ([] ++ embeds.reduceOption)))) ∧
    (assocGet (asyncMaterializeItem [] 0 [] [(0, "items")]) "items" =
      some (.vArr [])) ∧
    (((asyncRunTasks Ex.baseEnv Ex.inbJoin
        [ { itemIdx := 0, slotIdx := 0, relKey := "items", model := "products",
            pk := "10", spec := Ex.productsSpec },
          { itemIdx := 0, slotIdx := 0, relKey := "items", model := "products",
            pk := "11", spec := Ex.productsSpec } ]
        (initState Ex.inbJoin)).2.1).map Prod.fst =
      [ { itemIdx := 0, slotIdx := 0, relKey := "items", model := "products",
          pk := "10", spec := Ex.productsSpec },
        { itemIdx := 0, slotIdx := 0, relKey := "items", model := "products",
          pk := "11", spec := Ex.productsSpec } ]) ∧
    (permuteTasks (List.range 2)
        [ { itemIdx := 0, slotIdx := 0, relKey := "items", model := "products",
            pk := "10", spec := Ex.productsSpec },
          { itemIdx := 0, slotIdx := 0, relKey := "items", model := "products",
            pk := "11", spec := Ex.productsSpec } ] =
      [ { itemIdx := 0, slotIdx := 0, relKey := "items", model := "products",
          pk := "10", spec := Ex.productsSpec },
        { itemIdx := 0, slotIdx := 0, relKey := "items", model := "products",
          pk := "11", spec := Ex.productsSpec } ]) := by
  refine ⟨C7_amended.1 Ex.baseEnv Ex.inbJoin Ex.productsSpec Ex.productsLMM
            .relatedRecordId "items"
            [ { related_record_id := some 10, related_record_uuid := none },
              { related_record_id := some 11, related_record_uuid := none } ]
            [("id", Value.vNum 7), ("items", Value.vArr [])]
            (initState Ex.inbJoin) [] rfl,
          C7_amended.2.1 [] 0 [(0, "items")] [] (0, "items") (by simp) (by simp),
          C7_amended.2.2.1 Ex.baseEnv Ex.inbJoin _ (initState Ex.inbJoin) rfl,
          C7_amended.2.2.2 _⟩

end Buildly
